import Mathlib

/-!
# pod5 file writer: a shallow embedding of `src/c++/pod5_format/file_writer.cpp`

The C++ objects are mutable; every method becomes a function that takes the
object (and, where files are touched, the file system) and returns the status
together with the updated object.  Loops that the source does not bound are
driven by an explicit iteration budget; when the budget is used up they report
that (status `none`, outcome `out_of_fuel`) and keep the state reached so far.

Conventions
* `std::size_t` arithmetic is `Nat` arithmetic reduced modulo `2 ^ 64`;
  `std::uint32_t` values are `Nat`s below `2 ^ 32`.
* `std::int64_t` file offsets are `Int`s.  They are differences of file
  positions, which are non-negative and far below `2 ^ 63`, so no reduction is
  applied to them.
* Memory exhaustion (a failing `TypedBufferBuilder::Append`, a failing
  `std::vector` allocation) is outside the embedding.
-/

namespace Pod5

/-! ## Status values -/

/-- The failing `arrow::Status` codes that occur in the writer. -/
inductive Error where
  | Invalid (msg : String)
  | IoError (msg : String)
  deriving DecidableEq, Repr

/-- The message of a failed status (`Status::message()`, `error_code::message()`). -/
def Error.message : Error → String
  | Error.Invalid msg => msg
  | Error.IoError msg => msg

/-- Embedding of `pod5::Result<T>`. -/
abbrev Result (α : Type) := Except Error α

/-- Embedding of `pod5::Status` / `arrow::Status`. -/
abbrev Status := Except Error Unit

/-- The status `arrow::Status::OK()`. -/
def Status.OK : Status := Except.ok ()

/-- The message used by every closed-writer guard of `FileWriterImpl`. -/
def writer_closed_msg : String := "File writer closed, cannot write further data"

/-! ## Plain data -/

abbrev Byte := Nat

/-- A `boost::uuids::uuid`: sixteen bytes. -/
structure Uuid where
  bytes : List Byte
  size_eq : bytes.length = 16

/-- Two to the power 64, the modulus of `std::size_t` arithmetic. -/
def SIZE_T_MOD : Nat := 2 ^ 64

/-- Two to the power 32, the modulus of `std::uint32_t`. -/
def UINT32_MOD : Nat := 2 ^ 32

/-- Modelled from the spec: `ReadData` (declared in `read_table_utils.h`, not part
of the sources at hand): a 128-bit read identifier, the dictionary indices of the
read and its remaining numeric fields. -/
structure ReadData where
  read_id : Uuid
  pore : Nat
  calibration : Nat
  end_reason : Nat
  run_info : Nat
  fields : List Int

/-! ## The world outside the writer: files, streams, faults -/

/-- A `boost::filesystem::path`, split into parent directory and file name. -/
structure Path where
  parent : String
  filename : String
  deriving DecidableEq, Repr

/-- Embedding of `combined_file_utils::FileInfo`. -/
structure FileInfo where
  file_start_offset : Int
  file_length : Int
  deriving DecidableEq, Repr

/-- The arguments of one `combined_file_utils::write_footer` call. -/
structure Footer where
  section_marker : Uuid
  file_identifier : Uuid
  software_name : String
  signal_table : FileInfo
  read_table : FileInfo

/-- The calls into `arrow::io` and `boost::filesystem` that can fail, with the
arguments the outcome may depend on (`pos` is the position of the stream). -/
inductive IoCall where
  | open_write (path : Path) (append : Bool)
  | open_read (path : Path)
  | tell (path : Path) (pos : Nat)
  | write (path : Path) (pos : Nat) (nbytes : Nat)
  | get_size (path : Path)
  | read (path : Path) (pos : Nat) (nbytes : Nat)
  | remove (path : Path)

/-- The state outside the writer object.  `files` is the content of every existing
file.  `fault` is the verdict of the operating system on a call (`none`: the call
goes through) and `read_len` the number of bytes it is willing to deliver to a
`Read` at a position.  `footers` lists the arguments of the `write_footer` calls
made so far, oldest first. -/
structure World where
  files : Path → Option (List Byte)
  fault : IoCall → Option Error
  read_len : Path → Nat → Nat → Nat
  footers : List Footer

/-- The world with the content of one path replaced. -/
def World.set (s : World) (path : Path) (content : Option (List Byte)) : World :=
  { s with files := fun q => if q = path then content else s.files q }

/-- How a computation in the world ends. -/
inductive Outcome (α : Type) where
  | done (a : α)
  | failed (e : Error)
  | out_of_fuel

/-- A computation that reads and changes the world. -/
def M (α : Type) : Type := World → Outcome α × World

/-- Sequencing in `M`: a failure (`ARROW_RETURN_NOT_OK`, `ARROW_ASSIGN_OR_RAISE`)
ends the computation and keeps the world reached. -/
def M.bind {α β : Type} (m : M α) (f : α → M β) : M β := fun s =>
  match m s with
  | (Outcome.done a, s1) => f a s1
  | (Outcome.failed e, s1) => (Outcome.failed e, s1)
  | (Outcome.out_of_fuel, s1) => (Outcome.out_of_fuel, s1)

instance : Monad M where
  pure a := fun s => (Outcome.done a, s)
  bind := M.bind

/-- Returning a failed status. -/
def M.fail {α : Type} (e : Error) : M α := fun s => (Outcome.failed e, s)

/-- Embedding of `boost::filesystem::exists`. -/
def fs_exists (path : Path) : M Bool := fun s => (Outcome.done (s.files path).isSome, s)

/-- Embedding of `boost::filesystem::remove(path, ec)`: the result is the error
code, `none` for success.  Removing a missing file is no error. -/
def fs_remove (path : Path) : M (Option Error) := fun s =>
  match s.fault (IoCall.remove path) with
  | some e => (Outcome.done (some e), s)
  | none => (Outcome.done none, s.set path none)

/-- An `arrow::io::FileOutputStream`.  The stream was opened truncating or
appending and is the only writer of its file, so its position is the length of the
file. -/
structure FileOutputStream where
  path : Path

/-- `arrow::io::FileOutputStream::Open(path, append)`: creates the file when it is
missing and truncates it unless `append` is set. -/
def FileOutputStream.Open (path : Path) (append : Bool) : M FileOutputStream := fun s =>
  match s.fault (IoCall.open_write path append) with
  | some e => (Outcome.failed e, s)
  | none =>
    match append, s.files path with
    | true, some _ => (Outcome.done ⟨path⟩, s)
    | _, _ => (Outcome.done ⟨path⟩, s.set path (some []))

/-- `arrow::io::FileOutputStream::Tell()`. -/
def FileOutputStream.Tell (file : FileOutputStream) : M Int := fun s =>
  match s.files file.path with
  | none => (Outcome.failed (Error.IoError "Tell: file is gone"), s)
  | some content =>
    match s.fault (IoCall.tell file.path content.length) with
    | some e => (Outcome.failed e, s)
    | none => (Outcome.done (content.length : Int), s)

/-- `arrow::io::FileOutputStream::Write(data, nbytes)`. -/
def FileOutputStream.Write (file : FileOutputStream) (data : List Byte) : M Unit := fun s =>
  match s.files file.path with
  | none => (Outcome.failed (Error.IoError "Write: file is gone"), s)
  | some content =>
    match s.fault (IoCall.write file.path content.length data.length) with
    | some e => (Outcome.failed e, s)
    | none => (Outcome.done (), s.set file.path (some (content ++ data)))

/-- An `arrow::io::ReadableFile` with its read position. -/
structure ReadableFile where
  path : Path
  pos : Nat

/-- `arrow::io::ReadableFile::Open(path, pool)`. -/
def ReadableFile.Open (path : Path) : M ReadableFile := fun s =>
  match s.files path with
  | none => (Outcome.failed (Error.IoError "Open: no such file"), s)
  | some _ =>
    match s.fault (IoCall.open_read path) with
    | some e => (Outcome.failed e, s)
    | none => (Outcome.done ⟨path, 0⟩, s)

/-- `arrow::io::ReadableFile::GetSize()`. -/
def ReadableFile.GetSize (file : ReadableFile) : M Int := fun s =>
  match s.files file.path with
  | none => (Outcome.failed (Error.IoError "GetSize: file is gone"), s)
  | some content =>
    match s.fault (IoCall.get_size file.path) with
    | some e => (Outcome.failed e, s)
    | none => (Outcome.done (content.length : Int), s)

/-- `arrow::io::ReadableFile::Read(nbytes, out)`: delivers the bytes read and moves
the position; never more than `nbytes`, than what is left, or than the operating
system delivers. -/
def ReadableFile.Read (file : ReadableFile) (nbytes : Nat) : M (List Byte × ReadableFile) :=
  fun s =>
  match s.files file.path with
  | none => (Outcome.failed (Error.IoError "Read: file is gone"), s)
  | some content =>
    match s.fault (IoCall.read file.path file.pos nbytes) with
    | some e => (Outcome.failed e, s)
    | none =>
      let data := (content.drop file.pos).take (min nbytes (s.read_len file.path file.pos nbytes))
      (Outcome.done (data, { file with pos := file.pos + data.length }), s)

/-! ## `SubFileOutputStream` -/

/-- Embedding of `class SubFileOutputStream`. -/
structure SubFileOutputStream where
  m_main_stream : FileOutputStream
  m_offset : Int

/-- Embedding of `SubFileOutputStream::Tell`. -/
def SubFileOutputStream.Tell (sub : SubFileOutputStream) : M Int := do
  let tell ← sub.m_main_stream.Tell
  pure (tell - sub.m_offset)

/-- Embedding of `SubFileOutputStream::Write(data, nbytes)`. -/
def SubFileOutputStream.Write (sub : SubFileOutputStream) (data : List Byte) : M Unit :=
  sub.m_main_stream.Write data

/-- The `std::shared_ptr<arrow::io::OutputStream>` a table writer is given as its
sink: a file stream, or a sub-stream of one. -/
inductive OutputStream where
  | file (stream : FileOutputStream)
  | sub (stream : SubFileOutputStream)

/-! ## Signal table writer -/

/-- What one signal-table row holds: raw samples, or compressed bytes with the
declared sample count. -/
inductive SignalPayload where
  | raw (samples : List Int)
  | compressed (bytes : List Byte) (sample_count : Nat)

/-- One row of the signal table. -/
structure SignalRow where
  read_id : Uuid
  payload : SignalPayload

/-- Number of samples a row stands for. -/
def SignalRow.sample_count (r : SignalRow) : Nat :=
  match r.payload with
  | SignalPayload.raw s => s.length
  | SignalPayload.compressed _ n => n

/-- Modelled from the spec: `SignalTableWriter` (`signal_table_writer.h` is not
part of the sources at hand).  Section 4.2: every accepted chunk is appended as one
row and the row's sequential index is returned; failures of the storage layer
propagate verbatim; appending after `close` is an invalid operation.  The storage
layer's verdicts are the two fault fields: `append_fault k` is its answer to the
append that would create row `k`, `close_fault` its answer to `close`.
`close_calls` counts how often `close` was invoked.  `sink` is the stream the
writer was created on; the bytes a table writer emits into its sink belong to the
physical table encoding and are not part of this development. -/
structure SignalTableWriter where
  sink : OutputStream
  rows : List SignalRow
  closed : Bool
  close_calls : Nat
  append_fault : Nat → Option Error
  close_fault : Option Error

/-- Modelled from the spec: appending one row (shared by both `add_*` methods of
the signal table writer). -/
def SignalTableWriter.append (w : SignalTableWriter) (row : SignalRow) :
    Result Nat × SignalTableWriter :=
  if w.closed then
    (Except.error (Error.Invalid "Signal table writer closed"), w)
  else
    match w.append_fault w.rows.length with
    | some e => (Except.error e, w)
    | none => (Except.ok w.rows.length, { w with rows := w.rows ++ [row] })

/-- Modelled from the spec: `SignalTableWriter::add_signal(read_id, samples)`. -/
def SignalTableWriter.add_signal (w : SignalTableWriter) (read_id : Uuid)
    (samples : List Int) : Result Nat × SignalTableWriter :=
  w.append ⟨read_id, SignalPayload.raw samples⟩

/-- Modelled from the spec:
`SignalTableWriter::add_pre_compressed_signal(read_id, bytes, sample_count)`. -/
def SignalTableWriter.add_pre_compressed_signal (w : SignalTableWriter) (read_id : Uuid)
    (signal_bytes : List Byte) (sample_count : Nat) : Result Nat × SignalTableWriter :=
  w.append ⟨read_id, SignalPayload.compressed signal_bytes sample_count⟩

/-- Modelled from the spec: `SignalTableWriter::close()`: flushes and finalises
unless the storage layer fails. -/
def SignalTableWriter.close (w : SignalTableWriter) : Status × SignalTableWriter :=
  match w.close_fault with
  | some e => (Except.error e, { w with close_calls := w.close_calls + 1 })
  | none => (Status.OK, { w with closed := true, close_calls := w.close_calls + 1 })

/-! ## Read table writer -/

/-- One row of the read table: the read's metadata and its manifest of signal
rows. -/
structure ReadRow where
  read_data : ReadData
  signal_rows : List Nat

/-- Modelled from the spec: `ReadTableWriter` (`read_table_writer.h` is not part of
the sources at hand).  Section 4.3: `add_read` appends one row holding the metadata
and the manifest, without validating the manifest, and returns the row's index.
The fault fields, `close_calls` and `sink` are as for the signal table writer. -/
structure ReadTableWriter where
  sink : OutputStream
  rows : List ReadRow
  closed : Bool
  close_calls : Nat
  append_fault : Nat → Option Error
  close_fault : Option Error

/-- Modelled from the spec: `ReadTableWriter::add_read(read_data, signal_rows)`. -/
def ReadTableWriter.add_read (w : ReadTableWriter) (read_data : ReadData)
    (signal_rows : List Nat) : Result Nat × ReadTableWriter :=
  if w.closed then
    (Except.error (Error.Invalid "Read table writer closed"), w)
  else
    match w.append_fault w.rows.length with
    | some e => (Except.error e, w)
    | none => (Except.ok w.rows.length, { w with rows := w.rows ++ [⟨read_data, signal_rows⟩] })

/-- Modelled from the spec: `ReadTableWriter::close()`. -/
def ReadTableWriter.close (w : ReadTableWriter) : Status × ReadTableWriter :=
  match w.close_fault with
  | some e => (Except.error e, { w with close_calls := w.close_calls + 1 })
  | none => (Status.OK, { w with closed := true, close_calls := w.close_calls + 1 })

/-! ## Dictionary writers -/

/-- Modelled from the spec: the record types `PoreData`, `CalibrationData`,
`EndReasonData` and `RunInfoData` (declared in `read_table_utils.h`, not part of
the sources at hand) are value-equal records; a record is represented by the list
of its field values. -/
structure DictRecord where
  values : List Int
  deriving DecidableEq, Repr

abbrev PoreData := DictRecord
abbrev CalibrationData := DictRecord
abbrev EndReasonData := DictRecord
abbrev RunInfoData := DictRecord

/-- Modelled from the spec: the dictionary writers (`read_table_writer_utils.h` is
not part of the sources at hand).  Section 4.1: a value seen before gets its
existing index and nothing is appended; a new value is appended and gets the next
index; the only failure is a failing append of the backing table
(`append_fault k` is the storage layer's answer to the append of entry `k`). -/
structure DictionaryWriter where
  entries : List DictRecord
  append_fault : Nat → Option Error

/-- Modelled from the spec: `DictionaryWriter::add(record)`. -/
def DictionaryWriter.add (w : DictionaryWriter) (record : DictRecord) :
    Result Nat × DictionaryWriter :=
  if record ∈ w.entries then
    (Except.ok (w.entries.indexOf record), w)
  else
    match w.append_fault w.entries.length with
    | some e => (Except.error e, w)
    | none => (Except.ok w.entries.length, { w with entries := w.entries ++ [record] })

/-! ## `FileWriterImpl` -/

/-- Embedding of `FileWriterImpl::DictionaryWriters`. -/
structure DictionaryWriters where
  pore_writer : DictionaryWriter
  end_reason_writer : DictionaryWriter
  calibration_writer : DictionaryWriter
  run_info_writer : DictionaryWriter

/-- Embedding of `class FileWriterImpl`: the two `boost::optional` table writers,
the dictionary writers and the chunk size (`m_pool` carries no behaviour). -/
structure FileWriterImpl where
  m_dict_writers : DictionaryWriters
  m_read_table_writer : Option ReadTableWriter
  m_signal_table_writer : Option SignalTableWriter
  m_signal_chunk_size : Nat

namespace FileWriterImpl

/-- Embedding of `FileWriterImpl::add_pore`. -/
def add_pore (w : FileWriterImpl) (pore_data : PoreData) : Result Nat × FileWriterImpl :=
  let r := w.m_dict_writers.pore_writer.add pore_data
  (r.1, { w with m_dict_writers := { w.m_dict_writers with pore_writer := r.2 } })

/-- Embedding of `FileWriterImpl::add_calibration`. -/
def add_calibration (w : FileWriterImpl) (calibration_data : CalibrationData) :
    Result Nat × FileWriterImpl :=
  let r := w.m_dict_writers.calibration_writer.add calibration_data
  (r.1, { w with m_dict_writers := { w.m_dict_writers with calibration_writer := r.2 } })

/-- Embedding of `FileWriterImpl::add_end_reason`. -/
def add_end_reason (w : FileWriterImpl) (end_reason_data : EndReasonData) :
    Result Nat × FileWriterImpl :=
  let r := w.m_dict_writers.end_reason_writer.add end_reason_data
  (r.1, { w with m_dict_writers := { w.m_dict_writers with end_reason_writer := r.2 } })

/-- Embedding of `FileWriterImpl::add_run_info`. -/
def add_run_info (w : FileWriterImpl) (run_info_data : RunInfoData) :
    Result Nat × FileWriterImpl :=
  let r := w.m_dict_writers.run_info_writer.add run_info_data
  (r.1, { w with m_dict_writers := { w.m_dict_writers with run_info_writer := r.2 } })

/-- The `for` loop of `add_complete_read` (raw-samples form), entered at the loop
test with the current `chunk_start`, signal table writer and row builder content.
`fuel` bounds the number of iterations still allowed.  The status is `none` when
the budget ends while the loop test still holds, `some (error e)` when `add_signal`
raised `e`, and `some (ok rows)` with the builder content when the loop test
failed. -/
def chunk_loop (chunk_size : Nat) (read_id : Uuid) (signal : List Int) :
    Nat → Nat → SignalTableWriter → List Nat → Option (Result (List Nat)) × SignalTableWriter
  | fuel, chunk_start, stw, builder =>
    if chunk_start < signal.length then
      match fuel with
      | 0 => (none, stw)
      | fuel + 1 =>
        let size := min (signal.length - chunk_start) chunk_size
        let chunk_span := (signal.drop chunk_start).take size
        match stw.add_signal read_id chunk_span with
        | (Except.error e, stw1) => (some (Except.error e), stw1)
        | (Except.ok row_index, stw1) =>
          chunk_loop chunk_size read_id signal fuel
            ((chunk_start + chunk_size) % SIZE_T_MOD) stw1 (builder ++ [row_index])
    else
      (some (Except.ok builder), stw)

/-- Embedding of `FileWriterImpl::add_complete_read(read_data, signal)` (raw-samples
form).  The status is `none` when the chunking loop used up `fuel`. -/
def add_complete_read (fuel : Nat) (w : FileWriterImpl) (read_data : ReadData)
    (signal : List Int) : Option Status × FileWriterImpl :=
  match w.m_signal_table_writer, w.m_read_table_writer with
  | some stw, some rtw =>
    match chunk_loop w.m_signal_chunk_size read_data.read_id signal fuel 0 stw [] with
    | (none, stw1) => (none, { w with m_signal_table_writer := some stw1 })
    | (some (Except.error e), stw1) =>
      (some (Except.error e), { w with m_signal_table_writer := some stw1 })
    | (some (Except.ok signal_rows), stw1) =>
      let read_table_row := rtw.add_read read_data signal_rows
      (some (read_table_row.1.map fun _ => ()),
        { w with m_signal_table_writer := some stw1, m_read_table_writer := some read_table_row.2 })
  | _, _ => (some (Except.error (Error.Invalid writer_closed_msg)), w)

/-- Embedding of `FileWriterImpl::add_complete_read(read_data, signal_rows)`
(row-indices form). -/
def add_complete_read_rows (w : FileWriterImpl) (read_data : ReadData)
    (signal_rows : List Nat) : Status × FileWriterImpl :=
  match w.m_signal_table_writer, w.m_read_table_writer with
  | some _, some rtw =>
    let read_table_row := rtw.add_read read_data signal_rows
    (read_table_row.1.map fun _ => (), { w with m_read_table_writer := some read_table_row.2 })
  | _, _ => (Except.error (Error.Invalid writer_closed_msg), w)

/-- Embedding of `FileWriterImpl::add_pre_compressed_signal`. -/
def add_pre_compressed_signal (w : FileWriterImpl) (read_id : Uuid)
    (signal_bytes : List Byte) (sample_count : Nat) : Result Nat × FileWriterImpl :=
  match w.m_signal_table_writer, w.m_read_table_writer with
  | some stw, some _ =>
    let r := stw.add_pre_compressed_signal read_id signal_bytes sample_count
    (r.1, { w with m_signal_table_writer := some r.2 })
  | _, _ => (Except.error (Error.Invalid writer_closed_msg), w)

/-- Embedding of `FileWriterImpl::close_read_table_writer`. -/
def close_read_table_writer (w : FileWriterImpl) : Status × FileWriterImpl :=
  match w.m_read_table_writer with
  | some rtw =>
    match rtw.close with
    | (Except.error e, rtw1) => (Except.error e, { w with m_read_table_writer := some rtw1 })
    | (Except.ok _, _) => (Status.OK, { w with m_read_table_writer := none })
  | none => (Status.OK, w)

/-- Embedding of `FileWriterImpl::close_signal_table_writer`. -/
def close_signal_table_writer (w : FileWriterImpl) : Status × FileWriterImpl :=
  match w.m_signal_table_writer with
  | some stw =>
    match stw.close with
    | (Except.error e, stw1) => (Except.error e, { w with m_signal_table_writer := some stw1 })
    | (Except.ok _, _) => (Status.OK, { w with m_signal_table_writer := none })
  | none => (Status.OK, w)

/-- Embedding of `FileWriterImpl::close` (the base, split-file writer). -/
def close (w : FileWriterImpl) : Status × FileWriterImpl :=
  match close_read_table_writer w with
  | (Except.error e, w1) => (Except.error e, w1)
  | (Except.ok _, w1) =>
    match close_signal_table_writer w1 with
    | (Except.error e, w2) => (Except.error e, w2)
    | (Except.ok _, w2) => (Status.OK, w2)

/-- The condition of the `assert` in `FileWriterImpl::is_closed`. -/
def is_closed_assertion (w : FileWriterImpl) : Bool :=
  w.m_read_table_writer.isSome == w.m_signal_table_writer.isSome

/-- Embedding of `FileWriterImpl::is_closed` (its return value). -/
def is_closed (w : FileWriterImpl) : Bool :=
  !w.m_signal_table_writer.isSome

end FileWriterImpl

/-! ## `combined_file_utils` -/

/-- The byte layouts fixed by `combined_file_utils.h`, which is not part of the
sources at hand: the bytes of the combined-file header for a section marker and the
bytes of a footer. -/
structure Format where
  header : Uuid → List Byte
  footer : Footer → List Byte

/-- The distance from `pos` to the next multiple of `padd_modulo` (zero when `pos`
is a multiple). -/
def bytes_to_pad (padd_modulo pos : Nat) : Nat :=
  (padd_modulo - pos % padd_modulo) % padd_modulo

/-- Modelled from the spec: `combined_file_utils::padd_file(file, padd_modulo)` pads
the file with zero bytes up to the next multiple of `padd_modulo` (section 4.5,
steps 3 and 5); nothing is written when the position is a multiple already. -/
def padd_file (file : FileOutputStream) (padd_modulo : Nat) : M Unit := do
  let current_byte_location ← file.Tell
  let bytes_to_write := bytes_to_pad padd_modulo current_byte_location.toNat
  if bytes_to_write = 0 then pure () else file.Write (List.replicate bytes_to_write 0)

/-- Modelled from the spec: `combined_file_utils::write_section_marker(file, marker)`
writes the sixteen bytes of the marker (section 3, section marker). -/
def write_section_marker (file : FileOutputStream) (section_marker : Uuid) : M Unit :=
  file.Write section_marker.bytes

/-- Recording the arguments of a `write_footer` call. -/
def log_footer (footer : Footer) : M Unit := fun s =>
  (Outcome.done (), { s with footers := s.footers ++ [footer] })

/-- Modelled from the spec: `combined_file_utils::write_footer` writes the footer
holding the file identifier, the software name and both `FileInfo` records
(section 4.5, step 6). -/
def write_footer (fmt : Format) (file : FileOutputStream) (section_marker : Uuid)
    (file_identifier : Uuid) (software_name : String) (signal_table : FileInfo)
    (read_table : FileInfo) : M Unit := do
  let footer : Footer :=
    ⟨section_marker, file_identifier, software_name, signal_table, read_table⟩
  file.Write (fmt.footer footer)
  log_footer footer

/-- Modelled from the spec: `combined_file_utils::write_combined_header` writes the
section-marker-framed header (section 6, layout). -/
def write_combined_header (fmt : Format) (file : FileOutputStream) (section_marker : Uuid) :
    M Unit :=
  file.Write (fmt.header section_marker)

/-! ## `CombinedFileWriterImpl` -/

/-- Embedding of `class CombinedFileWriterImpl`. -/
structure CombinedFileWriterImpl extends FileWriterImpl where
  m_path : Path
  m_reads_tmp_path : Path
  m_signal_file_start_offset : Int
  m_section_marker : Uuid
  m_file_identifier : Uuid
  m_software_name : String

/-- The constant `target_chunk_size` of `CombinedFileWriterImpl::close`: 10 MiB. -/
def target_chunk_size : Nat := 10 * 1024 * 1024

/-- The `while (copied_bytes < file_size)` loop of `CombinedFileWriterImpl::close`,
entered at the loop test.  `fuel` bounds the iterations still allowed. -/
def copy_loop (file : FileOutputStream) (file_size : Int) :
    Nat → ReadableFile → Int → M Unit
  | fuel, reads_table_file_in, copied_bytes =>
    if copied_bytes < file_size then
      match fuel with
      | 0 => fun s => (Outcome.out_of_fuel, s)
      | fuel + 1 => do
        let r ← reads_table_file_in.Read target_chunk_size
        let read_bytes : Int := r.1.length
        file.Write r.1
        copy_loop file file_size fuel r.2 (copied_bytes + read_bytes)
    else
      pure ()

namespace CombinedFileWriterImpl

/-- The part of `CombinedFileWriterImpl::close` that follows the closing of the two
table writers: re-opening the main file, the signal table `FileInfo`, padding and
marker, the copy of the read table, the removal of the temporary file, padding,
marker and footer. -/
def splice (fmt : Format) (fuel : Nat) (w : CombinedFileWriterImpl) : M Unit := do
  let file ← FileOutputStream.Open w.m_path true
  let tell ← file.Tell
  let signal_table : FileInfo :=
    ⟨w.m_signal_file_start_offset, tell - w.m_signal_file_start_offset⟩
  padd_file file 8
  write_section_marker file w.m_section_marker
  let read_start ← file.Tell
  let reads_table_file_in ← ReadableFile.Open w.m_reads_tmp_path
  let file_size ← reads_table_file_in.GetSize
  copy_loop file file_size fuel reads_table_file_in 0
  let read_end ← file.Tell
  let read_info_table : FileInfo := ⟨read_start, read_end - read_start⟩
  let ec ← fs_remove w.m_reads_tmp_path
  match ec with
  | some e =>
    M.fail (Error.Invalid ("Failed to remove temporary file: " ++ e.message))
  | none => do
    padd_file file 8
    write_section_marker file w.m_section_marker
    write_footer fmt file w.m_section_marker w.m_file_identifier w.m_software_name
      signal_table read_info_table

/-- Embedding of `CombinedFileWriterImpl::close`.  The bytes the two table writers
flush into their sinks are not modelled, so `s` stands for the files as the table
writers leave them. -/
def close (fmt : Format) (fuel : Nat) (w : CombinedFileWriterImpl) (s : World) :
    Outcome Unit × CombinedFileWriterImpl × World :=
  if w.toFileWriterImpl.is_closed then
    (Outcome.done (), w, s)
  else
    match w.toFileWriterImpl.close_read_table_writer with
    | (Except.error e, base1) => (Outcome.failed e, { w with toFileWriterImpl := base1 }, s)
    | (Except.ok _, base1) =>
      match base1.close_signal_table_writer with
      | (Except.error e, base2) => (Outcome.failed e, { w with toFileWriterImpl := base2 }, s)
      | (Except.ok _, base2) =>
        let r := splice fmt fuel w s
        (r.1, { w with toFileWriterImpl := base2 }, r.2)

end CombinedFileWriterImpl

/-! ## `FileWriter` -/

/-- Embedding of `class FileWriter`: it owns a `FileWriterImpl`, which is the base
class or `CombinedFileWriterImpl`; `close` is virtual. -/
inductive FileWriter where
  | split (impl : FileWriterImpl)
  | combined (impl : CombinedFileWriterImpl)

namespace FileWriter

/-- The `FileWriterImpl` part of the implementation object. -/
def base : FileWriter → FileWriterImpl
  | split impl => impl
  | combined impl => impl.toFileWriterImpl

/-- Replacing the `FileWriterImpl` part of the implementation object. -/
def with_base : FileWriter → FileWriterImpl → FileWriter
  | split _, b => split b
  | combined impl, b => combined { impl with toFileWriterImpl := b }

/-- Embedding of `FileWriter::close`. -/
def close (fmt : Format) (fuel : Nat) (fw : FileWriter) (s : World) :
    Outcome Unit × FileWriter × World :=
  match fw with
  | split impl =>
    match impl.close with
    | (Except.error e, impl1) => (Outcome.failed e, split impl1, s)
    | (Except.ok _, impl1) => (Outcome.done (), split impl1, s)
  | combined impl =>
    let r := impl.close fmt fuel s
    (r.1, combined r.2.1, r.2.2)

/-- Embedding of `FileWriter::add_complete_read` (raw-samples form). -/
def add_complete_read (fuel : Nat) (fw : FileWriter) (read_data : ReadData)
    (signal : List Int) : Option Status × FileWriter :=
  let r := fw.base.add_complete_read fuel read_data signal
  (r.1, fw.with_base r.2)

/-- Embedding of `FileWriter::add_complete_read` (row-indices form). -/
def add_complete_read_rows (fw : FileWriter) (read_data : ReadData)
    (signal_rows : List Nat) : Status × FileWriter :=
  let r := fw.base.add_complete_read_rows read_data signal_rows
  (r.1, fw.with_base r.2)

/-- Embedding of `FileWriter::add_pre_compressed_signal`. -/
def add_pre_compressed_signal (fw : FileWriter) (read_id : Uuid) (signal_bytes : List Byte)
    (sample_count : Nat) : Result Nat × FileWriter :=
  let r := fw.base.add_pre_compressed_signal read_id signal_bytes sample_count
  (r.1, fw.with_base r.2)

/-- Embedding of `FileWriter::add_pore`. -/
def add_pore (fw : FileWriter) (pore_data : PoreData) : Result Nat × FileWriter :=
  let r := fw.base.add_pore pore_data
  (r.1, fw.with_base r.2)

/-- Embedding of `FileWriter::add_calibration`. -/
def add_calibration (fw : FileWriter) (calibration_data : CalibrationData) :
    Result Nat × FileWriter :=
  let r := fw.base.add_calibration calibration_data
  (r.1, fw.with_base r.2)

/-- Embedding of `FileWriter::add_end_reason`. -/
def add_end_reason (fw : FileWriter) (end_reason_data : EndReasonData) :
    Result Nat × FileWriter :=
  let r := fw.base.add_end_reason end_reason_data
  (r.1, fw.with_base r.2)

/-- Embedding of `FileWriter::add_run_info`. -/
def add_run_info (fw : FileWriter) (run_info_data : RunInfoData) : Result Nat × FileWriter :=
  let r := fw.base.add_run_info run_info_data
  (r.1, fw.with_base r.2)

end FileWriter

/-- One call of the public interface of `FileWriter`, with its arguments (and the
iteration budget of the loops it may run). -/
inductive Call where
  | add_pore (pore_data : PoreData)
  | add_calibration (calibration_data : CalibrationData)
  | add_end_reason (end_reason_data : EndReasonData)
  | add_run_info (run_info_data : RunInfoData)
  | add_complete_read (fuel : Nat) (read_data : ReadData) (signal : List Int)
  | add_complete_read_rows (read_data : ReadData) (signal_rows : List Nat)
  | add_pre_compressed_signal (read_id : Uuid) (signal_bytes : List Byte) (sample_count : Nat)
  | close (fuel : Nat)

/-- The writer and the world after one call; the returned status is dropped. -/
def FileWriter.call (fmt : Format) (c : Call) (st : FileWriter × World) : FileWriter × World :=
  match c with
  | Call.add_pore d => ((st.1.add_pore d).2, st.2)
  | Call.add_calibration d => ((st.1.add_calibration d).2, st.2)
  | Call.add_end_reason d => ((st.1.add_end_reason d).2, st.2)
  | Call.add_run_info d => ((st.1.add_run_info d).2, st.2)
  | Call.add_complete_read fuel rd signal => ((st.1.add_complete_read fuel rd signal).2, st.2)
  | Call.add_complete_read_rows rd rows => ((st.1.add_complete_read_rows rd rows).2, st.2)
  | Call.add_pre_compressed_signal id bytes n =>
    ((st.1.add_pre_compressed_signal id bytes n).2, st.2)
  | Call.close fuel => (st.1.close fmt fuel st.2).2

/-- The writer and the world after a sequence of calls, made in list order. -/
def FileWriter.run (fmt : Format) (calls : List Call) (st : FileWriter × World) :
    FileWriter × World :=
  calls.foldl (fun acc c => FileWriter.call fmt c acc) st

/-! ## Creating writers -/

/-- The memory pool handed to a writer; it carries no behaviour here. -/
structure MemoryPool where
  id : Nat

/-- The signal encodings a writer can be configured with. -/
inductive SignalType where
  | UncompressedSignal
  | VbzSignal

/-- Embedding of `class FileWriterOptions` (a null `m_memory_pool` is `none`). -/
structure FileWriterOptions where
  m_max_signal_chunk_size : Nat
  m_memory_pool : Option MemoryPool
  m_signal_type : SignalType
  m_signal_table_batch_size : Nat
  m_read_table_batch_size : Nat

/-- What the surroundings decide while a writer is created: the values drawn from
the random UUID generator (`uuid 0` first, then `uuid 1`), the failures of the
`make_*` helpers, and the fault verdicts the new dictionary and table writers will
meet. -/
structure Environment where
  uuid : Nat → Uuid
  dictionary_fault : Option Error
  metadata_fault : Option Error
  read_writer_fault : Option Error
  signal_writer_fault : Option Error
  dict_append_fault : Nat → Option Error
  read_append_fault : Nat → Option Error
  read_close_fault : Option Error
  signal_append_fault : Nat → Option Error
  signal_close_fault : Option Error

/-- Lifting an optional failure into `M`. -/
def M.check (fault : Option Error) : M Unit :=
  match fault with
  | some e => M.fail e
  | none => pure ()

/-- Embedding of `make_dictionary_writers`; the `make_*_writer` helpers it calls
are modelled from the spec: each yields an empty dictionary. -/
def make_dictionary_writers (env : Environment) : M DictionaryWriters := do
  M.check env.dictionary_fault
  let fresh : DictionaryWriter := ⟨[], env.dict_append_fault⟩
  pure ⟨fresh, fresh, fresh, fresh⟩

/-- Modelled from the spec: `make_read_table_writer` yields an open read table
writer without rows on the given sink. -/
def make_read_table_writer (env : Environment) (sink : OutputStream) : M ReadTableWriter := do
  M.check env.read_writer_fault
  pure ⟨sink, [], false, 0, env.read_append_fault, env.read_close_fault⟩

/-- Modelled from the spec: `make_signal_table_writer` yields an open signal table
writer without rows on the given sink. -/
def make_signal_table_writer (env : Environment) (sink : OutputStream) :
    M SignalTableWriter := do
  M.check env.signal_writer_fault
  pure ⟨sink, [], false, 0, env.signal_append_fault, env.signal_close_fault⟩

/-- The text of a path (`path.string()`): the parent directory and the file name
with one separator in between, and without separator when the path has no parent
directory (`reads.pod5`) or the parent directory ends in one (the root directory). -/
def Path.string (path : Path) : String :=
  if path.parent = "" ∨ path.parent.data.getLast? = some '/' then path.parent ++ path.filename
  else path.parent ++ "/" ++ path.filename

/-- The message of the pre-existing-path failure. -/
def already_exists_msg (path : Path) : String :=
  "Unable to create new file '" ++ path.string ++ "', already exists"

/-- Embedding of `create_split_file_writer`. -/
def create_split_file_writer (env : Environment) (signal_path reads_path : Path)
    (_writing_software_name : String) (options : FileWriterOptions) : M FileWriter :=
  match options.m_memory_pool with
  | none => M.fail (Error.Invalid "Invalid memory pool specified for file writer")
  | some _ => do
    let reads_exists ← fs_exists reads_path
    if reads_exists then M.fail (Error.Invalid (already_exists_msg reads_path)) else do
    let signal_exists ← fs_exists signal_path
    if signal_exists then M.fail (Error.Invalid (already_exists_msg signal_path)) else do
    let dict_writers ← make_dictionary_writers env
    M.check env.metadata_fault
    let read_table_file ← FileOutputStream.Open reads_path false
    let read_table_writer ← make_read_table_writer env (OutputStream.file read_table_file)
    let signal_table_file ← FileOutputStream.Open signal_path false
    let signal_table_writer ← make_signal_table_writer env (OutputStream.file signal_table_file)
    pure (FileWriter.split
      ⟨dict_writers, some read_table_writer, some signal_table_writer,
        options.m_max_signal_chunk_size⟩)

/-- The path of the temporary read table next to a combined file. -/
def reads_tmp_path_of (path : Path) : Path :=
  ⟨path.parent, "." ++ path.filename ++ ".tmp-reads"⟩

/-- Embedding of `create_combined_file_writer`. -/
def create_combined_file_writer (fmt : Format) (env : Environment) (path : Path)
    (writing_software_name : String) (options : FileWriterOptions) : M FileWriter :=
  match options.m_memory_pool with
  | none => M.fail (Error.Invalid "Invalid memory pool specified for file writer")
  | some _ => do
    let path_exists ← fs_exists path
    if path_exists then M.fail (Error.Invalid (already_exists_msg path)) else do
    let dict_writers ← make_dictionary_writers env
    let section_marker := env.uuid 0
    let file_identifier := env.uuid 1
    M.check env.metadata_fault
    let reads_tmp_path := reads_tmp_path_of path
    let read_table_file ← FileOutputStream.Open reads_tmp_path false
    let read_table_tmp_writer ← make_read_table_writer env (OutputStream.file read_table_file)
    let main_file ← FileOutputStream.Open path false
    write_combined_header fmt main_file section_marker
    let signal_table_start ← main_file.Tell
    let signal_file : SubFileOutputStream := ⟨main_file, signal_table_start⟩
    let signal_table_writer ← make_signal_table_writer env (OutputStream.sub signal_file)
    pure (FileWriter.combined
      { m_dict_writers := dict_writers
        m_read_table_writer := some read_table_tmp_writer
        m_signal_table_writer := some signal_table_writer
        m_signal_chunk_size := options.m_max_signal_chunk_size
        m_path := path
        m_reads_tmp_path := reads_tmp_path
        m_signal_file_start_offset := signal_table_start
        m_section_marker := section_marker
        m_file_identifier := file_identifier
        m_software_name := writing_software_name })

/-! ## Vocabulary of the statements -/

/-- A signal table writer that accepts every row: it is open and its storage layer
never refuses an append. -/
def SignalTableWriter.accepts_all (w : SignalTableWriter) : Prop :=
  w.closed = false ∧ ∀ k, w.append_fault k = none

/-- The row `add_signal` stores for a chunk of raw samples. -/
def raw_row (read_id : Uuid) (samples : List Int) : SignalRow :=
  ⟨read_id, SignalPayload.raw samples⟩

/-- The slice of `signal` that holds the samples `i * C, ..., i * C + C - 1`, as far
as they exist. -/
def chunk_at (C : Nat) (signal : List Int) (i : Nat) : List Int :=
  (signal.drop (i * C)).take C

/-- The quotient `L / C` rounded up. -/
def num_chunks (C L : Nat) : Nat := (L + C - 1) / C

/-- The rows of the signal table of a writer (none once the table writer is torn
down). -/
def FileWriterImpl.signal_rows (w : FileWriterImpl) : List SignalRow :=
  match w.m_signal_table_writer with
  | some stw => stw.rows
  | none => []

/-- The rows of the read table of a writer (none once the table writer is torn
down). -/
def FileWriterImpl.read_rows (w : FileWriterImpl) : List ReadRow :=
  match w.m_read_table_writer with
  | some rtw => rtw.rows
  | none => []

/-- The raw samples a signal row holds (none for a pre-compressed row). -/
def SignalRow.samples (r : SignalRow) : List Int :=
  match r.payload with
  | SignalPayload.raw s => s
  | SignalPayload.compressed _ _ => []

/-- Writing a sequence of buffers through a sub-stream, one `Write` each. -/
def write_all (sub : SubFileOutputStream) : List (List Byte) → M Unit
  | [] => pure ()
  | data :: rest => do
    sub.Write data
    write_all sub rest

/-- The call `call` of the writer `fw` hands its record to the dictionary `dict`:
it returns what the dictionary writer's `add` returns and stores the dictionary
that `add` leaves, the two table writers stay as they are, and when the storage of
the dictionary never fails the call succeeds with an index under which the record
is then found. -/
def FileWriter.delegates (fw : FileWriter)
    (call : FileWriter → DictRecord → Result Nat × FileWriter)
    (dict : DictionaryWriters → DictionaryWriter) : Prop :=
  ∀ record : DictRecord,
    (call fw record).1 = ((dict fw.base.m_dict_writers).add record).1 ∧
    dict (call fw record).2.base.m_dict_writers = ((dict fw.base.m_dict_writers).add record).2 ∧
    (call fw record).2.base.m_signal_table_writer = fw.base.m_signal_table_writer ∧
    (call fw record).2.base.m_read_table_writer = fw.base.m_read_table_writer ∧
    ((∀ k, (dict fw.base.m_dict_writers).append_fault k = none) →
      ∃ i, (call fw record).1 = Except.ok i ∧
        (dict (call fw record).2.base.m_dict_writers).entries[i]? = some record)

/-- The state a successful `close()` leaves: for the split writer both table writers
are torn down, for the combined writer `is_closed()` holds. -/
def FileWriter.torn_down : FileWriter → Prop
  | FileWriter.split impl =>
    impl.m_read_table_writer = none ∧ impl.m_signal_table_writer = none
  | FileWriter.combined impl => impl.m_signal_table_writer = none

/-! ## Concrete inputs -/

/-- A read identifier: sixteen bytes of value 7. -/
def demo_uuid : Uuid := ⟨List.replicate 16 7, by decide⟩

/-- A section marker: sixteen bytes of value 9. -/
def demo_marker : Uuid := ⟨List.replicate 16 9, by decide⟩

/-- The path of a signal file. -/
def demo_signal_path : Path := ⟨"out", "signal.arrow"⟩

/-- The path of a reads file. -/
def demo_reads_path : Path := ⟨"out", "reads.arrow"⟩

/-- The path of a combined file. -/
def demo_path : Path := ⟨"out", "reads.pod5"⟩

/-- An open signal table writer without rows whose storage never fails. -/
def demo_signal_writer : SignalTableWriter :=
  ⟨OutputStream.file ⟨demo_signal_path⟩, [], false, 0, fun _ => none, none⟩

/-- An open read table writer without rows whose storage never fails. -/
def demo_read_writer : ReadTableWriter :=
  ⟨OutputStream.file ⟨demo_reads_path⟩, [], false, 0, fun _ => none, none⟩

/-- An empty dictionary whose storage never fails. -/
def demo_dictionary : DictionaryWriter := ⟨[], fun _ => none⟩

/-- An open split-file writer with chunk size 2. -/
def demo_writer : FileWriterImpl :=
  ⟨⟨demo_dictionary, demo_dictionary, demo_dictionary, demo_dictionary⟩,
    some demo_read_writer, some demo_signal_writer, 2⟩

/-- The metadata of a read. -/
def demo_read : ReadData := ⟨demo_uuid, 0, 0, 0, 0, []⟩

/-- A signal of five samples. -/
def demo_signal : List Int := [10, -20, 30, -40, 50]

/-- A byte layout: a header of three bytes, a footer of two bytes. -/
def demo_format : Format := ⟨fun _ => [1, 2, 3], fun _ => [6, 6]⟩

/-- A world without files in which no call fails and reads are never short. -/
def empty_world : World := ⟨fun _ => none, fun _ => none, fun _ _ n => n, []⟩

/-- The world a combined writer on `demo_path` meets at `close`: the main file holds
the three header bytes and two bytes of signal table, the temporary file two bytes
of read table. -/
def demo_world : World :=
  (empty_world.set demo_path (some [1, 2, 3, 4, 5])).set (reads_tmp_path_of demo_path)
    (some [8, 8])

/-- The open combined writer `create_combined_file_writer` yields on `demo_path`: the
read table goes to the temporary file, the signal table to the sub-stream of the
main file that starts at offset 3, behind the header. -/
def demo_combined : CombinedFileWriterImpl :=
  { m_dict_writers := ⟨demo_dictionary, demo_dictionary, demo_dictionary, demo_dictionary⟩
    m_read_table_writer :=
      some ⟨OutputStream.file ⟨reads_tmp_path_of demo_path⟩, [], false, 0, fun _ => none, none⟩
    m_signal_table_writer :=
      some ⟨OutputStream.sub ⟨⟨demo_path⟩, 3⟩, [], false, 0, fun _ => none, none⟩
    m_signal_chunk_size := 2
    m_path := demo_path
    m_reads_tmp_path := reads_tmp_path_of demo_path
    m_signal_file_start_offset := 3
    m_section_marker := demo_marker
    m_file_identifier := demo_uuid
    m_software_name := "demo" }

/-- Options with chunk size 2 and a memory pool. -/
def demo_options : FileWriterOptions := ⟨2, some ⟨0⟩, SignalType.VbzSignal, 100, 100⟩

/-- Surroundings in which nothing fails. -/
def demo_env : Environment :=
  ⟨fun n => if n = 0 then demo_marker else demo_uuid, none, none, none, none,
    fun _ => none, fun _ => none, none, fun _ => none, none⟩

/-- Surroundings in which the storage layer refuses the `close` of the signal
table. -/
def faulty_env : Environment :=
  { demo_env with signal_close_fault := some (Error.IoError "disk full") }

/-- The split-file writer `create_split_file_writer` yields in `faulty_env`. -/
def faulty_writer : FileWriterImpl :=
  ⟨⟨demo_dictionary, demo_dictionary, demo_dictionary, demo_dictionary⟩,
    some demo_read_writer,
    some { demo_signal_writer with close_fault := some (Error.IoError "disk full") }, 2⟩

/-- The combined writer `create_combined_file_writer` yields on `demo_path` in
`faulty_env`. -/
def faulty_combined : CombinedFileWriterImpl :=
  { demo_combined with
    m_signal_table_writer :=
      some ⟨OutputStream.sub ⟨⟨demo_path⟩, 3⟩, [], false, 0, fun _ => none,
        some (Error.IoError "disk full")⟩ }

/-- A pore record. -/
def demo_pore : PoreData := ⟨[1, 2]⟩

/-- The world right after `demo_combined` was created in the empty world. -/
def demo_created_world : World :=
  (create_combined_file_writer demo_format demo_env demo_path "demo" demo_options
    empty_world).2

/-- The world after the two buffers `[4]` and `[5]` were then written through the
sub-stream of the signal table. -/
def demo_written_world : World :=
  (write_all ⟨⟨demo_path⟩, 3⟩ [[4], [5]] demo_created_world).2

/-- Every call into the operating system other than the removal of a file goes
through. -/
def World.only_remove_may_fail (s : World) : Prop :=
  ∀ c : IoCall, (∀ p, c ≠ IoCall.remove p) → s.fault c = none

/-- Every `Read` of at least one byte at `path` is granted at least one byte. -/
def World.reads_progress (s : World) (path : Path) : Prop :=
  ∀ pos n, 0 < n → 0 < s.read_len path pos n

/-- The main file up to the end of the spliced read table: the main file `main` as
re-opened, the zero bytes up to the next multiple of 8, the section marker, and the
read table `table`. -/
def spliced_head (w : CombinedFileWriterImpl) (main table : List Byte) : List Byte :=
  main ++ List.replicate (bytes_to_pad 8 main.length) 0 ++ w.m_section_marker.bytes ++ table

/-- The footer arguments for a main file `main` at re-open and a read table
`table`. -/
def spliced_footer (w : CombinedFileWriterImpl) (main table : List Byte) : Footer :=
  ⟨w.m_section_marker, w.m_file_identifier, w.m_software_name,
    ⟨w.m_signal_file_start_offset, (main.length : Int) - w.m_signal_file_start_offset⟩,
    ⟨((main.length + bytes_to_pad 8 main.length + 16 : Nat) : Int), (table.length : Int)⟩⟩

/-- The complete combined file (layout of section 6): the spliced head, the zero
bytes up to the next multiple of 8, the section marker, and the footer. -/
def spliced_file (fmt : Format) (w : CombinedFileWriterImpl) (main table : List Byte) :
    List Byte :=
  spliced_head w main table
    ++ List.replicate (bytes_to_pad 8 (spliced_head w main table).length) 0
    ++ w.m_section_marker.bytes
    ++ fmt.footer (spliced_footer w main table)

/-- The world `demo_world` with an operating system that delivers one byte per
`Read`. -/
def trickle_world : World := { demo_world with read_len := fun _ _ _ => 1 }

/-- The world `demo_world` with an operating system that refuses every removal of a
file. -/
def remove_fails_world : World :=
  { demo_world with
    fault := fun c =>
      match c with
      | IoCall.remove _ => some (Error.IoError "busy")
      | _ => none }

/-- A world in which `demo_path` holds three bytes and nothing else exists. -/
def occupied_world : World := empty_world.set demo_path (some [1, 2, 3])

/-- The `for` loop of `add_complete_read` once more, handing back, besides the
result of `chunk_loop`, the pairs `(chunk_start, chunk_size)` of the chunks it
passed to `add_signal`, in call order (`trace` holds the pairs of the iterations
before). -/
def FileWriterImpl.chunk_loop_bounds (chunk_size : Nat) (read_id : Uuid) (signal : List Int) :
    Nat → Nat → SignalTableWriter → List Nat → List (Nat × Nat) →
      (Option (Result (List Nat)) × SignalTableWriter) × List (Nat × Nat)
  | fuel, chunk_start, stw, builder, trace =>
    if chunk_start < signal.length then
      match fuel with
      | 0 => ((none, stw), trace)
      | fuel + 1 =>
        let size := min (signal.length - chunk_start) chunk_size
        let chunk_span := (signal.drop chunk_start).take size
        match stw.add_signal read_id chunk_span with
        | (Except.error e, stw1) =>
          ((some (Except.error e), stw1), trace ++ [(chunk_start, size)])
        | (Except.ok row_index, stw1) =>
          FileWriterImpl.chunk_loop_bounds chunk_size read_id signal fuel
            ((chunk_start + chunk_size) % SIZE_T_MOD) stw1 (builder ++ [row_index])
            (trace ++ [(chunk_start, size)])
    else
      ((some (Except.ok builder), stw), trace)

/-- The pairs `(chunk_start, chunk_size)` of the chunks that `add_complete_read`
(raw-samples form) passes to `add_signal`, in call order; none on a closed
writer. -/
def FileWriterImpl.chunk_trace (fuel : Nat) (w : FileWriterImpl) (read_data : ReadData)
    (signal : List Int) : List (Nat × Nat) :=
  match w.m_signal_table_writer, w.m_read_table_writer with
  | some stw, some _ =>
    (FileWriterImpl.chunk_loop_bounds w.m_signal_chunk_size read_data.read_id signal fuel 0 stw
      [] []).2
  | _, _ => []

/-- The chunk boundaries as the specification gives them, a function of the chunk
size `C` and the sample count `L` alone: chunk `i` starts at `i * C` and has
`min (L - i * C) C` samples, for `i` below `L / C` rounded up. -/
def chunk_bounds (C L : Nat) : List (Nat × Nat) :=
  (List.range' 0 (num_chunks C L)).map fun i => (i * C, min (L - i * C) C)

/-- An open split-file writer with chunk size 2 whose signal table already holds one
row. -/
def demo_writer_used : FileWriterImpl :=
  { demo_writer with
    m_signal_table_writer :=
      some { demo_signal_writer with rows := [raw_row demo_marker [7, 7]] } }

/-- The metadata of another read. -/
def demo_read_other : ReadData := ⟨demo_marker, 1, 2, 3, 4, [5]⟩

/-- Another signal of five samples. -/
def demo_signal_other : List Int := [0, 0, 0, 0, 1]

/-- An open split-file writer both of whose table writers meet a storage error on
`close`. -/
def both_close_fail_writer : FileWriterImpl :=
  { demo_writer with
    m_read_table_writer :=
      some { demo_read_writer with close_fault := some (Error.IoError "reads full") }
    m_signal_table_writer :=
      some { demo_signal_writer with close_fault := some (Error.IoError "disk full") } }

/-- An open split-file writer with chunk size 0. -/
def zero_chunk_writer : FileWriterImpl := { demo_writer with m_signal_chunk_size := 0 }

/-- An open split-file writer with chunk size 2 whose signal storage refuses the
append of row 1. -/
def second_append_fails_writer : FileWriterImpl :=
  { demo_writer with
    m_signal_table_writer :=
      some { demo_signal_writer with
        append_fault := fun k => if k = 1 then some (Error.IoError "disk full") else none } }

/-- Options with chunk size 0 and a memory pool. -/
def zero_chunk_options : FileWriterOptions := ⟨0, some ⟨0⟩, SignalType.VbzSignal, 100, 100⟩

/-- No read row of the writer lists the signal row `index` in its manifest. -/
def FileWriterImpl.unreferenced (w : FileWriterImpl) (index : Nat) : Prop :=
  ∀ row ∈ w.read_rows, index ∉ row.signal_rows

/-- An open split-file writer with chunk size 2 that holds one signal row and one
read row referencing it, and whose signal storage refuses the append of row 2. -/
def third_append_fails_writer : FileWriterImpl :=
  { demo_writer with
    m_read_table_writer :=
      some { demo_read_writer with rows := [⟨demo_read_other, [0]⟩] }
    m_signal_table_writer :=
      some { demo_signal_writer with
        rows := [raw_row demo_marker [7, 7]]
        append_fault := fun k => if k = 2 then some (Error.IoError "disk full") else none } }

/-! # Lemmas and theorems -/

theorem lt_num_chunks_iff {C : Nat} (hC : 0 < C) (L i : Nat) :
    i < num_chunks C L ↔ i * C < L := by
  unfold num_chunks
  rw [Nat.lt_iff_add_one_le, Nat.le_div_iff_mul_le hC, Nat.add_mul]
  omega

theorem take_min_length {α : Type} (n : Nat) (l : List α) :
    l.take (min l.length n) = l.take n := by
  rcases Nat.le_total l.length n with h | h
  · rw [Nat.min_eq_left h, List.take_of_length_le (Nat.le_refl _), List.take_of_length_le h]
  · rw [Nat.min_eq_right h]

theorem append_accepting (stw : SignalTableWriter) (h : stw.accepts_all) (row : SignalRow) :
    stw.append row = (Except.ok stw.rows.length, { stw with rows := stw.rows ++ [row] }) := by
  unfold SignalTableWriter.append
  rw [h.1, h.2]
  rfl

theorem chunk_loop_accepting (C : Nat) (read_id : Uuid) (signal : List Int)
    (hC : 0 < C) (hC32 : C < UINT32_MOD) (hL : signal.length < 2 ^ 63) :
    ∀ (fuel i : Nat) (stw : SignalTableWriter) (builder : List Nat),
      stw.accepts_all → num_chunks C signal.length - i ≤ fuel →
      FileWriterImpl.chunk_loop C read_id signal fuel (i * C) stw builder =
        (some (Except.ok (builder ++ List.range' stw.rows.length (num_chunks C signal.length - i))),
          { stw with rows := (stw.rows ++ List.map (fun j => raw_row read_id (chunk_at C signal j))
              (List.range' i (num_chunks C signal.length - i))) }) := by
  intro fuel
  induction fuel with
  | zero =>
    intro i stw builder _ hfuel
    have hle : num_chunks C signal.length ≤ i := by omega
    have hnot : ¬ i * C < signal.length := by
      rw [← lt_num_chunks_iff hC]; omega
    have h0 : num_chunks C signal.length - i = 0 := by omega
    unfold FileWriterImpl.chunk_loop
    simp [hnot, h0]
  | succ fuel ih =>
    intro i stw builder hacc hfuel
    by_cases hlt : i * C < signal.length
    · have hi : i < num_chunks C signal.length := (lt_num_chunks_iff hC _ _).2 hlt
      have hN : num_chunks C signal.length - i = (num_chunks C signal.length - (i + 1)) + 1 := by
        omega
      have hstart : (i * C + C) % SIZE_T_MOD = (i + 1) * C := by
        have h64 : i * C + C < SIZE_T_MOD := by
          unfold SIZE_T_MOD; unfold UINT32_MOD at hC32; omega
        rw [Nat.mod_eq_of_lt h64, Nat.add_mul, Nat.one_mul]
      have hchunk : List.take (min (signal.length - i * C) C) (List.drop (i * C) signal)
          = chunk_at C signal i := by
        unfold chunk_at
        rw [← take_min_length C (List.drop (i * C) signal), List.length_drop]
      unfold FileWriterImpl.chunk_loop
      simp only [hlt, if_true, hchunk, SignalTableWriter.add_signal, append_accepting stw hacc, hstart]
      have hacc1 : SignalTableWriter.accepts_all
          { stw with rows := stw.rows ++ [⟨read_id, SignalPayload.raw (chunk_at C signal i)⟩] } :=
        ⟨hacc.1, hacc.2⟩
      rw [ih (i + 1) _ (builder ++ [stw.rows.length]) hacc1 (by omega)]
      rw [hN, List.range'_succ, List.range'_succ]
      simp [raw_row, List.append_assoc]
    · have hle : num_chunks C signal.length ≤ i := by
        by_contra hcon
        exact hlt ((lt_num_chunks_iff hC _ _).1 (by omega))
      have h0 : num_chunks C signal.length - i = 0 := by omega
      unfold FileWriterImpl.chunk_loop
      simp [hlt, h0]

theorem chunk_at_length (C : Nat) (signal : List Int) (i : Nat) :
    (chunk_at C signal i).length = min C (signal.length - i * C) := by
  simp [chunk_at, List.length_take, List.length_drop]

theorem join_chunks_from (C : Nat) (signal : List Int) (hC : 0 < C) :
    ∀ (n i : Nat), num_chunks C signal.length - i = n →
      ((List.range' i n).map (chunk_at C signal)).flatten = signal.drop (i * C) := by
  intro n
  induction n with
  | zero =>
    intro i h
    have hnot : ¬ i < num_chunks C signal.length := by omega
    rw [lt_num_chunks_iff hC] at hnot
    simp [List.drop_eq_nil_of_le (Nat.le_of_not_lt hnot)]
  | succ n ih =>
    intro i h
    rw [List.range'_succ, List.map_cons, List.flatten_cons, ih (i + 1) (by omega)]
    have hmul : (i + 1) * C = i * C + C := by rw [Nat.add_mul, Nat.one_mul]
    rw [hmul, ← List.drop_drop]
    exact List.take_append_drop C (List.drop (i * C) signal)

theorem join_chunks (C : Nat) (signal : List Int) (hC : 0 < C) :
    ((List.range' 0 (num_chunks C signal.length)).map (chunk_at C signal)).flatten = signal := by
  have h := join_chunks_from C signal hC (num_chunks C signal.length) 0 (by omega)
  simpa using h

theorem num_chunks_eq (C L : Nat) (hC : 0 < C) :
    num_chunks C L = if L % C = 0 then L / C else L / C + 1 := by
  unfold num_chunks
  have hdm := Nat.div_add_mod L C
  split
  · next h0 =>
    apply Nat.div_eq_of_lt_le
    · rw [Nat.mul_comm]; omega
    · rw [Nat.add_mul, Nat.mul_comm (L / C) C]; omega
  · next h0 =>
    have hlt := Nat.mod_lt L hC
    apply Nat.div_eq_of_lt_le
    · rw [Nat.add_mul, Nat.mul_comm (L / C) C]; omega
    · rw [Nat.add_mul, Nat.add_mul, Nat.mul_comm (L / C) C]; omega

theorem chunk_sizes (C : Nat) (signal : List Int) (hC : 0 < C) :
    (List.range' 0 (num_chunks C signal.length)).map (fun j => (chunk_at C signal j).length) =
      List.replicate (signal.length / C) C ++
        (if signal.length % C = 0 then [] else [signal.length % C]) := by
  have hdm := Nat.div_add_mod signal.length C
  have hfull : (List.range' 0 (signal.length / C)).map (fun j => (chunk_at C signal j).length)
      = List.replicate (signal.length / C) C := by
    rw [List.eq_replicate_iff]
    refine ⟨by simp, ?_⟩
    intro b hb
    rw [List.mem_map] at hb
    obtain ⟨j, hj, rfl⟩ := hb
    rw [List.mem_range'_1] at hj
    rw [chunk_at_length]
    have h1 : (j + 1) * C ≤ (signal.length / C) * C := Nat.mul_le_mul_right C (by omega)
    rw [Nat.add_mul, Nat.one_mul] at h1
    rw [Nat.mul_comm (signal.length / C) C] at h1
    omega
  rw [num_chunks_eq C _ hC]
  split
  · next h0 => rw [hfull]; simp
  · next h0 =>
    have hr : List.range' 0 (signal.length / C + 1)
        = List.range' 0 (signal.length / C) ++ [signal.length / C] := by
      rw [List.range'_concat]; simp
    rw [hr, List.map_append, hfull]
    simp only [List.map_cons, List.map_nil, chunk_at_length]
    have hlt := Nat.mod_lt signal.length hC
    have : min C (signal.length - signal.length / C * C) = signal.length % C := by
      rw [Nat.mul_comm (signal.length / C) C]; omega
    rw [this]

theorem append_cases (stw : SignalTableWriter) (row : SignalRow) :
    stw.append row = (Except.ok stw.rows.length, { stw with rows := stw.rows ++ [row] }) ∨
      ∃ e, stw.append row = (Except.error e, stw) := by
  unfold SignalTableWriter.append
  by_cases hclosed : stw.closed = true
  · right
    exact ⟨Error.Invalid "Signal table writer closed", by simp [hclosed]⟩
  · cases hf : stw.append_fault stw.rows.length with
    | none => left; simp [hclosed]
    | some e => right; exact ⟨e, by simp [hclosed]⟩

theorem chunk_loop_ok (C : Nat) (read_id : Uuid) (signal : List Int)
    (hC : 0 < C) (hC32 : C < UINT32_MOD) (hL : signal.length < 2 ^ 63) :
    ∀ (fuel i : Nat) (stw stw' : SignalTableWriter) (builder m : List Nat),
      FileWriterImpl.chunk_loop C read_id signal fuel (i * C) stw builder
        = (some (Except.ok m), stw') →
      m = builder ++ List.range' stw.rows.length (num_chunks C signal.length - i) ∧
      stw' = { stw with rows := (stw.rows ++ List.map
          (fun j => raw_row read_id (chunk_at C signal j))
          (List.range' i (num_chunks C signal.length - i))) } := by
  intro fuel
  induction fuel with
  | zero =>
    intro i stw stw' builder m h
    unfold FileWriterImpl.chunk_loop at h
    split at h
    · simp at h
    · next hnot =>
      have h0 : num_chunks C signal.length - i = 0 := by
        have := (lt_num_chunks_iff hC signal.length i).not.2 hnot
        omega
      injection h with h1 h2
      injection h1 with h1
      injection h1 with h1
      subst h1 h2
      simp [h0]
  | succ fuel ih =>
    intro i stw stw' builder m h
    unfold FileWriterImpl.chunk_loop at h
    split at h
    · next hlt =>
      have hi : i < num_chunks C signal.length := (lt_num_chunks_iff hC _ _).2 hlt
      have hN : num_chunks C signal.length - i = (num_chunks C signal.length - (i + 1)) + 1 := by
        omega
      have hstart : (i * C + C) % SIZE_T_MOD = (i + 1) * C := by
        have h64 : i * C + C < SIZE_T_MOD := by
          unfold SIZE_T_MOD; unfold UINT32_MOD at hC32; omega
        rw [Nat.mod_eq_of_lt h64, Nat.add_mul, Nat.one_mul]
      have hchunk : List.take (min (signal.length - i * C) C) (List.drop (i * C) signal)
          = chunk_at C signal i := by
        unfold chunk_at
        rw [← take_min_length C (List.drop (i * C) signal), List.length_drop]
      simp only [hchunk, SignalTableWriter.add_signal, hstart] at h
      rcases append_cases stw ⟨read_id, SignalPayload.raw (chunk_at C signal i)⟩ with ha | ⟨e, ha⟩
      · rw [ha] at h
        simp only at h
        obtain ⟨hm, hs⟩ := ih (i + 1) _ _ _ _ h
        subst hm hs
        rw [hN, List.range'_succ, List.range'_succ]
        simp [raw_row, List.append_assoc]
      · rw [ha] at h
        simp at h
    · next hnot =>
      have h0 : num_chunks C signal.length - i = 0 := by
        have := (lt_num_chunks_iff hC signal.length i).not.2 hnot
        omega
      injection h with h1 h2
      injection h1 with h1
      injection h1 with h1
      subst h1 h2
      simp [h0]

theorem chunk_loop_zero_ok (read_id : Uuid) (signal : List Int) :
    ∀ (fuel : Nat) (stw stw' : SignalTableWriter) (builder m : List Nat),
      FileWriterImpl.chunk_loop 0 read_id signal fuel 0 stw builder
        = (some (Except.ok m), stw') →
      signal = [] ∧ m = builder ∧ stw' = stw := by
  intro fuel
  induction fuel with
  | zero =>
    intro stw stw' builder m h
    unfold FileWriterImpl.chunk_loop at h
    split at h
    · simp at h
    · next hnot =>
      injection h with h1 h2
      injection h1 with h1
      injection h1 with h1
      exact ⟨List.length_eq_zero.1 (by omega), h1.symm, h2.symm⟩
  | succ fuel ih =>
    intro stw stw' builder m h
    unfold FileWriterImpl.chunk_loop at h
    split at h
    · next hlt =>
      simp only [SignalTableWriter.add_signal] at h
      rcases append_cases stw ⟨read_id, SignalPayload.raw
          (List.take (min (signal.length - 0) 0) (List.drop 0 signal))⟩ with ha | ⟨e, ha⟩
      · rw [ha] at h
        simp only [Nat.add_zero, Nat.zero_mod] at h
        have hcontra := (ih _ _ _ _ h).1
        rw [hcontra] at hlt
        simp at hlt
      · rw [ha] at h
        simp at h
    · next hnot =>
      injection h with h1 h2
      injection h1 with h1
      injection h1 with h1
      exact ⟨List.length_eq_zero.1 (by omega), h1.symm, h2.symm⟩

/-! ## The monad `M` -/

theorem bind_eq_done {α β : Type} (m : M α) (f : α → M β) (s s' : World) (b : β) :
    (m >>= f) s = (Outcome.done b, s') ↔
      ∃ a s1, m s = (Outcome.done a, s1) ∧ f a s1 = (Outcome.done b, s') := by
  show M.bind m f s = _ ↔ _
  unfold M.bind
  constructor
  · intro h
    split at h
    · next a s1 hm => exact ⟨a, s1, hm, h⟩
    · next e s1 hm => simp at h
    · next s1 hm => simp at h
  · rintro ⟨a, s1, hm, hf⟩
    rw [hm]
    exact hf

theorem pure_eq_done {α : Type} (a b : α) (s s' : World) :
    (pure a : M α) s = (Outcome.done b, s') ↔ a = b ∧ s = s' := by
  show ((Outcome.done a, s) : Outcome α × World) = _ ↔ _
  constructor
  · intro h
    injection h with h1 h2
    injection h1 with h1
    exact ⟨h1, h2⟩
  · rintro ⟨rfl, rfl⟩
    rfl

/-! ## The world -/

@[simp] theorem World.set_files_same (s : World) (p : Path) (c : Option (List Byte)) :
    (s.set p c).files p = c := by
  simp [World.set]

theorem World.set_files_other (s : World) (p q : Path) (c : Option (List Byte)) (h : q ≠ p) :
    (s.set p c).files q = s.files q := by
  simp [World.set, h]

@[simp] theorem World.set_footers (s : World) (p : Path) (c : Option (List Byte)) :
    (s.set p c).footers = s.footers := rfl

@[simp] theorem World.set_fault (s : World) (p : Path) (c : Option (List Byte)) :
    (s.set p c).fault = s.fault := rfl

@[simp] theorem World.set_read_len (s : World) (p : Path) (c : Option (List Byte)) :
    (s.set p c).read_len = s.read_len := rfl

@[simp] theorem World.set_set (s : World) (p : Path) (c d : Option (List Byte)) :
    (s.set p c).set p d = s.set p d := by
  unfold World.set
  congr 1
  funext q
  by_cases h : q = p <;> simp [h]

theorem World.set_same (s : World) (p : Path) (c : Option (List Byte)) (h : s.files p = c) :
    s.set p c = s := by
  cases s with
  | mk files fault read_len footers =>
    unfold World.set
    congr 1
    funext q
    by_cases hq : q = p
    · subst hq; simp; exact h.symm
    · simp [hq]

/-! ## The stream primitives, when they succeed -/

theorem open_append_done (p : Path) (s s1 : World) (file : FileOutputStream)
    (h : FileOutputStream.Open p true s = (Outcome.done file, s1)) :
    file = ⟨p⟩ ∧ s1 = s.set p (some ((s.files p).getD [])) := by
  unfold FileOutputStream.Open at h
  split at h
  · simp at h
  · split at h
    · next c hc =>
      injection h with h1 h2
      injection h1 with h1
      refine ⟨h1.symm, ?_⟩
      rw [← h2, hc]
      exact (World.set_same s p _ hc).symm
    · next hne =>
      injection h with h1 h2
      injection h1 with h1
      refine ⟨h1.symm, ?_⟩
      rw [← h2]
      cases hf : s.files p with
      | none => rfl
      | some c => exact (hne c rfl hf).elim


theorem tell_done (file : FileOutputStream) (s s1 : World) (t : Int)
    (h : file.Tell s = (Outcome.done t, s1)) :
    s1 = s ∧ ∃ c, s.files file.path = some c ∧ t = (c.length : Int) := by
  unfold FileOutputStream.Tell at h
  split at h
  · simp at h
  · next c hc =>
    split at h
    · simp at h
    · injection h with h1 h2
      injection h1 with h1
      exact ⟨h2.symm, c, hc, h1.symm⟩

theorem write_done (file : FileOutputStream) (data : List Byte) (s s1 : World)
    (h : file.Write data s = (Outcome.done (), s1)) :
    ∃ c, s.files file.path = some c ∧ s1 = s.set file.path (some (c ++ data)) := by
  unfold FileOutputStream.Write at h
  split at h
  · simp at h
  · next c hc =>
    split at h
    · simp at h
    · injection h with h1 h2
      exact ⟨c, hc, h2.symm⟩

theorem padd_file_done (file : FileOutputStream) (m : Nat) (s s1 : World)
    (h : padd_file file m s = (Outcome.done (), s1)) :
    ∃ c, s.files file.path = some c ∧
      s1 = s.set file.path (some (c ++ List.replicate (bytes_to_pad m c.length) 0)) := by
  unfold padd_file at h
  obtain ⟨t, s0, ht, h⟩ := (bind_eq_done _ _ _ _ _).1 h
  obtain ⟨rfl, c, hc, rfl⟩ := tell_done _ _ _ _ ht
  refine ⟨c, hc, ?_⟩
  simp only [Int.toNat_ofNat] at h
  split at h
  · next h0 =>
    obtain ⟨-, rfl⟩ := (pure_eq_done _ _ _ _).1 h
    rw [h0]
    simp only [List.replicate_zero, List.append_nil]
    exact (World.set_same _ _ _ hc).symm
  · obtain ⟨c', hc', hs⟩ := write_done _ _ _ _ h
    rw [hc] at hc'
    injection hc' with hc'
    rw [hs, hc']

theorem write_section_marker_done (file : FileOutputStream) (marker : Uuid) (s s1 : World)
    (h : write_section_marker file marker s = (Outcome.done (), s1)) :
    ∃ c, s.files file.path = some c ∧ s1 = s.set file.path (some (c ++ marker.bytes)) :=
  write_done _ _ _ _ h

theorem write_footer_done (fmt : Format) (file : FileOutputStream) (marker ident : Uuid)
    (name : String) (signal_table read_table : FileInfo) (s s1 : World)
    (h : write_footer fmt file marker ident name signal_table read_table s
      = (Outcome.done (), s1)) :
    ∃ c, s.files file.path = some c ∧
      s1.files file.path
        = some (c ++ fmt.footer ⟨marker, ident, name, signal_table, read_table⟩) ∧
      s1.footers = s.footers ++ [⟨marker, ident, name, signal_table, read_table⟩] := by
  unfold write_footer at h
  obtain ⟨u, s0, hw, h⟩ := (bind_eq_done _ _ _ _ _).1 h
  obtain ⟨c, hc, rfl⟩ := write_done _ _ _ _ hw
  unfold log_footer at h
  injection h with h1 h2
  subst h2
  exact ⟨c, hc, by simp, by simp⟩

theorem readable_open_done (p : Path) (s s1 : World) (file : ReadableFile)
    (h : ReadableFile.Open p s = (Outcome.done file, s1)) :
    s1 = s ∧ file = ⟨p, 0⟩ ∧ ∃ c, s.files p = some c := by
  unfold ReadableFile.Open at h
  split at h
  · simp at h
  · next c hc =>
    split at h
    · simp at h
    · injection h with h1 h2
      injection h1 with h1
      exact ⟨h2.symm, h1.symm, c, hc⟩

theorem get_size_done (file : ReadableFile) (s s1 : World) (n : Int)
    (h : file.GetSize s = (Outcome.done n, s1)) :
    s1 = s ∧ ∃ c, s.files file.path = some c ∧ n = (c.length : Int) := by
  unfold ReadableFile.GetSize at h
  split at h
  · simp at h
  · next c hc =>
    split at h
    · simp at h
    · injection h with h1 h2
      injection h1 with h1
      exact ⟨h2.symm, c, hc, h1.symm⟩

theorem read_done (file : ReadableFile) (n : Nat) (s s1 : World) (r : List Byte × ReadableFile)
    (h : file.Read n s = (Outcome.done r, s1)) :
    s1 = s ∧ ∃ c, s.files file.path = some c ∧
      r.1 = (c.drop file.pos).take (min n (s.read_len file.path file.pos n)) ∧
      r.2 = ⟨file.path, file.pos + r.1.length⟩ := by
  unfold ReadableFile.Read at h
  split at h
  · simp at h
  · next c hc =>
    split at h
    · simp at h
    · injection h with h1 h2
      injection h1 with h1
      subst h1
      exact ⟨h2.symm, c, hc, rfl, rfl⟩

theorem copy_loop_done (file : FileOutputStream) (file_size : Int) :
    ∀ (fuel : Nat) (input : ReadableFile) (copied : Int) (s s1 : World) (c : List Byte),
      s.files file.path = some c →
      copy_loop file file_size fuel input copied s = (Outcome.done (), s1) →
      ∃ X, s1 = s.set file.path (some (c ++ X)) := by
  intro fuel
  induction fuel with
  | zero =>
    intro input copied s s1 c hc h
    unfold copy_loop at h
    split at h
    · simp at h
    · obtain ⟨-, rfl⟩ := (pure_eq_done _ _ _ _).1 h
      exact ⟨[], by rw [List.append_nil]; exact (World.set_same _ _ _ hc).symm⟩
  | succ fuel ih =>
    intro input copied s s1 c hc h
    unfold copy_loop at h
    split at h
    · obtain ⟨r, s0, hr, h2⟩ := (bind_eq_done _ _ _ _ _).1 h
      clear h
      obtain ⟨hs0, -⟩ := read_done _ _ _ _ _ hr
      subst hs0
      obtain ⟨u, s2, hw, h3⟩ := (bind_eq_done _ _ _ _ _).1 h2
      obtain ⟨c', hc', hs2⟩ := write_done _ _ _ _ hw
      rw [hc] at hc'
      injection hc' with hc'
      subst hc' hs2
      obtain ⟨X, hX⟩ := ih _ _ _ _ (c ++ r.1) (by simp) h3
      refine ⟨r.1 ++ X, ?_⟩
      rw [hX, World.set_set, List.append_assoc]
    · obtain ⟨-, rfl⟩ := (pure_eq_done _ _ _ _).1 h
      exact ⟨[], by rw [List.append_nil]; exact (World.set_same _ _ _ hc).symm⟩

theorem fs_remove_done (p : Path) (s s1 : World) (ec : Option Error)
    (h : fs_remove p s = (Outcome.done ec, s1)) :
    (ec = none ∧ s1 = s.set p none) ∨ (∃ e, ec = some e ∧ s1 = s) := by
  unfold fs_remove at h
  split at h
  · next e he =>
    injection h with h1 h2
    injection h1 with h1
    exact Or.inr ⟨e, h1.symm, h2.symm⟩
  · injection h with h1 h2
    injection h1 with h1
    exact Or.inl ⟨h1.symm, h2.symm⟩

theorem splice_done (fmt : Format) (fuel : Nat) (w : CombinedFileWriterImpl) (s s' : World)
    (h : CombinedFileWriterImpl.splice fmt fuel w s = (Outcome.done (), s')) :
    ∃ X : List Byte,
      s'.files w.m_path = some
        ((s.files w.m_path).getD []
          ++ List.replicate (bytes_to_pad 8 ((s.files w.m_path).getD []).length) 0
          ++ w.m_section_marker.bytes
          ++ X
          ++ List.replicate (bytes_to_pad 8 (((s.files w.m_path).getD []).length
              + bytes_to_pad 8 ((s.files w.m_path).getD []).length + 16 + X.length)) 0
          ++ w.m_section_marker.bytes
          ++ fmt.footer ⟨w.m_section_marker, w.m_file_identifier, w.m_software_name,
              ⟨w.m_signal_file_start_offset,
                (((s.files w.m_path).getD []).length : Int) - w.m_signal_file_start_offset⟩,
              ⟨((((s.files w.m_path).getD []).length
                  + bytes_to_pad 8 ((s.files w.m_path).getD []).length + 16 : Nat) : Int),
                (X.length : Int)⟩⟩) ∧
      s'.footers = s.footers ++
        [⟨w.m_section_marker, w.m_file_identifier, w.m_software_name,
          ⟨w.m_signal_file_start_offset,
            (((s.files w.m_path).getD []).length : Int) - w.m_signal_file_start_offset⟩,
          ⟨((((s.files w.m_path).getD []).length
              + bytes_to_pad 8 ((s.files w.m_path).getD []).length + 16 : Nat) : Int),
            (X.length : Int)⟩⟩] := by
  generalize hM : (s.files w.m_path).getD [] = main at *
  unfold CombinedFileWriterImpl.splice at h
  obtain ⟨file, s1, hopen, h1⟩ := (bind_eq_done _ _ _ _ _).1 h
  clear h
  obtain ⟨hfile, hs1⟩ := open_append_done _ _ _ _ hopen
  subst hfile
  rw [hM] at hs1
  obtain ⟨t, s2, htell, h2⟩ := (bind_eq_done _ _ _ _ _).1 h1
  clear h1
  obtain ⟨hs2, c2, hc2, ht⟩ := tell_done _ _ _ _ htell
  subst hs2
  have hc2' : c2 = main := by
    rw [hs1] at hc2; simpa using hc2.symm
  subst hc2'
  subst ht
  obtain ⟨u3, s3, hpad, h3⟩ := (bind_eq_done _ _ _ _ _).1 h2
  clear h2
  obtain ⟨c3, hc3, hs3⟩ := padd_file_done _ _ _ _ hpad
  rw [hc2] at hc3
  injection hc3 with hc3
  subst hc3
  obtain ⟨u4, s4, hmark, h4⟩ := (bind_eq_done _ _ _ _ _).1 h3
  clear h3
  obtain ⟨c4, hc4, hs4⟩ := write_section_marker_done _ _ _ _ hmark
  rw [hs3, World.set_files_same] at hc4
  injection hc4 with hc4
  subst hc4
  rw [hs3, World.set_set] at hs4
  obtain ⟨t5, s5, htell5, h5⟩ := (bind_eq_done _ _ _ _ _).1 h4
  clear h4
  obtain ⟨hs5, c5, hc5, ht5⟩ := tell_done _ _ _ _ htell5
  subst hs5
  rw [hs4, World.set_files_same] at hc5
  injection hc5 with hc5
  subst hc5
  obtain ⟨rf, s6, hropen, h6⟩ := (bind_eq_done _ _ _ _ _).1 h5
  clear h5
  obtain ⟨hs6, hrf, -⟩ := readable_open_done _ _ _ _ hropen
  subst hs6
  obtain ⟨fsz, s7, hsz, h7⟩ := (bind_eq_done _ _ _ _ _).1 h6
  clear h6
  obtain ⟨hs7, -⟩ := get_size_done _ _ _ _ hsz
  subst hs7
  obtain ⟨u8, s8, hcopy, h8⟩ := (bind_eq_done _ _ _ _ _).1 h7
  clear h7
  obtain ⟨X, hs8⟩ := copy_loop_done _ _ _ _ _ _ _ _
    (by rw [hs4, World.set_files_same]) hcopy
  rw [hs4, World.set_set] at hs8
  obtain ⟨t9, s9, htell9, h9⟩ := (bind_eq_done _ _ _ _ _).1 h8
  clear h8
  obtain ⟨hs9, c9, hc9, ht9⟩ := tell_done _ _ _ _ htell9
  subst hs9
  rw [hs8, World.set_files_same] at hc9
  injection hc9 with hc9
  subst hc9
  obtain ⟨ec, s10, hrm, h10⟩ := (bind_eq_done _ _ _ _ _).1 h9
  clear h9
  rcases fs_remove_done _ _ _ _ hrm with ⟨hec, hs10⟩ | ⟨e, hec, -⟩
  · subst hec
    simp only at h10
    obtain ⟨u11, s11, hpad2, h11⟩ := (bind_eq_done _ _ _ _ _).1 h10
    clear h10
    obtain ⟨c11, hc11, hs11⟩ := padd_file_done _ _ _ _ hpad2
    have hne : w.m_path ≠ w.m_reads_tmp_path := by
      intro heq
      rw [hs10, heq, World.set_files_same] at hc11
      simp at hc11
    rw [hs10, World.set_files_other _ _ _ _ hne, hs8, World.set_files_same] at hc11
    injection hc11 with hc11
    subst hc11
    obtain ⟨u12, s12, hmark2, h12⟩ := (bind_eq_done _ _ _ _ _).1 h11
    clear h11
    obtain ⟨c12, hc12, hs12⟩ := write_section_marker_done _ _ _ _ hmark2
    rw [hs11, World.set_files_same] at hc12
    injection hc12 with hc12
    subst hc12
    rw [hs11, World.set_set] at hs12
    obtain ⟨c13, hc13, hfiles, hfooters⟩ := write_footer_done _ _ _ _ _ _ _ _ _ h12
    rw [hs12, World.set_files_same] at hc13
    injection hc13 with hc13
    subst hc13
    refine ⟨X, ?_, ?_⟩
    · rw [hfiles]
      simp [List.append_assoc, ht5, ht9, Nat.add_assoc, w.m_section_marker.size_eq]
    · rw [hfooters, hs12, hs10, hs8, hs1]
      simp [ht5, ht9, Nat.add_assoc, w.m_section_marker.size_eq]
  · subst hec
    simp [M.fail] at h10

/-! ## Chunking (`add_complete_read`, raw-samples form) -/

theorem add_complete_read_accepting (w : FileWriterImpl) (stw : SignalTableWriter)
    (rtw : ReadTableWriter) (read_data : ReadData) (signal : List Int) (fuel : Nat)
    (hs : w.m_signal_table_writer = some stw) (hr : w.m_read_table_writer = some rtw)
    (hacc : stw.accepts_all)
    (hC : 0 < w.m_signal_chunk_size) (hC32 : w.m_signal_chunk_size < UINT32_MOD)
    (hL : signal.length < 2 ^ 63)
    (hfuel : num_chunks w.m_signal_chunk_size signal.length ≤ fuel) :
    (w.add_complete_read fuel read_data signal).1 ≠ none ∧
    (w.add_complete_read fuel read_data signal).2.signal_rows =
      stw.rows ++ List.map
        (fun j => raw_row read_data.read_id (chunk_at w.m_signal_chunk_size signal j))
        (List.range' 0 (num_chunks w.m_signal_chunk_size signal.length)) := by
  have hloop := chunk_loop_accepting w.m_signal_chunk_size read_data.read_id signal hC hC32 hL
    fuel 0 stw [] hacc (by omega)
  simp only [Nat.zero_mul, Nat.sub_zero, List.nil_append] at hloop
  unfold FileWriterImpl.add_complete_read
  rw [hs, hr]
  simp only [hloop]
  exact ⟨by simp, by simp [FileWriterImpl.signal_rows]⟩

/-- C1: on an open writer whose signal table writer accepts every row, with chunk
size `C > 0` and a signal of `L` samples, `add_complete_read` (raw-samples form)
comes to an end within `ceil(L / C)` loop iterations, leaves the earlier signal
rows in place and appends exactly `ceil(L / C)` rows (one per `add_signal` call)
whose sample counts are `C` repeated `L / C` times followed by `L mod C` when
that is not zero; an empty signal appends no row. -/
theorem add_complete_read_chunk_count_and_sizes (w : FileWriterImpl)
    (stw : SignalTableWriter) (rtw : ReadTableWriter) (read_data : ReadData)
    (signal : List Int) (fuel : Nat)
    (hs : w.m_signal_table_writer = some stw) (hr : w.m_read_table_writer = some rtw)
    (hacc : stw.accepts_all)
    (hC : 0 < w.m_signal_chunk_size) (hC32 : w.m_signal_chunk_size < UINT32_MOD)
    (hL : signal.length < 2 ^ 63)
    (hfuel : num_chunks w.m_signal_chunk_size signal.length ≤ fuel) :
    (w.add_complete_read fuel read_data signal).1 ≠ none ∧
    (w.add_complete_read fuel read_data signal).2.signal_rows.take stw.rows.length
      = stw.rows ∧
    ((w.add_complete_read fuel read_data signal).2.signal_rows.drop stw.rows.length).length
      = num_chunks w.m_signal_chunk_size signal.length ∧
    ((w.add_complete_read fuel read_data signal).2.signal_rows.drop stw.rows.length).map
        SignalRow.sample_count
      = List.replicate (signal.length / w.m_signal_chunk_size) w.m_signal_chunk_size ++
        (if signal.length % w.m_signal_chunk_size = 0 then []
          else [signal.length % w.m_signal_chunk_size]) ∧
    (signal = [] →
      (w.add_complete_read fuel read_data signal).2.signal_rows = stw.rows) := by
  obtain ⟨hterm, hrows⟩ :=
    add_complete_read_accepting w stw rtw read_data signal fuel hs hr hacc hC hC32 hL hfuel
  refine ⟨hterm, ?_, ?_, ?_, ?_⟩
  · rw [hrows, List.take_left']
    rfl
  · rw [hrows, List.drop_left']
    · simp
    · rfl
  · rw [hrows, List.drop_left' rfl, List.map_map, ← chunk_sizes _ signal hC]
    apply List.map_congr_left
    intro j _
    simp [raw_row, SignalRow.sample_count]
  · intro hnil
    rw [hrows, hnil]
    have h0 : num_chunks w.m_signal_chunk_size 0 = 0 := by
      unfold num_chunks
      exact Nat.div_eq_of_lt (by omega)
    simp [h0]

/-- Witness for C1: five samples with chunk size 2 give rows of 2, 2 and 1 samples. -/
theorem add_complete_read_chunk_count_and_sizes_witness :
    (demo_writer.add_complete_read 3 demo_read demo_signal).1 ≠ none ∧
    ((demo_writer.add_complete_read 3 demo_read demo_signal).2.signal_rows.take 0) = [] ∧
    ((demo_writer.add_complete_read 3 demo_read demo_signal).2.signal_rows.drop 0).length
      = num_chunks 2 5 ∧
    ((demo_writer.add_complete_read 3 demo_read demo_signal).2.signal_rows.drop 0).map
        SignalRow.sample_count
      = List.replicate (5 / 2) 2 ++ (if 5 % 2 = 0 then [] else [5 % 2]) ∧
    (demo_signal = [] →
      (demo_writer.add_complete_read 3 demo_read demo_signal).2.signal_rows = []) :=
  add_complete_read_chunk_count_and_sizes demo_writer demo_signal_writer demo_read_writer
    demo_read demo_signal 3 rfl rfl ⟨rfl, fun _ => rfl⟩ (by decide) (by decide) (by decide)
    (by decide)

theorem chunk_at_nonempty (C : Nat) (signal : List Int) (hC : 0 < C) (j : Nat)
    (hj : j < num_chunks C signal.length) :
    chunk_at C signal j ≠ [] ∧ (chunk_at C signal j).length ≤ C := by
  have hlt := (lt_num_chunks_iff hC signal.length j).1 hj
  have hlen := chunk_at_length C signal j
  constructor
  · intro hnil
    rw [hnil] at hlen
    simp only [List.length_nil] at hlen
    omega
  · omega

/-- C2: on an open writer whose signal table writer accepts every row, with chunk
size `C > 0`, the rows `add_complete_read` (raw-samples form) appends hold, in
write order, the slices `signal[i * C, i * C + C)` for `i = 0, 1, ...`; every slice
is non-empty and has at most `C` samples, and the slices concatenated in write
order are the input signal. -/
theorem add_complete_read_chunks_partition (w : FileWriterImpl)
    (stw : SignalTableWriter) (rtw : ReadTableWriter) (read_data : ReadData)
    (signal : List Int) (fuel : Nat)
    (hs : w.m_signal_table_writer = some stw) (hr : w.m_read_table_writer = some rtw)
    (hacc : stw.accepts_all)
    (hC : 0 < w.m_signal_chunk_size) (hC32 : w.m_signal_chunk_size < UINT32_MOD)
    (hL : signal.length < 2 ^ 63)
    (hfuel : num_chunks w.m_signal_chunk_size signal.length ≤ fuel) :
    (w.add_complete_read fuel read_data signal).2.signal_rows.drop stw.rows.length
      = List.map (fun i => raw_row read_data.read_id
            ((signal.drop (i * w.m_signal_chunk_size)).take w.m_signal_chunk_size))
          (List.range' 0 (num_chunks w.m_signal_chunk_size signal.length)) ∧
    (∀ row ∈ (w.add_complete_read fuel read_data signal).2.signal_rows.drop stw.rows.length,
      row.payload = SignalPayload.raw row.samples ∧ row.samples ≠ [] ∧
        row.samples.length ≤ w.m_signal_chunk_size) ∧
    (((w.add_complete_read fuel read_data signal).2.signal_rows.drop stw.rows.length).map
        SignalRow.samples).flatten = signal := by
  obtain ⟨-, hrows⟩ :=
    add_complete_read_accepting w stw rtw read_data signal fuel hs hr hacc hC hC32 hL hfuel
  rw [hrows, List.drop_left' rfl]
  refine ⟨rfl, ?_, ?_⟩
  · intro row hrow
    rw [List.mem_map] at hrow
    obtain ⟨j, hj, rfl⟩ := hrow
    rw [List.mem_range'_1] at hj
    have hne := chunk_at_nonempty w.m_signal_chunk_size signal hC j (by omega)
    exact ⟨rfl, hne.1, hne.2⟩
  · rw [List.map_map]
    have hfun : (SignalRow.samples ∘ fun j =>
        raw_row read_data.read_id (chunk_at w.m_signal_chunk_size signal j))
        = chunk_at w.m_signal_chunk_size signal := by
      funext j
      rfl
    rw [hfun]
    exact join_chunks w.m_signal_chunk_size signal hC

/-- Witness for C2: five samples with chunk size 2. -/
theorem add_complete_read_chunks_partition_witness :
    (demo_writer.add_complete_read 3 demo_read demo_signal).2.signal_rows.drop 0
      = List.map (fun i => raw_row demo_uuid ((demo_signal.drop (i * 2)).take 2))
          (List.range' 0 (num_chunks 2 5)) ∧
    (∀ row ∈ (demo_writer.add_complete_read 3 demo_read demo_signal).2.signal_rows.drop 0,
      row.payload = SignalPayload.raw row.samples ∧ row.samples ≠ [] ∧
        row.samples.length ≤ 2) ∧
    (((demo_writer.add_complete_read 3 demo_read demo_signal).2.signal_rows.drop 0).map
        SignalRow.samples).flatten = demo_signal :=
  add_complete_read_chunks_partition demo_writer demo_signal_writer demo_read_writer
    demo_read demo_signal 3 rfl rfl ⟨rfl, fun _ => rfl⟩ (by decide) (by decide) (by decide)
    (by decide)

/-! ## The read row -/

theorem add_read_ok (rtw : ReadTableWriter) (read_data : ReadData) (rows : List Nat)
    (h : ((rtw.add_read read_data rows).1.map fun _ => ()) = Status.OK) :
    (rtw.add_read read_data rows).2 = { rtw with rows := rtw.rows ++ [⟨read_data, rows⟩] } := by
  unfold ReadTableWriter.add_read at h ⊢
  by_cases hclosed : rtw.closed = true
  · simp [hclosed, Except.map, Status.OK] at h
  · cases hf : rtw.append_fault rtw.rows.length with
    | none => simp [hclosed, hf]
    | some e => simp [hclosed, hf, Except.map, Status.OK] at h

theorem add_complete_read_ok (w : FileWriterImpl) (stw : SignalTableWriter)
    (rtw : ReadTableWriter) (read_data : ReadData) (signal : List Int) (fuel : Nat)
    (hs : w.m_signal_table_writer = some stw) (hr : w.m_read_table_writer = some rtw)
    (hC32 : w.m_signal_chunk_size < UINT32_MOD) (hL : signal.length < 2 ^ 63)
    (hok : (w.add_complete_read fuel read_data signal).1 = some Status.OK) :
    FileWriterImpl.chunk_loop w.m_signal_chunk_size read_data.read_id signal fuel 0 stw [] =
      (some (Except.ok (List.range' stw.rows.length
          (num_chunks w.m_signal_chunk_size signal.length))),
        { stw with rows := (stw.rows ++ List.map
          (fun j => raw_row read_data.read_id (chunk_at w.m_signal_chunk_size signal j))
          (List.range' 0 (num_chunks w.m_signal_chunk_size signal.length))) }) := by
  unfold FileWriterImpl.add_complete_read at hok
  rw [hs, hr] at hok
  simp only at hok
  split at hok
  · simp at hok
  · exact absurd hok (by simp [Status.OK])
  · next m stw1 hloop =>
    rw [hloop]
    rcases Nat.eq_zero_or_pos w.m_signal_chunk_size with hC0 | hC
    · rw [hC0] at hloop ⊢
      obtain ⟨hnil, hm, hstw⟩ := chunk_loop_zero_ok _ _ _ _ _ _ _ hloop
      subst hnil hm hstw
      simp [num_chunks]
    · have h := chunk_loop_ok w.m_signal_chunk_size read_data.read_id signal hC hC32 hL
        fuel 0 stw stw1 [] m (by simpa using hloop)
      simp only [Nat.sub_zero, List.nil_append] at h
      rw [h.1, h.2]

/-- C3: when `add_complete_read` (raw-samples form) succeeds on an open writer whose
signal table holds `n` rows, the signal table gains the rows of the `ceil(L / C)`
chunks, the read table gains exactly one row, and the manifest of that row is
`[n, n + 1, ..., n + ceil(L / C) - 1]`, whose `j`-th entry is the index at which the
row of chunk `j` was stored (the value `add_signal` returned for it); the read row
is written by one `add_read` on the state that already holds all signal rows; an
empty signal gives an empty manifest. -/
theorem add_complete_read_manifest (w : FileWriterImpl) (stw : SignalTableWriter)
    (rtw : ReadTableWriter) (read_data : ReadData) (signal : List Int) (fuel : Nat)
    (hs : w.m_signal_table_writer = some stw) (hr : w.m_read_table_writer = some rtw)
    (hC32 : w.m_signal_chunk_size < UINT32_MOD) (hL : signal.length < 2 ^ 63)
    (hok : (w.add_complete_read fuel read_data signal).1 = some Status.OK) :
    (w.add_complete_read fuel read_data signal).2.signal_rows =
      stw.rows ++ List.map
        (fun j => raw_row read_data.read_id (chunk_at w.m_signal_chunk_size signal j))
        (List.range' 0 (num_chunks w.m_signal_chunk_size signal.length)) ∧
    (w.add_complete_read fuel read_data signal).2.read_rows =
      rtw.rows ++ [⟨read_data, List.range' stw.rows.length
        (num_chunks w.m_signal_chunk_size signal.length)⟩] ∧
    (∀ j, j < num_chunks w.m_signal_chunk_size signal.length →
      (w.add_complete_read fuel read_data signal).2.signal_rows[stw.rows.length + j]? =
        some (raw_row read_data.read_id (chunk_at w.m_signal_chunk_size signal j))) ∧
    w.add_complete_read fuel read_data signal =
      (some Status.OK,
        (FileWriterImpl.add_complete_read_rows
          { w with m_signal_table_writer := some { stw with rows := (stw.rows ++ List.map
              (fun j => raw_row read_data.read_id (chunk_at w.m_signal_chunk_size signal j))
              (List.range' 0 (num_chunks w.m_signal_chunk_size signal.length))) } }
          read_data
          (List.range' stw.rows.length (num_chunks w.m_signal_chunk_size signal.length))).2) ∧
    (signal = [] →
      List.range' stw.rows.length (num_chunks w.m_signal_chunk_size signal.length) = []) := by
  have hloop := add_complete_read_ok w stw rtw read_data signal fuel hs hr hC32 hL hok
  have hstatus : ((rtw.add_read read_data (List.range' stw.rows.length
      (num_chunks w.m_signal_chunk_size signal.length))).1.map fun _ => ()) = Status.OK := by
    unfold FileWriterImpl.add_complete_read at hok
    rw [hs, hr] at hok
    simp only [hloop] at hok
    injection hok
  have hread := add_read_ok rtw read_data _ hstatus
  have hrows : (w.add_complete_read fuel read_data signal).2.signal_rows =
      stw.rows ++ List.map
        (fun j => raw_row read_data.read_id (chunk_at w.m_signal_chunk_size signal j))
        (List.range' 0 (num_chunks w.m_signal_chunk_size signal.length)) := by
    unfold FileWriterImpl.add_complete_read
    rw [hs, hr]
    simp only [hloop]
    rfl
  refine ⟨hrows, ?_, ?_, ?_, ?_⟩
  · unfold FileWriterImpl.add_complete_read
    rw [hs, hr]
    simp only [hloop, hread]
    rfl
  · intro j hj
    rw [hrows, List.getElem?_append_right (by omega)]
    simp [hj]
  · unfold FileWriterImpl.add_complete_read FileWriterImpl.add_complete_read_rows
    rw [hs, hr]
    simp only [hloop, hstatus]
  · intro hnil
    rw [hnil]
    by_cases hC : w.m_signal_chunk_size = 0
    · simp [hC, num_chunks]
    · have h0 : num_chunks w.m_signal_chunk_size 0 = 0 := by
        unfold num_chunks
        exact Nat.div_eq_of_lt (by omega)
      simp [h0]

/-- Witness for C3: five samples with chunk size 2 on an empty signal table give the
manifest `[0, 1, 2]`. -/
theorem add_complete_read_manifest_witness :
    (demo_writer.add_complete_read 3 demo_read demo_signal).2.read_rows.map ReadRow.signal_rows
      = [[0, 1, 2]] := by
  have h := (add_complete_read_manifest demo_writer demo_signal_writer demo_read_writer
    demo_read demo_signal 3 rfl rfl (by decide) (by decide) rfl).2.1
  rw [h]
  decide

/-! ## Closing -/

theorem close_read_table_writer_ok (w w1 : FileWriterImpl) (u : Unit)
    (h : w.close_read_table_writer = (Except.ok u, w1)) :
    w1 = { w with m_read_table_writer := none } := by
  unfold FileWriterImpl.close_read_table_writer at h
  split at h
  · split at h
    · simp at h
    · injection h with h1 h2
      exact h2.symm
  · next hnone =>
    injection h with h1 h2
    rw [← h2]
    cases w
    simp_all

theorem close_signal_table_writer_ok (w w1 : FileWriterImpl) (u : Unit)
    (h : w.close_signal_table_writer = (Except.ok u, w1)) :
    w1 = { w with m_signal_table_writer := none } := by
  unfold FileWriterImpl.close_signal_table_writer at h
  split at h
  · split at h
    · simp at h
    · injection h with h1 h2
      exact h2.symm
  · next hnone =>
    injection h with h1 h2
    rw [← h2]
    cases w
    simp_all

theorem base_close_ok (w w' : FileWriterImpl) (u : Unit)
    (h : w.close = (Except.ok u, w')) :
    w' = { w with m_read_table_writer := none, m_signal_table_writer := none } := by
  unfold FileWriterImpl.close at h
  split at h
  · simp at h
  · next u1 w1 h1 =>
    split at h
    · simp at h
    · next u2 w2 h2 =>
      injection h with _ hw
      rw [← hw, close_signal_table_writer_ok _ _ _ h2, close_read_table_writer_ok _ _ _ h1]

theorem combined_close_done (fmt : Format) (fuel : Nat) (w w' : CombinedFileWriterImpl)
    (s s' : World) (h : w.close fmt fuel s = (Outcome.done (), w', s')) :
    (w.toFileWriterImpl.is_closed = true ∧ w' = w ∧ s' = s) ∨
    (w.toFileWriterImpl.is_closed = false ∧
      w' = { w with toFileWriterImpl :=
        { w.toFileWriterImpl with m_read_table_writer := none, m_signal_table_writer := none } } ∧
      CombinedFileWriterImpl.splice fmt fuel w s = (Outcome.done (), s')) := by
  unfold CombinedFileWriterImpl.close at h
  split at h
  · next hc =>
    injection h with _ h2
    injection h2 with h2 h3
    exact Or.inl ⟨hc, h2.symm, h3.symm⟩
  · next hc =>
    right
    refine ⟨by simpa using hc, ?_⟩
    split at h
    · simp at h
    · next u1 b1 h1 =>
      split at h
      · simp at h
      · next u2 b2 h2 =>
        injection h with h3 h4
        injection h4 with h4 h5
        refine ⟨?_, ?_⟩
        · rw [← h4, close_signal_table_writer_ok _ _ _ h2, close_read_table_writer_ok _ _ _ h1]
        · rw [← h3, ← h5]

theorem with_base_base (fw : FileWriter) : fw.with_base fw.base = fw := by
  cases fw <;> rfl

theorem close_done_signal_none (fmt : Format) (fuel : Nat) (fw fw' : FileWriter) (s s' : World)
    (h : fw.close fmt fuel s = (Outcome.done (), fw', s')) :
    fw'.base.m_signal_table_writer = none := by
  unfold FileWriter.close at h
  cases fw with
  | split impl =>
    simp only at h
    split at h
    · simp at h
    · next u impl1 hc =>
      injection h with _ h2
      injection h2 with h2 _
      rw [← h2, FileWriter.base, base_close_ok _ _ _ hc]
  | combined impl =>
    simp only at h
    injection h with h1 h2
    injection h2 with h2 h3
    have hc : impl.close fmt fuel s = (Outcome.done (), (impl.close fmt fuel s).2.1, s') := by
      rw [← h1, ← h3]
    rw [← h2, FileWriter.base]
    rcases combined_close_done _ _ _ _ _ _ hc with ⟨hcl, hw, -⟩ | ⟨-, hw, -⟩
    · rw [hw]
      simpa [FileWriterImpl.is_closed] using hcl
    · rw [hw]

theorem guard_rejects_read (w : FileWriterImpl) (h : w.m_signal_table_writer = none)
    (fuel : Nat) (read_data : ReadData) (signal : List Int) :
    w.add_complete_read fuel read_data signal
      = (some (Except.error (Error.Invalid writer_closed_msg)), w) := by
  unfold FileWriterImpl.add_complete_read
  rw [h]

theorem guard_rejects_read_rows (w : FileWriterImpl) (h : w.m_signal_table_writer = none)
    (read_data : ReadData) (rows : List Nat) :
    w.add_complete_read_rows read_data rows
      = (Except.error (Error.Invalid writer_closed_msg), w) := by
  unfold FileWriterImpl.add_complete_read_rows
  rw [h]

theorem guard_rejects_pre_compressed (w : FileWriterImpl) (h : w.m_signal_table_writer = none)
    (read_id : Uuid) (bytes : List Byte) (n : Nat) :
    w.add_pre_compressed_signal read_id bytes n
      = (Except.error (Error.Invalid writer_closed_msg), w) := by
  unfold FileWriterImpl.add_pre_compressed_signal
  rw [h]

/-- C4: after `close()` has succeeded (split or combined writer), both forms of
`add_complete_read` and `add_pre_compressed_signal` return the invalid-operation
status "File writer closed, cannot write further data" and hand back the writer
unchanged: no signal row, no read row, no other change. -/
theorem closed_writer_rejects_reads (fmt : Format) (fuel : Nat) (fw fw' : FileWriter)
    (s s' : World) (h : fw.close fmt fuel s = (Outcome.done (), fw', s')) :
    (∀ (n : Nat) (read_data : ReadData) (signal : List Int),
      fw'.add_complete_read n read_data signal
        = (some (Except.error (Error.Invalid writer_closed_msg)), fw')) ∧
    (∀ (read_data : ReadData) (signal_rows : List Nat),
      fw'.add_complete_read_rows read_data signal_rows
        = (Except.error (Error.Invalid writer_closed_msg), fw')) ∧
    (∀ (read_id : Uuid) (signal_bytes : List Byte) (sample_count : Nat),
      fw'.add_pre_compressed_signal read_id signal_bytes sample_count
        = (Except.error (Error.Invalid writer_closed_msg), fw')) := by
  have hnone := close_done_signal_none fmt fuel fw fw' s s' h
  refine ⟨?_, ?_, ?_⟩
  · intro n read_data signal
    unfold FileWriter.add_complete_read
    simp only [guard_rejects_read _ hnone, with_base_base]
  · intro read_data signal_rows
    unfold FileWriter.add_complete_read_rows
    simp only [guard_rejects_read_rows _ hnone, with_base_base]
  · intro read_id signal_bytes sample_count
    unfold FileWriter.add_pre_compressed_signal
    simp only [guard_rejects_pre_compressed _ hnone, with_base_base]

/-- Witness for C4: a combined writer, closed with success, rejects a read of five
samples, a read given by row indices and a pre-compressed chunk. -/
theorem closed_writer_rejects_reads_witness :
    ((FileWriter.combined demo_combined).close demo_format 1 demo_world).1 = Outcome.done () ∧
    (((FileWriter.combined demo_combined).close demo_format 1 demo_world).2.1.add_complete_read
        3 demo_read demo_signal).1 = some (Except.error (Error.Invalid writer_closed_msg)) ∧
    (((FileWriter.combined demo_combined).close demo_format 1 demo_world).2.1.add_complete_read_rows
        demo_read [0, 1]).1 = Except.error (Error.Invalid writer_closed_msg) ∧
    (((FileWriter.combined demo_combined).close demo_format 1
        demo_world).2.1.add_pre_compressed_signal demo_uuid [1, 2] 4).1
      = Except.error (Error.Invalid writer_closed_msg) := by
  have h := closed_writer_rejects_reads demo_format 1 (FileWriter.combined demo_combined)
    ((FileWriter.combined demo_combined).close demo_format 1 demo_world).2.1 demo_world
    ((FileWriter.combined demo_combined).close demo_format 1 demo_world).2.2 rfl
  exact ⟨rfl, by rw [h.1], by rw [h.2.1], by rw [h.2.2]⟩

/-! ## Dictionary calls on a closed writer -/

theorem dictionary_add_accepting (dw : DictionaryWriter) (record : DictRecord)
    (hacc : ∀ k, dw.append_fault k = none) :
    ∃ i, (dw.add record).1 = Except.ok i ∧ (dw.add record).2.entries[i]? = some record := by
  unfold DictionaryWriter.add
  by_cases hmem : record ∈ dw.entries
  · refine ⟨dw.entries.indexOf record, by simp [hmem], ?_⟩
    simp only [hmem, if_true]
    have hlt : dw.entries.indexOf record < dw.entries.length := List.indexOf_lt_length.2 hmem
    rw [List.getElem?_eq_getElem hlt]
    simp
  · refine ⟨dw.entries.length, by simp [hmem, hacc], ?_⟩
    simp [hmem, hacc]

theorem base_with_base (fw : FileWriter) (b : FileWriterImpl) : (fw.with_base b).base = b := by
  cases fw <;> rfl

/-- Counterexample to C5: on the split writer `demo_writer`, closed with success,
`add_pore` does not fail: it returns index 0 and the pore dictionary, empty
before, holds the record afterwards. -/
theorem add_pore_after_close_succeeds :
    demo_writer.close.1 = Status.OK ∧
    demo_writer.close.2.is_closed = true ∧
    demo_writer.close.2.m_dict_writers.pore_writer.entries = [] ∧
    (demo_writer.close.2.add_pore demo_pore).1 = Except.ok 0 ∧
    (demo_writer.close.2.add_pore demo_pore).2.m_dict_writers.pore_writer.entries
      = [demo_pore] := by
  refine ⟨rfl, rfl, rfl, rfl, rfl⟩

/-- C5, amended: after `close()` has succeeded (split or combined writer) the table
writers are torn down, yet `add_pore`, `add_calibration`, `add_end_reason` and
`add_run_info` are not rejected: each returns what its dictionary writer's `add`
returns and stores the dictionary `add` leaves, keeps the table writers as they
are, and succeeds whenever the storage of its dictionary does not fail. -/
theorem closed_writer_dictionary_calls_delegate (fmt : Format) (fuel : Nat)
    (fw fw' : FileWriter) (s s' : World)
    (h : fw.close fmt fuel s = (Outcome.done (), fw', s')) :
    fw'.base.m_signal_table_writer = none ∧
    fw'.delegates FileWriter.add_pore DictionaryWriters.pore_writer ∧
    fw'.delegates FileWriter.add_calibration DictionaryWriters.calibration_writer ∧
    fw'.delegates FileWriter.add_end_reason DictionaryWriters.end_reason_writer ∧
    fw'.delegates FileWriter.add_run_info DictionaryWriters.run_info_writer := by
  refine ⟨close_done_signal_none fmt fuel fw fw' s s' h, ?_, ?_, ?_, ?_⟩
  · intro record
    refine ⟨rfl, ?_, ?_, ?_, ?_⟩
    · simp [FileWriter.add_pore, base_with_base, FileWriterImpl.add_pore]
    · simp [FileWriter.add_pore, base_with_base, FileWriterImpl.add_pore]
    · simp [FileWriter.add_pore, base_with_base, FileWriterImpl.add_pore]
    · intro hacc
      simpa [FileWriter.add_pore, base_with_base, FileWriterImpl.add_pore]
        using dictionary_add_accepting _ record hacc
  · intro record
    refine ⟨rfl, ?_, ?_, ?_, ?_⟩
    · simp [FileWriter.add_calibration, base_with_base, FileWriterImpl.add_calibration]
    · simp [FileWriter.add_calibration, base_with_base, FileWriterImpl.add_calibration]
    · simp [FileWriter.add_calibration, base_with_base, FileWriterImpl.add_calibration]
    · intro hacc
      simpa [FileWriter.add_calibration, base_with_base, FileWriterImpl.add_calibration]
        using dictionary_add_accepting _ record hacc
  · intro record
    refine ⟨rfl, ?_, ?_, ?_, ?_⟩
    · simp [FileWriter.add_end_reason, base_with_base, FileWriterImpl.add_end_reason]
    · simp [FileWriter.add_end_reason, base_with_base, FileWriterImpl.add_end_reason]
    · simp [FileWriter.add_end_reason, base_with_base, FileWriterImpl.add_end_reason]
    · intro hacc
      simpa [FileWriter.add_end_reason, base_with_base, FileWriterImpl.add_end_reason]
        using dictionary_add_accepting _ record hacc
  · intro record
    refine ⟨rfl, ?_, ?_, ?_, ?_⟩
    · simp [FileWriter.add_run_info, base_with_base, FileWriterImpl.add_run_info]
    · simp [FileWriter.add_run_info, base_with_base, FileWriterImpl.add_run_info]
    · simp [FileWriter.add_run_info, base_with_base, FileWriterImpl.add_run_info]
    · intro hacc
      simpa [FileWriter.add_run_info, base_with_base, FileWriterImpl.add_run_info]
        using dictionary_add_accepting _ record hacc

/-- Witness for the amended C5: on the combined writer `demo_combined`, closed with
success, `add_pore` returns what the pore dictionary returns. -/
theorem closed_writer_dictionary_calls_delegate_witness :
    ((FileWriter.combined demo_combined).close demo_format 1 demo_world).1 = Outcome.done () ∧
    (((FileWriter.combined demo_combined).close demo_format 1 demo_world).2.1.add_pore
        demo_pore).1 = (demo_dictionary.add demo_pore).1 :=
  ⟨rfl, ((closed_writer_dictionary_calls_delegate demo_format 1
    (FileWriter.combined demo_combined)
    ((FileWriter.combined demo_combined).close demo_format 1 demo_world).2.1 demo_world
    ((FileWriter.combined demo_combined).close demo_format 1 demo_world).2.2 rfl).2.1
    demo_pore).1⟩

/-! ## The assertion of `is_closed` -/

/-- C6, the code at the failing input: `create_split_file_writer` in surroundings
whose storage refuses the `close` of the signal table yields `faulty_writer`; its
`close()` fails with the storage error after the read table writer was torn down,
so the read table writer is gone while the signal table writer is still present and
the condition asserted in `is_closed` is false.  The combined writer created in the
same surroundings ends in the same state. -/
theorem close_breaks_is_closed_assertion :
    (create_split_file_writer faulty_env demo_signal_path demo_reads_path "demo" demo_options
        empty_world).1 = Outcome.done (FileWriter.split faulty_writer) ∧
    faulty_writer.is_closed_assertion = true ∧
    faulty_writer.close.1 = Except.error (Error.IoError "disk full") ∧
    faulty_writer.close.2.m_read_table_writer.isSome = false ∧
    faulty_writer.close.2.m_signal_table_writer.isSome = true ∧
    faulty_writer.close.2.is_closed_assertion = false ∧
    faulty_writer.close.2.is_closed = false ∧
    (create_combined_file_writer demo_format faulty_env demo_path "demo" demo_options
        empty_world).1 = Outcome.done (FileWriter.combined faulty_combined) ∧
    (faulty_combined.close demo_format 1 demo_created_world).1
      = Outcome.failed (Error.IoError "disk full") ∧
    (faulty_combined.close demo_format 1 demo_created_world).2.1.m_read_table_writer.isSome
      = false ∧
    (faulty_combined.close demo_format 1 demo_created_world).2.1.m_signal_table_writer.isSome
      = true ∧
    (faulty_combined.close demo_format 1 demo_created_world).2.1.is_closed_assertion
      = false := by
  refine ⟨rfl, rfl, rfl, rfl, rfl, rfl, rfl, rfl, rfl, rfl, rfl, rfl⟩

/-! ## Closing twice -/

theorem close_done_torn_down (fmt : Format) (fuel : Nat) (fw fw' : FileWriter) (s s' : World)
    (h : fw.close fmt fuel s = (Outcome.done (), fw', s')) : fw'.torn_down := by
  have hsig := close_done_signal_none fmt fuel fw fw' s s' h
  unfold FileWriter.close at h
  cases fw with
  | split impl =>
    simp only at h
    split at h
    · simp at h
    · next u impl1 hc =>
      injection h with _ h2
      injection h2 with h2 _
      subst h2
      rw [base_close_ok _ _ _ hc]
      exact ⟨rfl, rfl⟩
  | combined impl =>
    simp only at h
    injection h with _ h2
    injection h2 with h2 _
    subst h2
    exact hsig

theorem torn_down_close (fmt : Format) (fuel : Nat) (fw : FileWriter) (s : World)
    (h : fw.torn_down) : fw.close fmt fuel s = (Outcome.done (), fw, s) := by
  cases fw with
  | split impl =>
    obtain ⟨hr, hs⟩ := h
    simp [FileWriter.close, FileWriterImpl.close, FileWriterImpl.close_read_table_writer,
      FileWriterImpl.close_signal_table_writer, hr, hs, Status.OK]
  | combined impl =>
    have hs : impl.m_signal_table_writer = none := h
    simp [FileWriter.close, CombinedFileWriterImpl.close, FileWriterImpl.is_closed, hs]

theorem torn_down_with_dicts (fw : FileWriter) (d : DictionaryWriters) (h : fw.torn_down) :
    (fw.with_base { fw.base with m_dict_writers := d }).torn_down := by
  cases fw with
  | split impl => exact h
  | combined impl => exact h

theorem torn_down_signal_none (fw : FileWriter) (h : fw.torn_down) :
    fw.base.m_signal_table_writer = none := by
  cases fw with
  | split impl => exact h.2
  | combined impl => exact h

theorem torn_down_call (fmt : Format) (c : Call) (fw : FileWriter) (s : World)
    (h : fw.torn_down) :
    (FileWriter.call fmt c (fw, s)).1.torn_down ∧ (FileWriter.call fmt c (fw, s)).2 = s ∧
    (FileWriter.call fmt c (fw, s)).1.base.m_read_table_writer = fw.base.m_read_table_writer ∧
    (FileWriter.call fmt c (fw, s)).1.base.m_signal_table_writer
      = fw.base.m_signal_table_writer := by
  have hnone := torn_down_signal_none fw h
  cases c with
  | add_pore d =>
    exact ⟨torn_down_with_dicts fw _ h, rfl, by simp [FileWriter.call, FileWriter.add_pore,
      FileWriterImpl.add_pore, base_with_base], by simp [FileWriter.call, FileWriter.add_pore,
      FileWriterImpl.add_pore, base_with_base]⟩
  | add_calibration d =>
    exact ⟨torn_down_with_dicts fw _ h, rfl, by simp [FileWriter.call,
      FileWriter.add_calibration, FileWriterImpl.add_calibration, base_with_base], by
      simp [FileWriter.call, FileWriter.add_calibration, FileWriterImpl.add_calibration,
        base_with_base]⟩
  | add_end_reason d =>
    exact ⟨torn_down_with_dicts fw _ h, rfl, by simp [FileWriter.call,
      FileWriter.add_end_reason, FileWriterImpl.add_end_reason, base_with_base], by
      simp [FileWriter.call, FileWriter.add_end_reason, FileWriterImpl.add_end_reason,
        base_with_base]⟩
  | add_run_info d =>
    exact ⟨torn_down_with_dicts fw _ h, rfl, by simp [FileWriter.call,
      FileWriter.add_run_info, FileWriterImpl.add_run_info, base_with_base], by
      simp [FileWriter.call, FileWriter.add_run_info, FileWriterImpl.add_run_info,
        base_with_base]⟩
  | add_complete_read fuel rd signal =>
    simp only [FileWriter.call, FileWriter.add_complete_read, guard_rejects_read _ hnone,
      with_base_base]
    exact ⟨h, by trivial, by trivial, by trivial⟩
  | add_complete_read_rows rd rows =>
    simp only [FileWriter.call, FileWriter.add_complete_read_rows,
      guard_rejects_read_rows _ hnone, with_base_base]
    exact ⟨h, by trivial, by trivial, by trivial⟩
  | add_pre_compressed_signal id bytes n =>
    simp only [FileWriter.call, FileWriter.add_pre_compressed_signal,
      guard_rejects_pre_compressed _ hnone, with_base_base]
    exact ⟨h, by trivial, by trivial, by trivial⟩
  | close fuel =>
    simp only [FileWriter.call, torn_down_close fmt fuel fw s h]
    exact ⟨h, by trivial, by trivial, by trivial⟩

theorem torn_down_run (fmt : Format) (calls : List Call) :
    ∀ (fw : FileWriter) (s : World), fw.torn_down →
      (FileWriter.run fmt calls (fw, s)).1.torn_down ∧ (FileWriter.run fmt calls (fw, s)).2 = s ∧
      (FileWriter.run fmt calls (fw, s)).1.base.m_read_table_writer
        = fw.base.m_read_table_writer ∧
      (FileWriter.run fmt calls (fw, s)).1.base.m_signal_table_writer
        = fw.base.m_signal_table_writer := by
  induction calls with
  | nil =>
    intro fw s h
    exact ⟨h, rfl, rfl, rfl⟩
  | cons c rest ih =>
    intro fw s h
    obtain ⟨h1, h2, h3, h4⟩ := torn_down_call fmt c fw s h
    have hstep : FileWriter.run fmt (c :: rest) (fw, s)
        = FileWriter.run fmt rest ((FileWriter.call fmt c (fw, s)).1, s) := by
      unfold FileWriter.run
      rw [List.foldl_cons]
      congr 1
      exact Prod.ext rfl h2
    rw [hstep]
    obtain ⟨i1, i2, i3, i4⟩ := ih _ s h1
    exact ⟨i1, i2, i3.trans h3, i4.trans h4⟩

/-- C7: once `close()` has succeeded on a split or combined writer, then after any
sequence of further calls of the public interface a `close()` returns success and
hands back the writer and the world unchanged; over the whole sequence the world
(every file, and the list of footers written) and the two table writer fields stay
as the successful `close()` left them, so padding, section markers, read-table
bytes and footer are written once only and no table writer is closed again. -/
theorem close_again_is_no_op (fmt : Format) (fuel : Nat) (fw fw' : FileWriter)
    (s s' : World) (h : fw.close fmt fuel s = (Outcome.done (), fw', s'))
    (calls : List Call) (fuel2 : Nat) :
    (FileWriter.run fmt calls (fw', s')).1.close fmt fuel2 (FileWriter.run fmt calls (fw', s')).2
      = (Outcome.done (), (FileWriter.run fmt calls (fw', s')).1,
          (FileWriter.run fmt calls (fw', s')).2) ∧
    (FileWriter.run fmt calls (fw', s')).2 = s' ∧
    (FileWriter.run fmt calls (fw', s')).1.base.m_read_table_writer
      = fw'.base.m_read_table_writer ∧
    (FileWriter.run fmt calls (fw', s')).1.base.m_signal_table_writer = none := by
  have htd := close_done_torn_down fmt fuel fw fw' s s' h
  obtain ⟨h1, h2, h3, h4⟩ := torn_down_run fmt calls fw' s' htd
  exact ⟨torn_down_close fmt fuel2 _ _ h1, h2, h3,
    h4.trans (torn_down_signal_none fw' htd)⟩

/-- Witness for C7: the combined writer `demo_combined` is closed with success, a
pore is added and `close()` is called twice more; the world still is the one the
first `close()` left, with its single footer. -/
theorem close_again_is_no_op_witness :
    ((FileWriter.combined demo_combined).close demo_format 1 demo_world).1 = Outcome.done () ∧
    (FileWriter.run demo_format [Call.close 1, Call.add_pore demo_pore, Call.close 1]
        (((FileWriter.combined demo_combined).close demo_format 1 demo_world).2.1,
          ((FileWriter.combined demo_combined).close demo_format 1 demo_world).2.2)).2
      = ((FileWriter.combined demo_combined).close demo_format 1 demo_world).2.2 ∧
    ((FileWriter.combined demo_combined).close demo_format 1 demo_world).2.2.footers.length
      = 1 :=
  ⟨rfl, (close_again_is_no_op demo_format 1 (FileWriter.combined demo_combined)
    ((FileWriter.combined demo_combined).close demo_format 1 demo_world).2.1 demo_world
    ((FileWriter.combined demo_combined).close demo_format 1 demo_world).2.2 rfl
    [Call.close 1, Call.add_pore demo_pore, Call.close 1] 1).2.1, rfl⟩

/-! ## The footer of a combined file -/

theorem combined_close_layout (fmt : Format) (fuel : Nat) (w w' : CombinedFileWriterImpl)
    (s s' : World) (hopen : w.is_closed = false)
    (h : w.close fmt fuel s = (Outcome.done (), w', s')) :
    ∃ X : List Byte,
      s'.files w.m_path = some
        ((s.files w.m_path).getD []
          ++ List.replicate (bytes_to_pad 8 ((s.files w.m_path).getD []).length) 0
          ++ w.m_section_marker.bytes
          ++ X
          ++ List.replicate (bytes_to_pad 8 (((s.files w.m_path).getD []).length
              + bytes_to_pad 8 ((s.files w.m_path).getD []).length + 16 + X.length)) 0
          ++ w.m_section_marker.bytes
          ++ fmt.footer ⟨w.m_section_marker, w.m_file_identifier, w.m_software_name,
              ⟨w.m_signal_file_start_offset,
                (((s.files w.m_path).getD []).length : Int) - w.m_signal_file_start_offset⟩,
              ⟨((((s.files w.m_path).getD []).length
                  + bytes_to_pad 8 ((s.files w.m_path).getD []).length + 16 : Nat) : Int),
                (X.length : Int)⟩⟩) ∧
      s'.footers = s.footers ++
        [⟨w.m_section_marker, w.m_file_identifier, w.m_software_name,
          ⟨w.m_signal_file_start_offset,
            (((s.files w.m_path).getD []).length : Int) - w.m_signal_file_start_offset⟩,
          ⟨((((s.files w.m_path).getD []).length
              + bytes_to_pad 8 ((s.files w.m_path).getD []).length + 16 : Nat) : Int),
            (X.length : Int)⟩⟩] := by
  rcases combined_close_done fmt fuel w w' s s' h with ⟨hc, -, -⟩ | ⟨-, -, hsplice⟩
  · rw [hopen] at hc
    exact absurd hc (by simp)
  · exact splice_done fmt fuel w s s' hsplice

/-- Counterexample to C8: closing `demo_combined` in `demo_world` (main file of 5
bytes, signal table from offset 3) succeeds; the footer holds the signal table
`FileInfo` (3, 2) and the read table `FileInfo` (24, 2), the first padding is 3
zero bytes, and 3 + 2 is not 24 - 3: the 16 bytes of the section marker lie in
between. -/
theorem footer_offsets_skip_marker :
    (demo_combined.close demo_format 1 demo_world).1 = Outcome.done () ∧
    (demo_combined.close demo_format 1 demo_world).2.2.footers.map
        (fun f => (f.signal_table, f.read_table))
      = [((⟨3, 2⟩ : FileInfo), (⟨24, 2⟩ : FileInfo))] ∧
    bytes_to_pad 8 5 = 3 ∧
    (demo_combined.close demo_format 1 demo_world).2.2.files demo_path
      = some ([1, 2, 3, 4, 5] ++ [0, 0, 0] ++ demo_marker.bytes ++ [8, 8]
          ++ [0, 0, 0, 0, 0, 0] ++ demo_marker.bytes ++ [6, 6]) ∧
    ¬ ((3 : Int) + 2 = 24 - 3) := by
  refine ⟨rfl, by decide, by decide, by decide, by decide⟩

/-- C8, amended: after a successful close of a combined file (a call that found the
writer open), the footer written satisfies `signal_table.start_offset +
signal_table.length == read_table.start_offset - padding - 16`, where `padding` is
the number of zero bytes inserted by the first pad-to-8-bytes step and 16 is the
size of the section marker written after them: the main file as re-opened, the
padding and the marker are the first bytes of the final file. -/
theorem footer_signal_end_before_padding_and_marker (fmt : Format) (fuel : Nat)
    (w w' : CombinedFileWriterImpl) (s s' : World) (hopen : w.is_closed = false)
    (h : w.close fmt fuel s = (Outcome.done (), w', s')) :
    ∃ F : Footer, s'.footers = s.footers ++ [F] ∧
      F.signal_table.file_start_offset + F.signal_table.file_length
        = F.read_table.file_start_offset
          - (bytes_to_pad 8 ((s.files w.m_path).getD []).length : Int) - 16 ∧
      ((s.files w.m_path).getD []
          ++ List.replicate (bytes_to_pad 8 ((s.files w.m_path).getD []).length) 0
          ++ w.m_section_marker.bytes) <+: (s'.files w.m_path).getD [] := by
  obtain ⟨X, hfiles, hfooters⟩ := combined_close_layout fmt fuel w w' s s' hopen h
  refine ⟨_, hfooters, ?_, ?_⟩
  · simp only
    push_cast
    omega
  · rw [hfiles]
    simp only [Option.getD_some]
    exact ⟨_, by simp only [List.append_assoc]; rfl⟩

/-- Witness for the amended C8: `demo_combined` closed in `demo_world`. -/
theorem footer_signal_end_before_padding_and_marker_witness :
    ∃ F : Footer,
      (demo_combined.close demo_format 1 demo_world).2.2.footers = demo_world.footers ++ [F] ∧
      F.signal_table.file_start_offset + F.signal_table.file_length
        = F.read_table.file_start_offset
          - (bytes_to_pad 8 ((demo_world.files demo_combined.m_path).getD []).length : Int)
          - 16 ∧
      ((demo_world.files demo_combined.m_path).getD []
          ++ List.replicate
            (bytes_to_pad 8 ((demo_world.files demo_combined.m_path).getD []).length) 0
          ++ demo_combined.m_section_marker.bytes)
        <+: ((demo_combined.close demo_format 1 demo_world).2.2.files
              demo_combined.m_path).getD [] :=
  footer_signal_end_before_padding_and_marker demo_format 1 demo_combined
    (demo_combined.close demo_format 1 demo_world).2.1 demo_world
    (demo_combined.close demo_format 1 demo_world).2.2 rfl rfl

/-- C9: after a successful close of a combined file (a call that found the writer
open) whose main file at re-open is at least as long as the recorded signal start
offset, both `FileInfo` records of the footer have non-negative length, the signal
table range ends at or before the start of the read table range, and the read table
range ends within the final file. -/
theorem footer_ranges_ordered_within_file (fmt : Format) (fuel : Nat)
    (w w' : CombinedFileWriterImpl) (s s' : World) (hopen : w.is_closed = false)
    (h : w.close fmt fuel s = (Outcome.done (), w', s'))
    (hstart : w.m_signal_file_start_offset ≤ (((s.files w.m_path).getD []).length : Int)) :
    ∃ (F : Footer) (content : List Byte),
      s'.footers = s.footers ++ [F] ∧ s'.files w.m_path = some content ∧
      0 ≤ F.signal_table.file_length ∧ 0 ≤ F.read_table.file_length ∧
      F.signal_table.file_start_offset + F.signal_table.file_length
        ≤ F.read_table.file_start_offset ∧
      F.read_table.file_start_offset + F.read_table.file_length ≤ (content.length : Int) := by
  obtain ⟨X, hfiles, hfooters⟩ := combined_close_layout fmt fuel w w' s s' hopen h
  refine ⟨_, _, hfooters, hfiles, ?_, ?_, ?_, ?_⟩
  · simp only
    omega
  · simp only
    omega
  · simp only
    push_cast
    omega
  · simp only [List.length_append, List.length_replicate, w.m_section_marker.size_eq]
    push_cast
    omega

/-- Witness for C9: `demo_combined` closed in `demo_world`, where the main file has 5
bytes and the signal table starts at offset 3. -/
theorem footer_ranges_ordered_within_file_witness :
    ∃ (F : Footer) (content : List Byte),
      (demo_combined.close demo_format 1 demo_world).2.2.footers = demo_world.footers ++ [F] ∧
      (demo_combined.close demo_format 1 demo_world).2.2.files demo_combined.m_path
        = some content ∧
      0 ≤ F.signal_table.file_length ∧ 0 ≤ F.read_table.file_length ∧
      F.signal_table.file_start_offset + F.signal_table.file_length
        ≤ F.read_table.file_start_offset ∧
      F.read_table.file_start_offset + F.read_table.file_length ≤ (content.length : Int) :=
  footer_ranges_ordered_within_file demo_format 1 demo_combined
    (demo_combined.close demo_format 1 demo_world).2.1 demo_world
    (demo_combined.close demo_format 1 demo_world).2.2 rfl rfl (by decide)

/-! ## The signal table `FileInfo` and the sub-stream -/

theorem open_truncate_done (p : Path) (s s1 : World) (file : FileOutputStream)
    (h : FileOutputStream.Open p false s = (Outcome.done file, s1)) :
    file = ⟨p⟩ ∧ s1 = s.set p (some []) := by
  unfold FileOutputStream.Open at h
  split at h
  · simp at h
  · simp only at h
    injection h with h1 h2
    injection h1 with h1
    exact ⟨h1.symm, h2.symm⟩

theorem check_done (fault : Option Error) (s s1 : World) (u : Unit)
    (h : M.check fault s = (Outcome.done u, s1)) : s1 = s := by
  unfold M.check at h
  cases fault with
  | none =>
    exact ((pure_eq_done _ _ _ _).1 h).2.symm
  | some e => simp [M.fail] at h

theorem make_dictionary_writers_done (env : Environment) (s s1 : World)
    (d : DictionaryWriters) (h : make_dictionary_writers env s = (Outcome.done d, s1)) :
    s1 = s := by
  unfold make_dictionary_writers at h
  obtain ⟨u, s2, hc, h2⟩ := (bind_eq_done _ _ _ _ _).1 h
  rw [check_done _ _ _ _ hc] at h2
  exact ((pure_eq_done _ _ _ _).1 h2).2.symm

theorem make_read_table_writer_done (env : Environment) (sink : OutputStream) (s s1 : World)
    (w : ReadTableWriter) (h : make_read_table_writer env sink s = (Outcome.done w, s1)) :
    s1 = s ∧ w.sink = sink := by
  unfold make_read_table_writer at h
  obtain ⟨u, s2, hc, h2⟩ := (bind_eq_done _ _ _ _ _).1 h
  rw [check_done _ _ _ _ hc] at h2
  obtain ⟨hw, hs⟩ := (pure_eq_done _ _ _ _).1 h2
  exact ⟨hs.symm, by rw [← hw]⟩

theorem make_signal_table_writer_done (env : Environment) (sink : OutputStream) (s s1 : World)
    (w : SignalTableWriter) (h : make_signal_table_writer env sink s = (Outcome.done w, s1)) :
    s1 = s ∧ w.sink = sink := by
  unfold make_signal_table_writer at h
  obtain ⟨u, s2, hc, h2⟩ := (bind_eq_done _ _ _ _ _).1 h
  rw [check_done _ _ _ _ hc] at h2
  obtain ⟨hw, hs⟩ := (pure_eq_done _ _ _ _).1 h2
  exact ⟨hs.symm, by rw [← hw]⟩

theorem reads_tmp_path_ne (path : Path) : reads_tmp_path_of path ≠ path := by
  intro h
  have hlen := congrArg (fun p => p.filename.length) h
  simp only [reads_tmp_path_of, String.length_append] at hlen
  have h1 : ".".length = 1 := by decide
  have h2 : ".tmp-reads".length = 10 := by decide
  omega

theorem create_combined_done (fmt : Format) (env : Environment) (path : Path) (name : String)
    (options : FileWriterOptions) (s0 s1 : World) (impl : CombinedFileWriterImpl)
    (h : create_combined_file_writer fmt env path name options s0
      = (Outcome.done (FileWriter.combined impl), s1)) :
    s1.files path = some (fmt.header (env.uuid 0)) ∧
    impl.m_path = path ∧
    impl.m_signal_file_start_offset = ((fmt.header (env.uuid 0)).length : Int) ∧
    impl.m_signal_table_writer.map SignalTableWriter.sink
      = some (OutputStream.sub ⟨⟨path⟩, ((fmt.header (env.uuid 0)).length : Int)⟩) := by
  unfold create_combined_file_writer at h
  cases hp : options.m_memory_pool with
  | none =>
    rw [hp] at h
    simp [M.fail] at h
  | some pool =>
    rw [hp] at h
    obtain ⟨ex, sa, hex, h1⟩ := (bind_eq_done _ _ _ _ _).1 h
    clear h
    cases ex with
    | true => simp [M.fail] at h1
    | false =>
      simp only [Bool.false_eq_true, if_false] at h1
      obtain ⟨dicts, sb, hd, h2⟩ := (bind_eq_done _ _ _ _ _).1 h1
      clear h1
      obtain ⟨u1, sc, hmeta, h3⟩ := (bind_eq_done _ _ _ _ _).1 h2
      clear h2
      obtain ⟨rfile, sd, hropen, h4⟩ := (bind_eq_done _ _ _ _ _).1 h3
      clear h3
      obtain ⟨rtw, se, hrtw, h5⟩ := (bind_eq_done _ _ _ _ _).1 h4
      clear h4
      obtain ⟨mfile, sf, hmopen, h6⟩ := (bind_eq_done _ _ _ _ _).1 h5
      clear h5
      obtain ⟨u2, sg, hhead, h7⟩ := (bind_eq_done _ _ _ _ _).1 h6
      clear h6
      obtain ⟨start, sh, htell, h8⟩ := (bind_eq_done _ _ _ _ _).1 h7
      clear h7
      obtain ⟨stw, si, hstw, h9⟩ := (bind_eq_done _ _ _ _ _).1 h8
      clear h8
      obtain ⟨himpl, hs1⟩ := (pure_eq_done _ _ _ _).1 h9
      clear h9
      obtain ⟨hmf, hsf⟩ := open_truncate_done _ _ _ _ hmopen
      subst hmf
      obtain ⟨c, hc, hsg⟩ := write_done _ _ _ _ hhead
      rw [hsf, World.set_files_same] at hc
      injection hc with hc
      subst hc
      obtain ⟨hsh, c2, hc2, hstart⟩ := tell_done _ _ _ _ htell
      subst hsh
      rw [hsg, World.set_files_same] at hc2
      injection hc2 with hc2
      subst hc2
      obtain ⟨hsi, hsink⟩ := make_signal_table_writer_done _ _ _ _ _ hstw
      subst hsi hs1
      injection himpl with himpl
      subst himpl
      simp only [List.nil_append] at hstart hsg
      refine ⟨by rw [hsg, World.set_files_same], rfl, hstart, ?_⟩
      simp [hsink, hstart]

theorem write_all_done (sub : SubFileOutputStream) :
    ∀ (writes : List (List Byte)) (s s1 : World) (c : List Byte),
      s.files sub.m_main_stream.path = some c →
      write_all sub writes s = (Outcome.done (), s1) →
      s1 = s.set sub.m_main_stream.path (some (c ++ writes.flatten)) := by
  intro writes
  induction writes with
  | nil =>
    intro s s1 c hc h
    unfold write_all at h
    obtain ⟨-, rfl⟩ := (pure_eq_done _ _ _ _).1 h
    simp only [List.flatten_nil, List.append_nil]
    exact (World.set_same _ _ _ hc).symm
  | cons data rest ih =>
    intro s s1 c hc h
    unfold write_all at h
    obtain ⟨u, s2, hw, h2⟩ := (bind_eq_done _ _ _ _ _).1 h
    obtain ⟨c', hc', hs2⟩ := write_done _ _ _ _ hw
    rw [hc] at hc'
    injection hc' with hc'
    subst hc' hs2
    rw [ih _ _ (c ++ data) (by simp) h2, World.set_set, List.flatten_cons, List.append_assoc]

/-- C10: for a combined writer made by `create_combined_file_writer`, the main file
holds exactly the header when creation returns, the recorded signal start offset is
the main-file position at that moment (the length of the header) and is the offset
given to the sub-stream of the signal table writer.  When a writer with that path
and that recorded offset is closed with success (a call that found it open), the
signal table `FileInfo` of the footer has this start offset and, as length, the size
of the main file at re-open minus the start offset; when the main file at re-open
is what the creation left plus the bytes of a sequence of writes through the
sub-stream, that length is the total number of bytes written through the
sub-stream. -/
theorem signal_table_file_info (fmt : Format) (env : Environment) (path : Path)
    (name : String) (options : FileWriterOptions) (s0 s1 : World)
    (impl : CombinedFileWriterImpl)
    (hcreate : create_combined_file_writer fmt env path name options s0
      = (Outcome.done (FileWriter.combined impl), s1))
    (w w' : CombinedFileWriterImpl) (hpath : w.m_path = impl.m_path)
    (hoffset : w.m_signal_file_start_offset = impl.m_signal_file_start_offset)
    (hopen : w.is_closed = false) (fuel : Nat) (s s' : World)
    (hclose : w.close fmt fuel s = (Outcome.done (), w', s')) :
    s1.files path = some (fmt.header (env.uuid 0)) ∧
    impl.m_signal_file_start_offset = ((fmt.header (env.uuid 0)).length : Int) ∧
    impl.m_signal_table_writer.map SignalTableWriter.sink
      = some (OutputStream.sub ⟨⟨path⟩, impl.m_signal_file_start_offset⟩) ∧
    ∃ F : Footer, s'.footers = s.footers ++ [F] ∧
      F.signal_table.file_start_offset = impl.m_signal_file_start_offset ∧
      F.signal_table.file_length
        = (((s.files path).getD []).length : Int) - impl.m_signal_file_start_offset ∧
      ∀ writes : List (List Byte),
        write_all ⟨⟨path⟩, impl.m_signal_file_start_offset⟩ writes s1 = (Outcome.done (), s) →
        F.signal_table.file_length = (writes.flatten.length : Int) := by
  obtain ⟨hfile, himplpath, hstart, hsink⟩ :=
    create_combined_done fmt env path name options s0 s1 impl hcreate
  obtain ⟨X, -, hfooters⟩ := combined_close_layout fmt fuel w w' s s' hopen hclose
  rw [hpath, himplpath, hoffset] at hfooters
  refine ⟨hfile, hstart, by rw [hsink, hstart], _, hfooters, rfl, rfl, ?_⟩
  intro writes hwrites
  have hs := write_all_done ⟨⟨path⟩, impl.m_signal_file_start_offset⟩ writes s1 s _ hfile hwrites
  simp only
  rw [hs, World.set_files_same, hstart]
  simp only [Option.getD_some, List.length_append]
  push_cast
  omega

/-- Witness for C10: `demo_combined` is created in the empty world (header of three
bytes), two bytes are written through the sub-stream, and the writer is closed: the
signal table `FileInfo` is (3, 2). -/
theorem signal_table_file_info_witness :
    ∃ F : Footer,
      (demo_combined.close demo_format 0 demo_written_world).2.2.footers = [F] ∧
      F.signal_table.file_start_offset = 3 ∧ F.signal_table.file_length = 2 := by
  obtain ⟨-, -, -, F, hF, hstart, -, hlen⟩ :=
    signal_table_file_info demo_format demo_env demo_path "demo" demo_options empty_world
      demo_created_world demo_combined rfl demo_combined
      (demo_combined.close demo_format 0 demo_written_world).2.1 rfl rfl rfl 0
      demo_written_world (demo_combined.close demo_format 0 demo_written_world).2.2 rfl
  exact ⟨F, hF, hstart, hlen [[4], [5]] rfl⟩

theorem combined_close_keeps_fields (fmt : Format) (fuel : Nat) (w : CombinedFileWriterImpl)
    (s : World) :
    (w.close fmt fuel s).2.1.m_path = w.m_path ∧
    (w.close fmt fuel s).2.1.m_reads_tmp_path = w.m_reads_tmp_path ∧
    (w.close fmt fuel s).2.1.m_signal_file_start_offset = w.m_signal_file_start_offset ∧
    (w.close fmt fuel s).2.1.m_section_marker = w.m_section_marker := by
  unfold CombinedFileWriterImpl.close
  split
  · exact ⟨rfl, rfl, rfl, rfl⟩
  · split
    · exact ⟨rfl, rfl, rfl, rfl⟩
    · split
      · exact ⟨rfl, rfl, rfl, rfl⟩
      · exact ⟨rfl, rfl, rfl, rfl⟩

theorem call_keeps_fields (fmt : Format) (c : Call) (w : CombinedFileWriterImpl) (s : World) :
    ∃ w1 : CombinedFileWriterImpl,
      (FileWriter.call fmt c (FileWriter.combined w, s)).1 = FileWriter.combined w1 ∧
      w1.m_path = w.m_path ∧ w1.m_reads_tmp_path = w.m_reads_tmp_path ∧
      w1.m_signal_file_start_offset = w.m_signal_file_start_offset ∧
      w1.m_section_marker = w.m_section_marker := by
  cases c with
  | close fuel =>
    exact ⟨(w.close fmt fuel s).2.1, rfl, combined_close_keeps_fields fmt fuel w s⟩
  | _ => exact ⟨_, rfl, rfl, rfl, rfl, rfl⟩

theorem run_keeps_fields (fmt : Format) (calls : List Call) :
    ∀ (w : CombinedFileWriterImpl) (s : World),
      ∃ w1 : CombinedFileWriterImpl,
        (FileWriter.run fmt calls (FileWriter.combined w, s)).1 = FileWriter.combined w1 ∧
        w1.m_path = w.m_path ∧ w1.m_reads_tmp_path = w.m_reads_tmp_path ∧
        w1.m_signal_file_start_offset = w.m_signal_file_start_offset ∧
        w1.m_section_marker = w.m_section_marker := by
  induction calls with
  | nil =>
    intro w s
    exact ⟨w, rfl, rfl, rfl, rfl, rfl⟩
  | cons c rest ih =>
    intro w s
    obtain ⟨w1, hw1, h1, h2, h3, h4⟩ := call_keeps_fields fmt c w s
    obtain ⟨w2, hw2, g1, g2, g3, g4⟩ := ih w1 (FileWriter.call fmt c (FileWriter.combined w, s)).2
    refine ⟨w2, ?_, g1.trans h1, g2.trans h2, g3.trans h3, g4.trans h4⟩
    rw [← hw2, ← hw1]
    rfl

/-! ## Running the stream primitives forward -/

theorem bind_of_done {α β : Type} (m : M α) (f : α → M β) (s s1 : World) (a : α)
    (h : m s = (Outcome.done a, s1)) : (m >>= f) s = f a s1 := by
  show M.bind m f s = _
  unfold M.bind
  rw [h]

theorem bind_of_failed {α β : Type} (m : M α) (f : α → M β) (s s1 : World) (e : Error)
    (h : m s = (Outcome.failed e, s1)) : (m >>= f) s = (Outcome.failed e, s1) := by
  show M.bind m f s = _
  unfold M.bind
  rw [h]

theorem only_remove_set (s : World) (p : Path) (c : Option (List Byte))
    (h : s.only_remove_may_fail) : (s.set p c).only_remove_may_fail := h

theorem reads_progress_set (s : World) (p q : Path) (c : Option (List Byte))
    (h : s.reads_progress q) : (s.set p c).reads_progress q := h

theorem open_append_ok (p : Path) (s : World) (h : s.only_remove_may_fail) :
    FileOutputStream.Open p true s
      = (Outcome.done ⟨p⟩, s.set p (some ((s.files p).getD []))) := by
  unfold FileOutputStream.Open
  rw [h _ (by intro q; simp)]
  cases hf : s.files p with
  | none => rfl
  | some c =>
    simp only [Option.getD_some]
    rw [World.set_same s p _ hf]

theorem tell_ok (file : FileOutputStream) (s : World) (c : List Byte)
    (h : s.only_remove_may_fail) (hc : s.files file.path = some c) :
    file.Tell s = (Outcome.done (c.length : Int), s) := by
  unfold FileOutputStream.Tell
  rw [hc]
  simp only
  rw [h _ (by intro q; simp)]

theorem write_ok (file : FileOutputStream) (data : List Byte) (s : World) (c : List Byte)
    (h : s.only_remove_may_fail) (hc : s.files file.path = some c) :
    file.Write data s = (Outcome.done (), s.set file.path (some (c ++ data))) := by
  unfold FileOutputStream.Write
  rw [hc]
  simp only
  rw [h _ (by intro q; simp)]

theorem padd_file_ok (file : FileOutputStream) (m : Nat) (s : World) (c : List Byte)
    (h : s.only_remove_may_fail) (hc : s.files file.path = some c) :
    padd_file file m s
      = (Outcome.done (),
          s.set file.path (some (c ++ List.replicate (bytes_to_pad m c.length) 0))) := by
  unfold padd_file
  rw [bind_of_done _ _ _ _ _ (tell_ok file s c h hc)]
  simp only [Int.toNat_ofNat]
  by_cases h0 : bytes_to_pad m c.length = 0
  · rw [if_pos h0, h0]
    simp only [List.replicate_zero, List.append_nil]
    rw [World.set_same s _ _ hc]
    rfl
  · rw [if_neg h0]
    exact write_ok file _ s c h hc

theorem readable_open_ok (p : Path) (s : World) (c : List Byte)
    (h : s.only_remove_may_fail) (hc : s.files p = some c) :
    ReadableFile.Open p s = (Outcome.done ⟨p, 0⟩, s) := by
  unfold ReadableFile.Open
  rw [hc]
  simp only
  rw [h _ (by intro q; simp)]

theorem get_size_ok (file : ReadableFile) (s : World) (c : List Byte)
    (h : s.only_remove_may_fail) (hc : s.files file.path = some c) :
    file.GetSize s = (Outcome.done (c.length : Int), s) := by
  unfold ReadableFile.GetSize
  rw [hc]
  simp only
  rw [h _ (by intro q; simp)]

theorem read_ok (file : ReadableFile) (n : Nat) (s : World) (c : List Byte)
    (h : s.only_remove_may_fail) (hc : s.files file.path = some c) :
    file.Read n s
      = (Outcome.done ((c.drop file.pos).take (min n (s.read_len file.path file.pos n)),
          ⟨file.path, file.pos +
            ((c.drop file.pos).take (min n (s.read_len file.path file.pos n))).length⟩), s) := by
  unfold ReadableFile.Read
  rw [hc]
  simp only
  rw [h _ (by intro q; simp)]

theorem take_append_drop_taken {α : Type} (k : Nat) (l : List α) :
    l.take k ++ l.drop (l.take k).length = l := by
  rw [List.length_take]
  rcases Nat.le_total k l.length with hk | hk
  · rw [Nat.min_eq_left hk]
    exact List.take_append_drop k l
  · rw [Nat.min_eq_right hk, List.take_of_length_le hk, List.drop_length, List.append_nil]

theorem copy_loop_total (file : FileOutputStream) (tmp : Path) (B : List Byte)
    (hne : file.path ≠ tmp) :
    ∀ (fuel pos : Nat) (s : World) (c : List Byte),
      s.files tmp = some B → s.files file.path = some c →
      s.only_remove_may_fail → s.reads_progress tmp →
      B.length - pos ≤ fuel →
      copy_loop file (B.length : Int) fuel ⟨tmp, pos⟩ (pos : Int) s
        = (Outcome.done (), s.set file.path (some (c ++ B.drop pos))) := by
  intro fuel
  induction fuel with
  | zero =>
    intro pos s c hB hc hf hr hfuel
    have hge : B.length ≤ pos := by omega
    unfold copy_loop
    have hnot : ¬ ((pos : Int) < (B.length : Int)) := by omega
    rw [if_neg hnot, List.drop_eq_nil_of_le hge, List.append_nil, World.set_same s _ _ hc]
    rfl
  | succ fuel ih =>
    intro pos s c hB hc hf hr hfuel
    unfold copy_loop
    by_cases hlt : pos < B.length
    · have hlt' : (pos : Int) < (B.length : Int) := by omega
      rw [if_pos hlt']
      simp only
      rw [bind_of_done _ _ _ _ _ (read_ok ⟨tmp, pos⟩ target_chunk_size s B hf hB)]
      simp only
      rw [bind_of_done _ _ _ _ _ (write_ok file _ s c hf hc)]
      have hk : 0 < min target_chunk_size (s.read_len tmp pos target_chunk_size) := by
        have h1 : 0 < target_chunk_size := by decide
        have h2 := hr pos target_chunk_size h1
        omega
      have hlen : 0 < ((B.drop pos).take
          (min target_chunk_size (s.read_len tmp pos target_chunk_size))).length := by
        rw [List.length_take, List.length_drop]
        omega
      have hle : ((B.drop pos).take
          (min target_chunk_size (s.read_len tmp pos target_chunk_size))).length
          ≤ B.length - pos := by
        rw [List.length_take, List.length_drop]
        omega
      have hcast : ((pos : Int) + ((((B.drop pos).take
          (min target_chunk_size (s.read_len tmp pos target_chunk_size))).length : Nat) : Int))
          = ((pos + ((B.drop pos).take
            (min target_chunk_size (s.read_len tmp pos target_chunk_size))).length : Nat) : Int) := by
        push_cast
        rfl
      rw [hcast]
      rw [ih _ _ (c ++ (B.drop pos).take
          (min target_chunk_size (s.read_len tmp pos target_chunk_size)))
        (by rw [World.set_files_other _ _ _ _ (Ne.symm hne)]; exact hB)
        (by simp) (only_remove_set _ _ _ hf) (reads_progress_set _ _ _ _ hr) (by omega)]
      rw [World.set_set, List.append_assoc, ← List.drop_drop,
        take_append_drop_taken _ (B.drop pos)]
    · have hnot : ¬ ((pos : Int) < (B.length : Int)) := by omega
      rw [if_neg hnot, List.drop_eq_nil_of_le (by omega), List.append_nil,
        World.set_same s _ _ hc]
      rfl

theorem spliced_head_length (w : CombinedFileWriterImpl) (main table : List Byte) :
    (spliced_head w main table).length
      = main.length + bytes_to_pad 8 main.length + 16 + table.length := by
  simp only [spliced_head, List.length_append, List.length_replicate,
    w.m_section_marker.size_eq]

theorem splice_forward (fmt : Format) (fuel : Nat) (w : CombinedFileWriterImpl) (s : World)
    (B : List Byte) (hne : w.m_path ≠ w.m_reads_tmp_path)
    (hB : s.files w.m_reads_tmp_path = some B)
    (hf : s.only_remove_may_fail) (hr : s.reads_progress w.m_reads_tmp_path)
    (hfuel : B.length ≤ fuel) :
    CombinedFileWriterImpl.splice fmt fuel w s =
      match s.fault (IoCall.remove w.m_reads_tmp_path) with
      | some e =>
        (Outcome.failed (Error.Invalid ("Failed to remove temporary file: " ++ e.message)),
          s.set w.m_path (some (spliced_head w ((s.files w.m_path).getD []) B)))
      | none =>
        (Outcome.done (),
          { ((s.set w.m_path (some (spliced_head w ((s.files w.m_path).getD []) B))).set
                w.m_reads_tmp_path none).set w.m_path
              (some (spliced_file fmt w ((s.files w.m_path).getD []) B)) with
            footers := s.footers ++ [spliced_footer w ((s.files w.m_path).getD []) B] }) := by
  generalize hM : (s.files w.m_path).getD [] = main
  have hne' : w.m_reads_tmp_path ≠ w.m_path := Ne.symm hne
  unfold CombinedFileWriterImpl.splice
  rw [bind_of_done _ _ _ _ _ (open_append_ok w.m_path s hf), hM]
  have hf1 := only_remove_set s w.m_path (some main) hf
  rw [bind_of_done _ _ _ _ _ (tell_ok ⟨w.m_path⟩ _ main hf1 (World.set_files_same _ _ _))]
  simp only
  rw [bind_of_done _ _ _ _ _ (padd_file_ok ⟨w.m_path⟩ 8 _ main hf1 (World.set_files_same _ _ _)), World.set_set]
  have hf2 := only_remove_set s w.m_path
    (some (main ++ List.replicate (bytes_to_pad 8 main.length) 0)) hf
  unfold write_section_marker
  rw [bind_of_done _ _ _ _ _ (write_ok ⟨w.m_path⟩ _ _ _ hf2 (World.set_files_same _ _ _)), World.set_set]
  have hf3 := only_remove_set s w.m_path
    (some (main ++ List.replicate (bytes_to_pad 8 main.length) 0 ++ w.m_section_marker.bytes)) hf
  rw [bind_of_done _ _ _ _ _ (tell_ok ⟨w.m_path⟩ _ _ hf3 (World.set_files_same _ _ _))]
  have htmp3 : (s.set w.m_path (some (main ++ List.replicate (bytes_to_pad 8 main.length) 0
      ++ w.m_section_marker.bytes))).files w.m_reads_tmp_path = some B := by
    rw [World.set_files_other _ _ _ _ hne']; exact hB
  rw [bind_of_done _ _ _ _ _ (readable_open_ok _ _ B hf3 htmp3)]
  rw [bind_of_done _ _ _ _ _ (get_size_ok ⟨w.m_reads_tmp_path, 0⟩ _ B hf3 htmp3)]
  have hcopy := copy_loop_total ⟨w.m_path⟩ w.m_reads_tmp_path B hne fuel 0 _
    (main ++ List.replicate (bytes_to_pad 8 main.length) 0 ++ w.m_section_marker.bytes)
    htmp3 (World.set_files_same _ _ _) hf3 (reads_progress_set _ _ _ _ hr) (by omega)
  simp only [Nat.cast_zero, List.drop_zero, World.set_set] at hcopy
  rw [bind_of_done _ _ _ _ _ hcopy]
  have hf4 := only_remove_set s w.m_path
    (some (main ++ List.replicate (bytes_to_pad 8 main.length) 0 ++ w.m_section_marker.bytes
      ++ B)) hf
  rw [bind_of_done _ _ _ _ _ (tell_ok ⟨w.m_path⟩ _ _ hf4 (World.set_files_same _ _ _))]
  cases hrm : s.fault (IoCall.remove w.m_reads_tmp_path) with
  | some e =>
    have hremove : fs_remove w.m_reads_tmp_path (s.set w.m_path
        (some (main ++ List.replicate (bytes_to_pad 8 main.length) 0
          ++ w.m_section_marker.bytes ++ B)))
        = (Outcome.done (some e), s.set w.m_path
        (some (main ++ List.replicate (bytes_to_pad 8 main.length) 0
          ++ w.m_section_marker.bytes ++ B))) := by
      unfold fs_remove
      simp [hrm]
    rw [bind_of_done _ _ _ _ _ hremove]
    rfl
  | none =>
    have hremove : fs_remove w.m_reads_tmp_path (s.set w.m_path
        (some (main ++ List.replicate (bytes_to_pad 8 main.length) 0
          ++ w.m_section_marker.bytes ++ B)))
        = (Outcome.done none, (s.set w.m_path
        (some (main ++ List.replicate (bytes_to_pad 8 main.length) 0
          ++ w.m_section_marker.bytes ++ B))).set w.m_reads_tmp_path none) := by
      unfold fs_remove
      simp [hrm]
    rw [bind_of_done _ _ _ _ _ hremove]
    simp only
    have hf5 := only_remove_set _ w.m_reads_tmp_path none hf4
    have hmain5 : ((s.set w.m_path (some (main ++ List.replicate (bytes_to_pad 8 main.length) 0
        ++ w.m_section_marker.bytes ++ B))).set w.m_reads_tmp_path none).files
          (FileOutputStream.mk w.m_path).path
        = some (spliced_head w main B) := by
      rw [World.set_files_other _ _ _ _ hne, World.set_files_same]
      rfl
    rw [bind_of_done _ _ _ _ _ (padd_file_ok ⟨w.m_path⟩ 8 _ _ hf5 hmain5)]
    have hf6 := only_remove_set _ w.m_path (some (spliced_head w main B
      ++ List.replicate (bytes_to_pad 8 (spliced_head w main B).length) 0)) hf5
    rw [bind_of_done _ _ _ _ _ (write_ok ⟨w.m_path⟩ _ _ _ hf6 (World.set_files_same _ _ _)), World.set_set]
    have hf7 := only_remove_set _ w.m_path (some (spliced_head w main B
      ++ List.replicate (bytes_to_pad 8 (spliced_head w main B).length) 0
      ++ w.m_section_marker.bytes)) hf5
    unfold write_footer
    rw [bind_of_done _ _ _ _ _ (write_ok ⟨w.m_path⟩ _ _ _ hf7 (World.set_files_same _ _ _)), World.set_set]
    unfold log_footer
    simp only [World.set_footers, List.length_append, List.length_replicate,
      w.m_section_marker.size_eq]
    have hfooter : (⟨w.m_section_marker, w.m_file_identifier, w.m_software_name,
        ⟨w.m_signal_file_start_offset, (main.length : Int) - w.m_signal_file_start_offset⟩,
        ⟨((main.length + bytes_to_pad 8 main.length + 16 : Nat) : Int),
          ((main.length + bytes_to_pad 8 main.length + 16 + B.length : Nat) : Int)
            - ((main.length + bytes_to_pad 8 main.length + 16 : Nat) : Int)⟩⟩ : Footer)
        = spliced_footer w main B := by
      unfold spliced_footer
      congr 2
      push_cast
      omega
    rw [hfooter]
    rfl

/-! ## The splice of the read table -/

theorem close_forward (fmt : Format) (fuel : Nat) (w : CombinedFileWriterImpl) (s : World)
    (rtw : ReadTableWriter) (stw : SignalTableWriter)
    (hr : w.m_read_table_writer = some rtw) (hs : w.m_signal_table_writer = some stw)
    (hrc : rtw.close_fault = none) (hsc : stw.close_fault = none) :
    w.close fmt fuel s =
      ((CombinedFileWriterImpl.splice fmt fuel w s).1,
        { w with toFileWriterImpl :=
          { w.toFileWriterImpl with m_read_table_writer := none, m_signal_table_writer := none } },
        (CombinedFileWriterImpl.splice fmt fuel w s).2) := by
  unfold CombinedFileWriterImpl.close
  simp [FileWriterImpl.is_closed, FileWriterImpl.close_read_table_writer,
    FileWriterImpl.close_signal_table_writer, ReadTableWriter.close, SignalTableWriter.close,
    hr, hs, hrc, hsc, Status.OK]

theorem no_fault_only_remove (s : World) (h : ∀ c, s.fault c = none) :
    s.only_remove_may_fail := fun c _ => h c

/-- C11: let the temporary read-table file hold `B` (any content, any length), let
no call into the operating system fail and let every `Read` deliver at least one
byte (and, by the embedding of `Read`, never more than the 10 MiB asked for nor
more than what is left).  Then the close of an open combined writer, given a budget
of `|B|` loop iterations, comes to an end with success; the final main file is the
main file as re-opened, the first padding, the section marker, then exactly `B`,
then the second padding, the section marker and the footer; the read table length
in the footer is `|B|`; the temporary file is gone. -/
theorem close_copies_read_table (fmt : Format) (fuel : Nat) (w : CombinedFileWriterImpl)
    (s : World) (rtw : ReadTableWriter) (stw : SignalTableWriter) (B : List Byte)
    (hr : w.m_read_table_writer = some rtw) (hs : w.m_signal_table_writer = some stw)
    (hrc : rtw.close_fault = none) (hsc : stw.close_fault = none)
    (hne : w.m_path ≠ w.m_reads_tmp_path)
    (hB : s.files w.m_reads_tmp_path = some B)
    (hfault : ∀ c, s.fault c = none) (hreads : s.reads_progress w.m_reads_tmp_path)
    (hfuel : B.length ≤ fuel) :
    (w.close fmt fuel s).1 = Outcome.done () ∧
    (w.close fmt fuel s).2.2.files w.m_path = some
      ((s.files w.m_path).getD []
        ++ List.replicate (bytes_to_pad 8 ((s.files w.m_path).getD []).length) 0
        ++ w.m_section_marker.bytes
        ++ B
        ++ List.replicate (bytes_to_pad 8 (((s.files w.m_path).getD []).length
            + bytes_to_pad 8 ((s.files w.m_path).getD []).length + 16 + B.length)) 0
        ++ w.m_section_marker.bytes
        ++ fmt.footer (spliced_footer w ((s.files w.m_path).getD []) B)) ∧
    (w.close fmt fuel s).2.2.footers
      = s.footers ++ [spliced_footer w ((s.files w.m_path).getD []) B] ∧
    (spliced_footer w ((s.files w.m_path).getD []) B).read_table.file_length
      = (B.length : Int) ∧
    (w.close fmt fuel s).2.2.files w.m_reads_tmp_path = none := by
  rw [close_forward fmt fuel w s rtw stw hr hs hrc hsc,
    splice_forward fmt fuel w s B hne hB (no_fault_only_remove s hfault) hreads hfuel,
    hfault]
  refine ⟨rfl, ?_, rfl, rfl, ?_⟩
  · simp only [World.set_files_same]
    rw [spliced_file, spliced_head_length]
    rfl
  · show (World.set _ _ _).files _ = none
    rw [World.set_files_other _ _ _ _ (Ne.symm hne), World.set_files_same]

/-- Witness for C11: `demo_combined` closed in a world whose temporary file holds
two bytes and whose operating system delivers one byte per `Read`. -/
theorem close_copies_read_table_witness :
    (demo_combined.close demo_format 2 trickle_world).1 = Outcome.done () ∧
    (demo_combined.close demo_format 2 trickle_world).2.2.files demo_path
      = some ([1, 2, 3, 4, 5] ++ [0, 0, 0] ++ demo_marker.bytes ++ [8, 8]
          ++ [0, 0, 0, 0, 0, 0] ++ demo_marker.bytes ++ [6, 6]) ∧
    (demo_combined.close demo_format 2 trickle_world).2.2.footers.map
        (fun f => f.read_table.file_length) = [2] := by
  have h := close_copies_read_table demo_format 2 demo_combined trickle_world
    ⟨OutputStream.file ⟨reads_tmp_path_of demo_path⟩, [], false, 0, fun _ => none, none⟩
    ⟨OutputStream.sub ⟨⟨demo_path⟩, 3⟩, [], false, 0, fun _ => none, none⟩ [8, 8]
    rfl rfl rfl rfl (by decide) rfl (fun _ => rfl) (fun _ _ _ => Nat.one_pos) (by decide)
  exact ⟨h.1, h.2.1.trans (by decide), by rw [h.2.2.1]; decide⟩

/-- C12: after a successful close of a combined file (a call that found the writer
open), whatever the length of the main file at re-open, the final file is the
re-opened main file, padding, the 16-byte section marker, the read table, padding,
the section marker and the footer, and the first marker, the read table (at
`read_table.start_offset`), the second marker and the footer each start at a
multiple of 8. -/
theorem section_starts_are_aligned (fmt : Format) (fuel : Nat)
    (w w' : CombinedFileWriterImpl) (s s' : World) (hopen : w.is_closed = false)
    (h : w.close fmt fuel s = (Outcome.done (), w', s')) :
    ∃ (X P1 P2 : List Byte) (F : Footer),
      s'.footers = s.footers ++ [F] ∧
      s'.files w.m_path = some ((s.files w.m_path).getD [] ++ P1 ++ w.m_section_marker.bytes
        ++ X ++ P2 ++ w.m_section_marker.bytes ++ fmt.footer F) ∧
      (∀ b ∈ P1, b = 0) ∧ (∀ b ∈ P2, b = 0) ∧
      w.m_section_marker.bytes.length = 16 ∧
      ((s.files w.m_path).getD [] ++ P1).length % 8 = 0 ∧
      ((s.files w.m_path).getD [] ++ P1 ++ w.m_section_marker.bytes).length % 8 = 0 ∧
      F.read_table.file_start_offset
        = (((s.files w.m_path).getD [] ++ P1 ++ w.m_section_marker.bytes).length : Int) ∧
      ((s.files w.m_path).getD [] ++ P1 ++ w.m_section_marker.bytes ++ X ++ P2).length % 8
        = 0 ∧
      ((s.files w.m_path).getD [] ++ P1 ++ w.m_section_marker.bytes ++ X ++ P2
        ++ w.m_section_marker.bytes).length % 8 = 0 := by
  obtain ⟨X, hfiles, hfooters⟩ := combined_close_layout fmt fuel w w' s s' hopen h
  refine ⟨X, _, _, _, hfooters, hfiles, ?_, ?_, w.m_section_marker.size_eq, ?_, ?_, ?_, ?_, ?_⟩
  · intro b hb
    exact (List.mem_replicate.1 hb).2
  · intro b hb
    exact (List.mem_replicate.1 hb).2
  · simp only [List.length_append, List.length_replicate, bytes_to_pad]
    omega
  · simp only [List.length_append, List.length_replicate, bytes_to_pad,
      w.m_section_marker.size_eq]
    omega
  · simp only [List.length_append, List.length_replicate, w.m_section_marker.size_eq]
  · simp only [List.length_append, List.length_replicate, bytes_to_pad,
      w.m_section_marker.size_eq]
    omega
  · simp only [List.length_append, List.length_replicate, bytes_to_pad,
      w.m_section_marker.size_eq]
    omega

/-- Witness for C12: `demo_combined` closed in `demo_world`. -/
theorem section_starts_are_aligned_witness :
    ∃ (X P1 P2 : List Byte) (F : Footer),
      (demo_combined.close demo_format 1 demo_world).2.2.footers = demo_world.footers ++ [F] ∧
      (demo_combined.close demo_format 1 demo_world).2.2.files demo_combined.m_path
        = some ((demo_world.files demo_combined.m_path).getD [] ++ P1
          ++ demo_combined.m_section_marker.bytes ++ X ++ P2
          ++ demo_combined.m_section_marker.bytes ++ demo_format.footer F) ∧
      (∀ b ∈ P1, b = 0) ∧ (∀ b ∈ P2, b = 0) ∧
      demo_combined.m_section_marker.bytes.length = 16 ∧
      ((demo_world.files demo_combined.m_path).getD [] ++ P1).length % 8 = 0 ∧
      ((demo_world.files demo_combined.m_path).getD [] ++ P1
        ++ demo_combined.m_section_marker.bytes).length % 8 = 0 ∧
      F.read_table.file_start_offset
        = (((demo_world.files demo_combined.m_path).getD [] ++ P1
          ++ demo_combined.m_section_marker.bytes).length : Int) ∧
      ((demo_world.files demo_combined.m_path).getD [] ++ P1
        ++ demo_combined.m_section_marker.bytes ++ X ++ P2).length % 8 = 0 ∧
      ((demo_world.files demo_combined.m_path).getD [] ++ P1
        ++ demo_combined.m_section_marker.bytes ++ X ++ P2
        ++ demo_combined.m_section_marker.bytes).length % 8 = 0 :=
  section_starts_are_aligned demo_format 1 demo_combined
    (demo_combined.close demo_format 1 demo_world).2.1 demo_world
    (demo_combined.close demo_format 1 demo_world).2.2 rfl rfl

/-- C13: let every call into the operating system go through except the removal of
the temporary read-table file, which fails with `e`.  Then the close of an open
combined writer returns the invalid-operation status "Failed to remove temporary
file: ..." carrying the message of `e`; the main file ends with the spliced
read-table bytes (no second padding, no second section marker, no footer), no footer
was written and the temporary file is still there. -/
theorem close_stops_when_remove_fails (fmt : Format) (fuel : Nat)
    (w : CombinedFileWriterImpl) (s : World) (rtw : ReadTableWriter)
    (stw : SignalTableWriter) (B : List Byte) (e : Error)
    (hr : w.m_read_table_writer = some rtw) (hs : w.m_signal_table_writer = some stw)
    (hrc : rtw.close_fault = none) (hsc : stw.close_fault = none)
    (hne : w.m_path ≠ w.m_reads_tmp_path)
    (hB : s.files w.m_reads_tmp_path = some B)
    (hfault : s.only_remove_may_fail) (hreads : s.reads_progress w.m_reads_tmp_path)
    (hfuel : B.length ≤ fuel)
    (hremove : s.fault (IoCall.remove w.m_reads_tmp_path) = some e) :
    (w.close fmt fuel s).1
      = Outcome.failed (Error.Invalid ("Failed to remove temporary file: " ++ e.message)) ∧
    (w.close fmt fuel s).2.2.files w.m_path = some
      ((s.files w.m_path).getD []
        ++ List.replicate (bytes_to_pad 8 ((s.files w.m_path).getD []).length) 0
        ++ w.m_section_marker.bytes
        ++ B) ∧
    (w.close fmt fuel s).2.2.footers = s.footers ∧
    (w.close fmt fuel s).2.2.files w.m_reads_tmp_path = some B := by
  rw [close_forward fmt fuel w s rtw stw hr hs hrc hsc,
    splice_forward fmt fuel w s B hne hB hfault hreads hfuel, hremove]
  refine ⟨rfl, ?_, rfl, ?_⟩
  · simp only [World.set_files_same]
    rfl
  · simp only
    rw [World.set_files_other _ _ _ _ (Ne.symm hne)]
    exact hB

/-- Witness for C13: `demo_combined` closed in a world that refuses removals. -/
theorem close_stops_when_remove_fails_witness :
    (demo_combined.close demo_format 2 remove_fails_world).1
      = Outcome.failed (Error.Invalid "Failed to remove temporary file: busy") ∧
    (demo_combined.close demo_format 2 remove_fails_world).2.2.files demo_path
      = some ([1, 2, 3, 4, 5] ++ [0, 0, 0] ++ demo_marker.bytes ++ [8, 8]) ∧
    (demo_combined.close demo_format 2 remove_fails_world).2.2.footers = [] := by
  have h := close_stops_when_remove_fails demo_format 2 demo_combined remove_fails_world
    ⟨OutputStream.file ⟨reads_tmp_path_of demo_path⟩, [], false, 0, fun _ => none, none⟩
    ⟨OutputStream.sub ⟨⟨demo_path⟩, 3⟩, [], false, 0, fun _ => none, none⟩ [8, 8]
    (Error.IoError "busy") rfl rfl rfl rfl (by decide) rfl
    (by
      intro c hc
      cases c with
      | remove p => exact absurd rfl (hc p)
      | _ => rfl)
    (fun _ n hn => hn) (by decide) rfl
  exact ⟨h.1.trans rfl, h.2.1.trans (by decide), h.2.2.1⟩

/-! ## Creating a writer on an existing path -/

theorem fs_exists_apply (path : Path) (s : World) :
    fs_exists path s = (Outcome.done (s.files path).isSome, s) := rfl

/-- C14: when the reads path or the signal path exists, `create_split_file_writer`
returns an invalid-operation status and the world it hands back is the world it was
given; when the target path exists, so does `create_combined_file_writer`.  No file
is truncated, changed or created (neither the other split file nor the temporary
reads file).  With a memory pool, the message names the path found: the reads path
first, the signal path when only it exists. -/
theorem create_rejects_existing_path (fmt : Format) (env : Environment)
    (signal_path reads_path path : Path) (name : String) (options : FileWriterOptions)
    (s : World) :
    ((s.files reads_path).isSome = true →
      ∃ msg, create_split_file_writer env signal_path reads_path name options s
          = (Outcome.failed (Error.Invalid msg), s) ∧
        (options.m_memory_pool.isSome = true → msg = already_exists_msg reads_path)) ∧
    ((s.files signal_path).isSome = true →
      ∃ msg, create_split_file_writer env signal_path reads_path name options s
          = (Outcome.failed (Error.Invalid msg), s) ∧
        (options.m_memory_pool.isSome = true → (s.files reads_path).isSome = false →
          msg = already_exists_msg signal_path)) ∧
    ((s.files path).isSome = true →
      ∃ msg, create_combined_file_writer fmt env path name options s
          = (Outcome.failed (Error.Invalid msg), s) ∧
        (options.m_memory_pool.isSome = true → msg = already_exists_msg path)) := by
  refine ⟨?_, ?_, ?_⟩
  · intro hex
    unfold create_split_file_writer
    cases hp : options.m_memory_pool with
    | none => exact ⟨_, rfl, by simp⟩
    | some pool =>
      simp only
      rw [bind_of_done _ _ _ _ _ (fs_exists_apply reads_path s), hex]
      exact ⟨_, rfl, fun _ => rfl⟩
  · intro hex
    unfold create_split_file_writer
    cases hp : options.m_memory_pool with
    | none => exact ⟨_, rfl, by simp⟩
    | some pool =>
      simp only
      rw [bind_of_done _ _ _ _ _ (fs_exists_apply reads_path s)]
      cases hre : (s.files reads_path).isSome with
      | true => exact ⟨_, rfl, by simp⟩
      | false =>
        simp only [Bool.false_eq_true, if_false]
        rw [bind_of_done _ _ _ _ _ (fs_exists_apply signal_path s), hex]
        exact ⟨_, rfl, fun _ _ => rfl⟩
  · intro hex
    unfold create_combined_file_writer
    cases hp : options.m_memory_pool with
    | none => exact ⟨_, rfl, by simp⟩
    | some pool =>
      simp only
      rw [bind_of_done _ _ _ _ _ (fs_exists_apply path s), hex]
      exact ⟨_, rfl, fun _ => rfl⟩

/-- Witness for C14: creating a combined writer on `demo_path`, which exists, fails;
the file keeps its three bytes and no temporary file appears. -/
theorem create_rejects_existing_path_witness :
    (create_combined_file_writer demo_format demo_env demo_path "demo" demo_options
        occupied_world).1 = Outcome.failed (Error.Invalid (already_exists_msg demo_path)) ∧
    (create_combined_file_writer demo_format demo_env demo_path "demo" demo_options
        occupied_world).2.files demo_path = some [1, 2, 3] ∧
    (create_combined_file_writer demo_format demo_env demo_path "demo" demo_options
        occupied_world).2.files (reads_tmp_path_of demo_path) = none := by
  obtain ⟨msg, hres, hmsg⟩ := (create_rejects_existing_path demo_format demo_env
    demo_signal_path demo_reads_path demo_path "demo" demo_options occupied_world).2.2 rfl
  rw [hres, hmsg rfl]
  exact ⟨rfl, rfl, rfl⟩

/-! ## The sub-stream -/

/-- C15: let a `SubFileOutputStream` be made over a main stream with the position
`offset` the main stream reports at that moment.  Then `Tell()` of the sub-stream
returns 0; after writes through the sub-stream the main file is its former content
followed by the bytes written, in order, and no other file has changed, and whenever
the main stream's `Tell()` then succeeds the sub-stream's `Tell()` returns the
number of bytes written.  In every world the sub-stream's `Tell()` is the main
stream's `Tell()` minus the offset, and a failure of the main stream's `Tell()` is
returned as it is. -/
theorem sub_stream_tell (main : FileOutputStream) (offset : Int) (s s2 : World)
    (c : List Byte) (writes : List (List Byte))
    (hc : s.files main.path = some c)
    (htell : main.Tell s = (Outcome.done offset, s))
    (hwrites : write_all ⟨main, offset⟩ writes s = (Outcome.done (), s2)) :
    (SubFileOutputStream.mk main offset).Tell s = (Outcome.done 0, s) ∧
    s2.files main.path = some (c ++ writes.flatten) ∧
    (∀ q, q ≠ main.path → s2.files q = s.files q) ∧
    (∀ t s3, main.Tell s2 = (Outcome.done t, s3) →
      (SubFileOutputStream.mk main offset).Tell s2
        = (Outcome.done (writes.flatten.length : Int), s3)) ∧
    (∀ (s0 s1 : World) (t : Int), main.Tell s0 = (Outcome.done t, s1) →
      (SubFileOutputStream.mk main offset).Tell s0 = (Outcome.done (t - offset), s1)) ∧
    (∀ (s0 s1 : World) (e : Error), main.Tell s0 = (Outcome.failed e, s1) →
      (SubFileOutputStream.mk main offset).Tell s0 = (Outcome.failed e, s1)) := by
  have hgen : ∀ (s0 s1 : World) (t : Int), main.Tell s0 = (Outcome.done t, s1) →
      (SubFileOutputStream.mk main offset).Tell s0 = (Outcome.done (t - offset), s1) := by
    intro s0 s1 t h
    unfold SubFileOutputStream.Tell
    rw [bind_of_done _ _ _ _ _ h]
    rfl
  have hoff : offset = (c.length : Int) := by
    obtain ⟨-, c', hc', ht⟩ := tell_done _ _ _ _ htell
    rw [hc] at hc'
    injection hc' with hc'
    rw [ht, hc']
  have hs2 := write_all_done ⟨main, offset⟩ writes s s2 c hc hwrites
  refine ⟨?_, ?_, ?_, ?_, hgen, ?_⟩
  · have h := hgen s s offset htell
    rw [h]
    simp
  · rw [hs2]
    exact World.set_files_same _ _ _
  · intro q hq
    rw [hs2]
    exact World.set_files_other _ _ _ _ hq
  · intro t s3 ht
    rw [hgen s2 s3 t ht]
    obtain ⟨-, c', hc', ht'⟩ := tell_done _ _ _ _ ht
    rw [hs2] at hc'
    simp only [World.set_files_same] at hc'
    injection hc' with hc'
    rw [ht', ← hc', hoff]
    simp only [List.length_append]
    push_cast
    congr 2
    omega
  · intro s0 s1 e h
    unfold SubFileOutputStream.Tell
    rw [bind_of_failed _ _ _ _ _ h]

/-- Witness for C15: the sub-stream at offset 3 of the main file of
`demo_created_world`, through which the buffers `[4]` and `[5]` are written. -/
theorem sub_stream_tell_witness :
    (SubFileOutputStream.mk ⟨demo_path⟩ 3).Tell demo_created_world
      = (Outcome.done 0, demo_created_world) ∧
    demo_written_world.files demo_path = some ([1, 2, 3] ++ [[4], [5]].flatten) ∧
    (SubFileOutputStream.mk ⟨demo_path⟩ 3).Tell demo_written_world
      = (Outcome.done (([[4], [5]] : List (List Byte)).flatten.length : Int),
          demo_written_world) := by
  have h := sub_stream_tell ⟨demo_path⟩ 3 demo_created_world demo_written_world [1, 2, 3]
    [[4], [5]] rfl rfl rfl
  exact ⟨h.1, h.2.1, h.2.2.2.1 5 demo_written_world rfl⟩

/-! ## The chunking loop, iteration by iteration -/

theorem chunk_loop_bounds_fst (C : Nat) (read_id : Uuid) (signal : List Int) :
    ∀ (fuel start : Nat) (stw : SignalTableWriter) (builder : List Nat)
      (trace : List (Nat × Nat)),
      (FileWriterImpl.chunk_loop_bounds C read_id signal fuel start stw builder trace).1
        = FileWriterImpl.chunk_loop C read_id signal fuel start stw builder := by
  intro fuel
  induction fuel with
  | zero =>
    intro start stw builder trace
    unfold FileWriterImpl.chunk_loop_bounds FileWriterImpl.chunk_loop
    split <;> rfl
  | succ fuel ih =>
    intro start stw builder trace
    unfold FileWriterImpl.chunk_loop_bounds FileWriterImpl.chunk_loop
    split
    · simp only
      split
      · rfl
      · exact ih _ _ _ _
    · rfl

theorem chunk_loop_bounds_done (C : Nat) (read_id : Uuid) (signal : List Int)
    (fuel start : Nat) (stw : SignalTableWriter) (builder : List Nat)
    (trace : List (Nat × Nat)) (h : ¬ start < signal.length) :
    FileWriterImpl.chunk_loop_bounds C read_id signal fuel start stw builder trace
      = ((some (Except.ok builder), stw), trace) := by
  unfold FileWriterImpl.chunk_loop_bounds
  rw [if_neg h]

theorem chunk_loop_bounds_out_of_fuel (C : Nat) (read_id : Uuid) (signal : List Int)
    (start : Nat) (stw : SignalTableWriter) (builder : List Nat)
    (trace : List (Nat × Nat)) (h : start < signal.length) :
    FileWriterImpl.chunk_loop_bounds C read_id signal 0 start stw builder trace
      = ((none, stw), trace) := by
  unfold FileWriterImpl.chunk_loop_bounds
  rw [if_pos h]

theorem append_refused (stw : SignalTableWriter) (row : SignalRow) (e : Error)
    (hopen : stw.closed = false) (hfault : stw.append_fault stw.rows.length = some e) :
    stw.append row = (Except.error e, stw) := by
  unfold SignalTableWriter.append
  simp [hopen, hfault]

theorem append_accepted (stw : SignalTableWriter) (row : SignalRow)
    (hopen : stw.closed = false) (hfault : stw.append_fault stw.rows.length = none) :
    stw.append row = (Except.ok stw.rows.length, { stw with rows := stw.rows ++ [row] }) := by
  unfold SignalTableWriter.append
  simp [hopen, hfault]

theorem chunk_loop_bounds_refused (C : Nat) (read_id : Uuid) (signal : List Int)
    (fuel start : Nat) (stw : SignalTableWriter) (builder : List Nat)
    (trace : List (Nat × Nat)) (e : Error) (h : start < signal.length)
    (hopen : stw.closed = false) (hfault : stw.append_fault stw.rows.length = some e) :
    FileWriterImpl.chunk_loop_bounds C read_id signal (fuel + 1) start stw builder trace
      = ((some (Except.error e), stw), trace ++ [(start, min (signal.length - start) C)]) := by
  unfold FileWriterImpl.chunk_loop_bounds
  rw [if_pos h]
  simp only [SignalTableWriter.add_signal, append_refused stw _ e hopen hfault]

theorem chunk_loop_bounds_step (C : Nat) (read_id : Uuid) (signal : List Int)
    (fuel start : Nat) (stw : SignalTableWriter) (builder : List Nat)
    (trace : List (Nat × Nat)) (h : start < signal.length)
    (hopen : stw.closed = false) (hfault : stw.append_fault stw.rows.length = none) :
    FileWriterImpl.chunk_loop_bounds C read_id signal (fuel + 1) start stw builder trace
      = FileWriterImpl.chunk_loop_bounds C read_id signal fuel ((start + C) % SIZE_T_MOD)
          { stw with rows := stw.rows ++ [⟨read_id, SignalPayload.raw
            ((signal.drop start).take (min (signal.length - start) C))⟩] }
          (builder ++ [stw.rows.length])
          (trace ++ [(start, min (signal.length - start) C)]) := by
  conv_lhs => unfold FileWriterImpl.chunk_loop_bounds
  rw [if_pos h]
  simp only [SignalTableWriter.add_signal, append_accepted stw _ hopen hfault]

theorem chunk_loop_bounds_peel (C : Nat) (read_id : Uuid) (signal : List Int)
    (hC32 : C < UINT32_MOD) (hL : signal.length < 2 ^ 63) :
    ∀ (k fuel i : Nat) (stw : SignalTableWriter) (builder : List Nat)
      (trace : List (Nat × Nat)),
      k ≤ fuel → (∀ j, j < k → (i + j) * C < signal.length) →
      stw.closed = false → (∀ j, j < k → stw.append_fault (stw.rows.length + j) = none) →
      FileWriterImpl.chunk_loop_bounds C read_id signal fuel (i * C) stw builder trace
        = FileWriterImpl.chunk_loop_bounds C read_id signal (fuel - k) ((i + k) * C)
            { stw with rows := (stw.rows ++ List.map
                (fun j => raw_row read_id (chunk_at C signal j)) (List.range' i k)) }
            (builder ++ List.range' stw.rows.length k)
            (trace ++ List.map (fun j => (j * C, min (signal.length - j * C) C))
              (List.range' i k)) := by
  intro k
  induction k with
  | zero =>
    intro fuel i stw builder trace _ _ _ _
    simp
  | succ k ih =>
    intro fuel i stw builder trace hfuel hlt hopen hfault
    obtain ⟨f, rfl⟩ : ∃ f, fuel = f + 1 := ⟨fuel - 1, by omega⟩
    have hlt0 : i * C < signal.length := by simpa using hlt 0 (by omega)
    have hstart : (i * C + C) % SIZE_T_MOD = (i + 1) * C := by
      have h64 : i * C + C < SIZE_T_MOD := by
        unfold SIZE_T_MOD; unfold UINT32_MOD at hC32; omega
      rw [Nat.mod_eq_of_lt h64, Nat.add_mul, Nat.one_mul]
    have hchunk : List.take (min (signal.length - i * C) C) (List.drop (i * C) signal)
        = chunk_at C signal i := by
      unfold chunk_at
      rw [← take_min_length C (List.drop (i * C) signal), List.length_drop]
    rw [chunk_loop_bounds_step C read_id signal f (i * C) stw builder trace hlt0 hopen
      (by simpa using hfault 0 (by omega)), hchunk, hstart]
    rw [ih f (i + 1)
      { stw with rows := stw.rows ++ [⟨read_id, SignalPayload.raw (chunk_at C signal i)⟩] }
      (builder ++ [stw.rows.length])
      (trace ++ [(i * C, min (signal.length - i * C) C)]) (by omega)
      (by
        intro j hj
        have hj1 := hlt (j + 1) (by omega)
        have h3 : i + 1 + j = i + (j + 1) := by omega
        rw [h3]
        exact hj1)
      hopen
      (by
        intro j hj
        have hj1 := hfault (j + 1) (by omega)
        have h3 : (stw.rows ++ [(⟨read_id, SignalPayload.raw (chunk_at C signal i)⟩ : SignalRow)]).length
            + j = stw.rows.length + (j + 1) := by
          simp only [List.length_append, List.length_singleton]
          omega
        show stw.append_fault _ = none
        rw [h3]
        exact hj1)]
    have h1 : f + 1 - (k + 1) = f - k := by omega
    have h2 : i + 1 + k = i + (k + 1) := by omega
    rw [h1, h2, List.range'_succ i k, List.range'_succ stw.rows.length k]
    simp [raw_row, List.append_assoc]

theorem chunk_loop_bounds_accepting (C : Nat) (read_id : Uuid) (signal : List Int)
    (hC : 0 < C) (hC32 : C < UINT32_MOD) (hL : signal.length < 2 ^ 63)
    (fuel : Nat) (stw : SignalTableWriter) (hacc : stw.accepts_all)
    (hfuel : num_chunks C signal.length ≤ fuel) :
    (FileWriterImpl.chunk_loop_bounds C read_id signal fuel 0 stw [] []).2
      = chunk_bounds C signal.length := by
  have hpeel := chunk_loop_bounds_peel C read_id signal hC32 hL (num_chunks C signal.length)
    fuel 0 stw [] [] hfuel
    (by intro j hj; rw [Nat.zero_add]; exact (lt_num_chunks_iff hC _ _).1 hj)
    hacc.1 (fun j _ => hacc.2 _)
  rw [Nat.zero_mul] at hpeel
  rw [hpeel, chunk_loop_bounds_done]
  · simp [chunk_bounds]
  · rw [Nat.zero_add, ← lt_num_chunks_iff hC]
    omega

theorem chunk_loop_short_of_fuel (C : Nat) (read_id : Uuid) (signal : List Int)
    (hC32 : C < UINT32_MOD) (hL : signal.length < 2 ^ 63)
    (fuel : Nat) (stw : SignalTableWriter) (hacc : stw.accepts_all)
    (hmore : ∀ j, j ≤ fuel → j * C < signal.length) :
    FileWriterImpl.chunk_loop C read_id signal fuel 0 stw []
      = (none, { stw with rows := (stw.rows ++ List.map
          (fun j => raw_row read_id (chunk_at C signal j)) (List.range' 0 fuel)) }) := by
  have hpeel := chunk_loop_bounds_peel C read_id signal hC32 hL fuel fuel 0 stw [] []
    (Nat.le_refl _) (by intro j hj; rw [Nat.zero_add]; exact hmore j (by omega))
    hacc.1 (fun j _ => hacc.2 _)
  rw [Nat.zero_mul] at hpeel
  rw [← chunk_loop_bounds_fst C read_id signal fuel 0 stw [] [], hpeel, Nat.sub_self,
    chunk_loop_bounds_out_of_fuel]
  rw [Nat.zero_add]
  exact hmore fuel (Nat.le_refl _)

theorem chunk_loop_refused_at (C : Nat) (read_id : Uuid) (signal : List Int)
    (hC32 : C < UINT32_MOD) (hL : signal.length < 2 ^ 63)
    (fuel k : Nat) (stw : SignalTableWriter) (e : Error)
    (hopen : stw.closed = false)
    (hbefore : ∀ j, j < k → stw.append_fault (stw.rows.length + j) = none)
    (hat : stw.append_fault (stw.rows.length + k) = some e)
    (hk : k * C < signal.length) (hfuel : k < fuel) :
    FileWriterImpl.chunk_loop C read_id signal fuel 0 stw []
      = (some (Except.error e), { stw with rows := (stw.rows ++ List.map
          (fun j => raw_row read_id (chunk_at C signal j)) (List.range' 0 k)) }) := by
  have hjk : ∀ j, j < k → (0 + j) * C < signal.length := by
    intro j hj
    rw [Nat.zero_add]
    exact Nat.lt_of_le_of_lt (Nat.mul_le_mul_right C (Nat.le_of_lt hj)) hk
  have hpeel := chunk_loop_bounds_peel C read_id signal hC32 hL k fuel 0 stw [] []
    (Nat.le_of_lt hfuel) hjk hopen hbefore
  rw [Nat.zero_mul] at hpeel
  obtain ⟨f, hf⟩ : ∃ f, fuel - k = f + 1 := ⟨fuel - k - 1, by omega⟩
  have hstop := chunk_loop_bounds_refused C read_id signal f ((0 + k) * C)
    { stw with rows := (stw.rows ++ List.map
        (fun j => raw_row read_id (chunk_at C signal j)) (List.range' 0 k)) }
    ([] ++ List.range' stw.rows.length k)
    ([] ++ List.map (fun j => (j * C, min (signal.length - j * C) C)) (List.range' 0 k)) e
    (by rw [Nat.zero_add]; exact hk) hopen (by simpa using hat)
  rw [← chunk_loop_bounds_fst C read_id signal fuel 0 stw [] [], hpeel, hf, hstop]

theorem chunk_loop_terminates (C : Nat) (read_id : Uuid) (signal : List Int)
    (hC : 0 < C) (hC32 : C < UINT32_MOD) (hL : signal.length < 2 ^ 63) :
    ∀ (fuel i : Nat) (stw : SignalTableWriter) (builder : List Nat),
      num_chunks C signal.length - i ≤ fuel →
      (FileWriterImpl.chunk_loop C read_id signal fuel (i * C) stw builder).1 ≠ none := by
  intro fuel
  induction fuel with
  | zero =>
    intro i stw builder hfuel
    have hnot : ¬ i * C < signal.length := by
      rw [← lt_num_chunks_iff hC]; omega
    unfold FileWriterImpl.chunk_loop
    rw [if_neg hnot]
    simp
  | succ fuel ih =>
    intro i stw builder hfuel
    by_cases hlt : i * C < signal.length
    · have hstart : (i * C + C) % SIZE_T_MOD = (i + 1) * C := by
        have h64 : i * C + C < SIZE_T_MOD := by
          unfold SIZE_T_MOD; unfold UINT32_MOD at hC32; omega
        rw [Nat.mod_eq_of_lt h64, Nat.add_mul, Nat.one_mul]
      unfold FileWriterImpl.chunk_loop
      rw [if_pos hlt]
      simp only [SignalTableWriter.add_signal, hstart]
      rcases append_cases stw ⟨read_id, SignalPayload.raw
          (List.take (min (signal.length - i * C) C) (List.drop (i * C) signal))⟩
        with ha | ⟨e, ha⟩
      · rw [ha]
        exact ih (i + 1) _ _ (by omega)
      · rw [ha]
        simp
    · unfold FileWriterImpl.chunk_loop
      rw [if_neg hlt]
      simp

theorem add_complete_read_of_loop_none (w : FileWriterImpl) (stw stw1 : SignalTableWriter)
    (rtw : ReadTableWriter) (read_data : ReadData) (signal : List Int) (fuel : Nat)
    (hs : w.m_signal_table_writer = some stw) (hr : w.m_read_table_writer = some rtw)
    (hloop : FileWriterImpl.chunk_loop w.m_signal_chunk_size read_data.read_id signal fuel 0
      stw [] = (none, stw1)) :
    w.add_complete_read fuel read_data signal
      = (none, { w with m_signal_table_writer := some stw1 }) := by
  unfold FileWriterImpl.add_complete_read
  rw [hs, hr]
  simp only [hloop]

theorem add_complete_read_of_loop_error (w : FileWriterImpl) (stw stw1 : SignalTableWriter)
    (rtw : ReadTableWriter) (read_data : ReadData) (signal : List Int) (fuel : Nat) (e : Error)
    (hs : w.m_signal_table_writer = some stw) (hr : w.m_read_table_writer = some rtw)
    (hloop : FileWriterImpl.chunk_loop w.m_signal_chunk_size read_data.read_id signal fuel 0
      stw [] = (some (Except.error e), stw1)) :
    w.add_complete_read fuel read_data signal
      = (some (Except.error e), { w with m_signal_table_writer := some stw1 }) := by
  unfold FileWriterImpl.add_complete_read
  rw [hs, hr]
  simp only [hloop]

theorem add_complete_read_status_of_loop (w : FileWriterImpl) (stw : SignalTableWriter)
    (rtw : ReadTableWriter) (read_data : ReadData) (signal : List Int) (fuel : Nat)
    (hs : w.m_signal_table_writer = some stw) (hr : w.m_read_table_writer = some rtw)
    (hloop : (FileWriterImpl.chunk_loop w.m_signal_chunk_size read_data.read_id signal fuel 0
      stw []).1 ≠ none) :
    (w.add_complete_read fuel read_data signal).1 ≠ none := by
  unfold FileWriterImpl.add_complete_read
  rw [hs, hr]
  simp only
  split
  · next stw1 hl =>
    rw [hl] at hloop
    exact absurd rfl hloop
  · simp
  · simp

/-! ## Chunk boundaries -/

/-- C16: take two calls of `add_complete_read` (raw-samples form) on open writers
with the same chunk size `C > 0` and accepting signal table writers, with signals
of the same length `L`, whatever the samples, the read metadata and the rows
already in the tables.  The pairs `(chunk_start, chunk_size)` of the chunks passed
to `add_signal` are, for both calls, the list `(i * C, min (L - i * C) C)` for
`i < ceil(L / C)`, which is a function of `C` and `L` alone.  (The first projection
of the loop that records the pairs is the loop of `add_complete_read` itself.) -/
theorem chunk_trace_depends_on_size_and_length_only (w1 w2 : FileWriterImpl)
    (stw1 stw2 : SignalTableWriter) (rtw1 rtw2 : ReadTableWriter)
    (rd1 rd2 : ReadData) (sig1 sig2 : List Int) (fuel1 fuel2 : Nat)
    (hs1 : w1.m_signal_table_writer = some stw1) (hr1 : w1.m_read_table_writer = some rtw1)
    (hs2 : w2.m_signal_table_writer = some stw2) (hr2 : w2.m_read_table_writer = some rtw2)
    (hacc1 : stw1.accepts_all) (hacc2 : stw2.accepts_all)
    (hC : 0 < w1.m_signal_chunk_size) (hC32 : w1.m_signal_chunk_size < UINT32_MOD)
    (hsize : w2.m_signal_chunk_size = w1.m_signal_chunk_size)
    (hlen : sig2.length = sig1.length) (hL : sig1.length < 2 ^ 63)
    (hfuel1 : num_chunks w1.m_signal_chunk_size sig1.length ≤ fuel1)
    (hfuel2 : num_chunks w1.m_signal_chunk_size sig1.length ≤ fuel2) :
    w1.chunk_trace fuel1 rd1 sig1 = chunk_bounds w1.m_signal_chunk_size sig1.length ∧
    w2.chunk_trace fuel2 rd2 sig2 = chunk_bounds w1.m_signal_chunk_size sig1.length ∧
    w2.chunk_trace fuel2 rd2 sig2 = w1.chunk_trace fuel1 rd1 sig1 ∧
    (FileWriterImpl.chunk_loop_bounds w1.m_signal_chunk_size rd1.read_id sig1 fuel1 0 stw1
        [] []).1
      = FileWriterImpl.chunk_loop w1.m_signal_chunk_size rd1.read_id sig1 fuel1 0 stw1 [] := by
  have h1 : w1.chunk_trace fuel1 rd1 sig1 = chunk_bounds w1.m_signal_chunk_size sig1.length := by
    unfold FileWriterImpl.chunk_trace
    rw [hs1, hr1]
    exact chunk_loop_bounds_accepting _ _ _ hC hC32 hL fuel1 stw1 hacc1 hfuel1
  have h2 : w2.chunk_trace fuel2 rd2 sig2 = chunk_bounds w1.m_signal_chunk_size sig1.length := by
    unfold FileWriterImpl.chunk_trace
    rw [hs2, hr2, hsize, ← hlen]
    exact chunk_loop_bounds_accepting _ _ _ hC hC32 (by rw [hlen]; exact hL) fuel2 stw2 hacc2
      (by rw [hlen]; exact hfuel2)
  exact ⟨h1, h2, h2.trans h1.symm, chunk_loop_bounds_fst _ _ _ _ _ _ _ _⟩

/-- Witness for C16: two reads of five samples with chunk size 2, with different
samples, different metadata and different rows already written, are both cut at
(0, 2), (2, 2), (4, 1). -/
theorem chunk_trace_depends_on_size_and_length_only_witness :
    demo_writer.chunk_trace 3 demo_read demo_signal = [(0, 2), (2, 2), (4, 1)] ∧
    demo_writer_used.chunk_trace 5 demo_read_other demo_signal_other
      = demo_writer.chunk_trace 3 demo_read demo_signal := by
  have h := chunk_trace_depends_on_size_and_length_only demo_writer demo_writer_used
    demo_signal_writer { demo_signal_writer with rows := [raw_row demo_marker [7, 7]] }
    demo_read_writer demo_read_writer demo_read demo_read_other demo_signal demo_signal_other
    3 5 rfl rfl rfl rfl ⟨rfl, fun _ => rfl⟩ ⟨rfl, fun _ => rfl⟩ (by decide) (by decide) rfl rfl
    (by decide) (by decide) (by decide)
  exact ⟨h.1.trans (by decide), h.2.2.1⟩

/-! ## The order of the two closes -/

/-- C17: on a split writer with both table writers present, `close()` closes the
read table writer first.  If that fails with `e`, `close()` returns `e` whatever the
signal table writer would have answered, the signal table writer is left as it was
(its `close` was not invoked), both table writers stay present and `is_closed()`
is false.  If it succeeds and the close of the signal table writer fails with `e`,
`close()` returns `e` with the read table writer torn down. -/
theorem close_closes_read_table_first (w : FileWriterImpl) (rtw : ReadTableWriter)
    (stw : SignalTableWriter)
    (hr : w.m_read_table_writer = some rtw) (hs : w.m_signal_table_writer = some stw) :
    (∀ e, rtw.close_fault = some e →
      w.close.1 = Except.error e ∧
      w.close.2.m_signal_table_writer = some stw ∧
      w.close.2.m_read_table_writer
        = some { rtw with close_calls := rtw.close_calls + 1 } ∧
      w.close.2.is_closed = false ∧ w.close.2.is_closed_assertion = true) ∧
    (∀ e, rtw.close_fault = none → stw.close_fault = some e →
      w.close.1 = Except.error e ∧
      w.close.2.m_read_table_writer = none ∧
      w.close.2.m_signal_table_writer
        = some { stw with close_calls := stw.close_calls + 1 }) := by
  constructor
  · intro e hf
    simp [FileWriterImpl.close, FileWriterImpl.close_read_table_writer, ReadTableWriter.close,
      hr, hs, hf, FileWriterImpl.is_closed, FileWriterImpl.is_closed_assertion]
  · intro e hf1 hf2
    simp [FileWriterImpl.close, FileWriterImpl.close_read_table_writer, ReadTableWriter.close,
      FileWriterImpl.close_signal_table_writer, SignalTableWriter.close, hr, hs, hf1, hf2,
      Status.OK]

/-- Witness for C17: both closes would fail; the error reported is the read table
writer's and the signal table writer's `close` was never invoked. -/
theorem close_closes_read_table_first_witness :
    both_close_fail_writer.close.1 = Except.error (Error.IoError "reads full") ∧
    both_close_fail_writer.close.2.m_signal_table_writer.map SignalTableWriter.close_calls
      = some 0 ∧
    both_close_fail_writer.close.2.is_closed = false := by
  have h := (close_closes_read_table_first both_close_fail_writer
    { demo_read_writer with close_fault := some (Error.IoError "reads full") }
    { demo_signal_writer with close_fault := some (Error.IoError "disk full") } rfl rfl).1
    (Error.IoError "reads full") rfl
  exact ⟨h.1, by rw [h.2.1]; rfl, h.2.2.2.1⟩

/-! ## The row-indices form of `add_complete_read` -/

/-- C18: on an open writer, `add_complete_read` (row-indices form) leaves the signal
table writer, the dictionaries and the chunk size as they are and performs exactly
one `add_read` with the given index list, whatever the list: when the read table
writer accepts the row (equivalently, when the call returns success), the read
table gains exactly one row, whose manifest is the given list, unchanged and in
order; when the call fails the read table is unchanged. -/
theorem add_complete_read_rows_frame (w : FileWriterImpl) (rtw : ReadTableWriter)
    (stw : SignalTableWriter) (read_data : ReadData) (signal_rows : List Nat)
    (hr : w.m_read_table_writer = some rtw) (hs : w.m_signal_table_writer = some stw) :
    (w.add_complete_read_rows read_data signal_rows).2.m_signal_table_writer = some stw ∧
    (w.add_complete_read_rows read_data signal_rows).2.m_dict_writers = w.m_dict_writers ∧
    (w.add_complete_read_rows read_data signal_rows).2.m_signal_chunk_size
      = w.m_signal_chunk_size ∧
    (w.add_complete_read_rows read_data signal_rows).2.m_read_table_writer
      = some (rtw.add_read read_data signal_rows).2 ∧
    (rtw.closed = false → rtw.append_fault rtw.rows.length = none →
      (w.add_complete_read_rows read_data signal_rows).1 = Status.OK) ∧
    ((w.add_complete_read_rows read_data signal_rows).1 = Status.OK →
      (w.add_complete_read_rows read_data signal_rows).2.read_rows
        = rtw.rows ++ [⟨read_data, signal_rows⟩]) ∧
    ((w.add_complete_read_rows read_data signal_rows).1 ≠ Status.OK →
      (w.add_complete_read_rows read_data signal_rows).2.read_rows = rtw.rows) := by
  have hdef : w.add_complete_read_rows read_data signal_rows
      = ((rtw.add_read read_data signal_rows).1.map (fun _ => ()),
          { w with m_read_table_writer := some (rtw.add_read read_data signal_rows).2 }) := by
    unfold FileWriterImpl.add_complete_read_rows
    rw [hs, hr]
  rw [hdef]
  refine ⟨hs, rfl, rfl, rfl, ?_, ?_, ?_⟩
  · intro hopen hfault
    simp [ReadTableWriter.add_read, hopen, hfault, Except.map, Status.OK]
  · intro hok
    simp only [FileWriterImpl.read_rows]
    rw [add_read_ok rtw read_data signal_rows hok]
  · intro hfail
    simp only [FileWriterImpl.read_rows]
    unfold ReadTableWriter.add_read at hfail ⊢
    by_cases hclosed : rtw.closed = true
    · simp [hclosed]
    · cases hf : rtw.append_fault rtw.rows.length with
      | none => simp [hclosed, hf, Except.map, Status.OK] at hfail
      | some e => simp [hclosed, hf]

/-- Witness for C18: the index list `[7, 3, 3]`, which names no row of the empty
signal table, is stored as it is. -/
theorem add_complete_read_rows_frame_witness :
    (demo_writer.add_complete_read_rows demo_read [7, 3, 3]).1 = Status.OK ∧
    (demo_writer.add_complete_read_rows demo_read [7, 3, 3]).2.read_rows.map
        ReadRow.signal_rows = [[7, 3, 3]] ∧
    (demo_writer.add_complete_read_rows demo_read [7, 3, 3]).2.signal_rows = [] := by
  have h := add_complete_read_rows_frame demo_writer demo_read_writer demo_signal_writer
    demo_read [7, 3, 3] rfl rfl
  refine ⟨h.2.2.2.2.1 rfl rfl, ?_, ?_⟩
  · rw [h.2.2.2.2.2.1 (h.2.2.2.2.1 rfl rfl)]
    rfl
  · simp only [FileWriterImpl.signal_rows, h.1]
    rfl

/-! ## Termination of the chunking loop -/

theorem open_truncate_ok (p : Path) (s : World) (h : s.only_remove_may_fail) :
    FileOutputStream.Open p false s = (Outcome.done ⟨p⟩, s.set p (some [])) := by
  unfold FileOutputStream.Open
  rw [h _ (by intro q; simp)]

theorem pure_bind_eq {α β : Type} (a : α) (f : α → M β) : ((pure a : M α) >>= f) = f a := by
  funext s
  rfl

theorem create_split_forward (env : Environment) (signal_path reads_path : Path)
    (name : String) (options : FileWriterOptions) (pool : MemoryPool) (s : World)
    (hpool : options.m_memory_pool = some pool)
    (hreads : s.files reads_path = none) (hsignal : s.files signal_path = none)
    (hd : env.dictionary_fault = none) (hm : env.metadata_fault = none)
    (hrw : env.read_writer_fault = none) (hsw : env.signal_writer_fault = none)
    (hf : s.only_remove_may_fail) :
    create_split_file_writer env signal_path reads_path name options s
      = (Outcome.done (FileWriter.split
          ⟨⟨⟨[], env.dict_append_fault⟩, ⟨[], env.dict_append_fault⟩,
              ⟨[], env.dict_append_fault⟩, ⟨[], env.dict_append_fault⟩⟩,
            some ⟨OutputStream.file ⟨reads_path⟩, [], false, 0, env.read_append_fault,
              env.read_close_fault⟩,
            some ⟨OutputStream.file ⟨signal_path⟩, [], false, 0, env.signal_append_fault,
              env.signal_close_fault⟩,
            options.m_max_signal_chunk_size⟩),
          (s.set reads_path (some [])).set signal_path (some [])) := by
  unfold create_split_file_writer
  rw [hpool]
  simp only
  rw [bind_of_done _ _ _ _ _ (fs_exists_apply reads_path s), hreads]
  simp only [Option.isSome_none, Bool.false_eq_true, if_false]
  rw [bind_of_done _ _ _ _ _ (fs_exists_apply signal_path s), hsignal]
  simp only [Option.isSome_none, Bool.false_eq_true, if_false]
  unfold make_dictionary_writers make_read_table_writer make_signal_table_writer
  rw [hd, hm, hrw, hsw]
  simp only [M.check, pure_bind_eq]
  rw [bind_of_done _ _ _ _ _ (open_truncate_ok reads_path s hf)]
  rw [bind_of_done _ _ _ _ _ (open_truncate_ok signal_path _ (only_remove_set _ _ _ hf))]
  rfl

theorem chunk_trace_short_of_fuel (C : Nat) (read_id : Uuid) (signal : List Int)
    (hC32 : C < UINT32_MOD) (hL : signal.length < 2 ^ 63)
    (fuel : Nat) (stw : SignalTableWriter) (hacc : stw.accepts_all)
    (hmore : ∀ j, j ≤ fuel → j * C < signal.length) :
    (FileWriterImpl.chunk_loop_bounds C read_id signal fuel 0 stw [] []).2
      = List.map (fun j => (j * C, min (signal.length - j * C) C)) (List.range' 0 fuel) := by
  have hpeel := chunk_loop_bounds_peel C read_id signal hC32 hL fuel fuel 0 stw [] []
    (Nat.le_refl _) (by intro j hj; rw [Nat.zero_add]; exact hmore j (by omega))
    hacc.1 (fun j _ => hacc.2 _)
  rw [Nat.zero_mul] at hpeel
  rw [hpeel, Nat.sub_self, chunk_loop_bounds_out_of_fuel]
  · simp
  · rw [Nat.zero_add]
    exact hmore fuel (Nat.le_refl _)

theorem chunk_at_zero (signal : List Int) (j : Nat) : chunk_at 0 signal j = [] := by
  simp [chunk_at]

/-- C19: on an open writer (chunk size `C` below `2 ^ 32`, signal of `L` samples).
With `C > 0` the chunking loop of `add_complete_read` ends within `ceil(L / C)`
iterations whatever the signal table writer answers, and with an accepting signal
table writer not before.  With `C = 0` and a non-empty signal the loop never ends
while `add_signal` succeeds: after any number of iterations it is still running,
every iteration has started at `chunk_start = 0` and appended an empty chunk, and
the read table is untouched; it ends only with the first failure of `add_signal`.
An empty signal ends the loop at once.  So with an accepting signal table writer
the call returns exactly when `C > 0` or the signal is empty.  Creation does not
reject a chunk size of 0: `create_split_file_writer` with `max_signal_chunk_size`
0 yields an open writer with chunk size 0. -/
theorem chunking_ends_iff_chunk_size_positive (w : FileWriterImpl)
    (stw : SignalTableWriter) (rtw : ReadTableWriter) (read_data : ReadData)
    (signal : List Int)
    (hs : w.m_signal_table_writer = some stw) (hr : w.m_read_table_writer = some rtw)
    (hC32 : w.m_signal_chunk_size < UINT32_MOD) (hL : signal.length < 2 ^ 63) :
    (0 < w.m_signal_chunk_size → ∀ fuel,
      num_chunks w.m_signal_chunk_size signal.length ≤ fuel →
      (w.add_complete_read fuel read_data signal).1 ≠ none) ∧
    (0 < w.m_signal_chunk_size → stw.accepts_all → ∀ fuel,
      fuel < num_chunks w.m_signal_chunk_size signal.length →
      (w.add_complete_read fuel read_data signal).1 = none) ∧
    (w.m_signal_chunk_size = 0 → signal ≠ [] → stw.accepts_all → ∀ fuel,
      (w.add_complete_read fuel read_data signal).1 = none ∧
      (w.add_complete_read fuel read_data signal).2.signal_rows
        = stw.rows ++ List.replicate fuel (raw_row read_data.read_id []) ∧
      (w.add_complete_read fuel read_data signal).2.read_rows = rtw.rows ∧
      w.chunk_trace fuel read_data signal = List.replicate fuel (0, 0)) ∧
    (w.m_signal_chunk_size = 0 → signal ≠ [] → stw.closed = false → ∀ (k : Nat) (e : Error),
      (∀ j, j < k → stw.append_fault (stw.rows.length + j) = none) →
      stw.append_fault (stw.rows.length + k) = some e → ∀ fuel, k < fuel →
      (w.add_complete_read fuel read_data signal).1 = some (Except.error e) ∧
      (w.add_complete_read fuel read_data signal).2.signal_rows
        = stw.rows ++ List.replicate k (raw_row read_data.read_id [])) ∧
    (signal = [] → ∀ fuel, (w.add_complete_read fuel read_data signal).1 ≠ none) ∧
    (stw.accepts_all →
      ((∃ fuel, (w.add_complete_read fuel read_data signal).1 ≠ none) ↔
        (0 < w.m_signal_chunk_size ∨ signal = []))) ∧
    (∀ (env : Environment) (signal_path reads_path : Path) (name : String)
      (options : FileWriterOptions) (pool : MemoryPool) (s0 : World),
      options.m_memory_pool = some pool → options.m_max_signal_chunk_size = 0 →
      s0.files reads_path = none → s0.files signal_path = none →
      env.dictionary_fault = none → env.metadata_fault = none →
      env.read_writer_fault = none → env.signal_writer_fault = none →
      s0.only_remove_may_fail →
      ∃ (impl : FileWriterImpl) (s1 : World),
        create_split_file_writer env signal_path reads_path name options s0
          = (Outcome.done (FileWriter.split impl), s1) ∧
        impl.m_signal_chunk_size = 0 ∧ impl.is_closed = false) := by
  have hpos : 0 < w.m_signal_chunk_size → ∀ fuel,
      num_chunks w.m_signal_chunk_size signal.length ≤ fuel →
      (w.add_complete_read fuel read_data signal).1 ≠ none := by
    intro hC fuel hfuel
    apply add_complete_read_status_of_loop w stw rtw read_data signal fuel hs hr
    have h := chunk_loop_terminates w.m_signal_chunk_size read_data.read_id signal hC hC32 hL
      fuel 0 stw [] (by omega)
    rwa [Nat.zero_mul] at h
  have hshort : 0 < w.m_signal_chunk_size → stw.accepts_all → ∀ fuel,
      fuel < num_chunks w.m_signal_chunk_size signal.length →
      (w.add_complete_read fuel read_data signal).1 = none := by
    intro hC hacc fuel hfuel
    rw [add_complete_read_of_loop_none w stw _ rtw read_data signal fuel hs hr
      (chunk_loop_short_of_fuel _ _ _ hC32 hL fuel stw hacc
        (fun j hj => (lt_num_chunks_iff hC _ _).1 (by omega)))]
  have hzero : w.m_signal_chunk_size = 0 → signal ≠ [] → stw.accepts_all → ∀ fuel,
      (w.add_complete_read fuel read_data signal).1 = none ∧
      (w.add_complete_read fuel read_data signal).2.signal_rows
        = stw.rows ++ List.replicate fuel (raw_row read_data.read_id []) ∧
      (w.add_complete_read fuel read_data signal).2.read_rows = rtw.rows ∧
      w.chunk_trace fuel read_data signal = List.replicate fuel (0, 0) := by
    intro hC hne hacc fuel
    have hlen : 0 < signal.length := List.length_pos.2 hne
    have hmore : ∀ j, j ≤ fuel → j * w.m_signal_chunk_size < signal.length := by
      intro j _
      rw [hC, Nat.mul_zero]
      exact hlen
    rw [add_complete_read_of_loop_none w stw _ rtw read_data signal fuel hs hr
      (chunk_loop_short_of_fuel _ _ _ hC32 hL fuel stw hacc hmore)]
    refine ⟨rfl, ?_, ?_, ?_⟩
    · simp only [FileWriterImpl.signal_rows, hC, chunk_at_zero]
      rw [List.map_const']
      simp
    · simp only [FileWriterImpl.read_rows, hr]
    · unfold FileWriterImpl.chunk_trace
      rw [hs, hr]
      simp only
      rw [chunk_trace_short_of_fuel _ _ _ hC32 hL fuel stw hacc hmore, hC]
      simp only [Nat.mul_zero, Nat.sub_zero, Nat.min_zero]
      rw [List.map_const']
      simp
  refine ⟨hpos, hshort, hzero, ?_, ?_, ?_, ?_⟩
  · intro hC hne hopen k e hbefore hat fuel hfuel
    have hlen : 0 < signal.length := List.length_pos.2 hne
    rw [add_complete_read_of_loop_error w stw _ rtw read_data signal fuel e hs hr
      (chunk_loop_refused_at _ _ _ hC32 hL fuel k stw e hopen hbefore hat
        (by rw [hC, Nat.mul_zero]; exact hlen) hfuel)]
    refine ⟨rfl, ?_⟩
    simp only [FileWriterImpl.signal_rows, hC, chunk_at_zero]
    rw [List.map_const']
    simp
  · intro hnil fuel
    apply add_complete_read_status_of_loop w stw rtw read_data signal fuel hs hr
    unfold FileWriterImpl.chunk_loop
    rw [hnil]
    simp
  · intro hacc
    constructor
    · rintro ⟨fuel, hfuel⟩
      by_cases hC : 0 < w.m_signal_chunk_size
      · exact Or.inl hC
      · right
        by_contra hne
        exact hfuel (hzero (by omega) hne hacc fuel).1
    · rintro (hC | hnil)
      · exact ⟨_, hpos hC _ (Nat.le_refl _)⟩
      · refine ⟨0, ?_⟩
        apply add_complete_read_status_of_loop w stw rtw read_data signal 0 hs hr
        unfold FileWriterImpl.chunk_loop
        rw [hnil]
        simp
  · intro env signal_path reads_path name options pool s0 hpool hzeroC hreads hsignal hd hm
      hrw hsw hf
    refine ⟨_, _, create_split_forward env signal_path reads_path name options pool s0 hpool
      hreads hsignal hd hm hrw hsw hf, hzeroC, rfl⟩

/-- Witness for C19: with chunk size 0 and five samples the call is still running
after four iterations, each of which appended an empty chunk. -/
theorem chunking_ends_iff_chunk_size_positive_witness :
    (zero_chunk_writer.add_complete_read 4 demo_read demo_signal).1 = none ∧
    (zero_chunk_writer.add_complete_read 4 demo_read demo_signal).2.signal_rows.map
        SignalRow.samples = [[], [], [], []] ∧
    zero_chunk_writer.chunk_trace 4 demo_read demo_signal = [(0, 0), (0, 0), (0, 0), (0, 0)] := by
  have h := (chunking_ends_iff_chunk_size_positive zero_chunk_writer demo_signal_writer
    demo_read_writer demo_read demo_signal rfl rfl (by decide) (by decide)).2.2.1 rfl
    (by decide) ⟨rfl, fun _ => rfl⟩ 4
  exact ⟨h.1, by rw [h.2.1]; rfl, h.2.2.2⟩

/-! ## A failing `add_signal` -/

/-- Counterexample to C20: on `second_append_fails_writer` (both tables empty) the
row-indices form of `add_complete_read` stores a read row with the manifest `[0]`
and succeeds, the signal table staying empty.  The raw-samples form then gets its
first chunk accepted as signal row 0 and its second chunk refused: it returns the
error and appends no read row, and the signal row 0 it leaves behind is referenced
by the read row stored before. -/
theorem failed_read_rows_are_referenced :
    (second_append_fails_writer.add_complete_read_rows demo_read_other [0]).1 = Status.OK ∧
    (second_append_fails_writer.add_complete_read_rows demo_read_other [0]).2.signal_rows = [] ∧
    ((second_append_fails_writer.add_complete_read_rows demo_read_other [0]).2.add_complete_read 3
        demo_read demo_signal).1 = some (Except.error (Error.IoError "disk full")) ∧
    ((second_append_fails_writer.add_complete_read_rows demo_read_other [0]).2.add_complete_read 3
        demo_read demo_signal).2.read_rows.map ReadRow.signal_rows = [[0]] ∧
    ((second_append_fails_writer.add_complete_read_rows demo_read_other [0]).2.add_complete_read 3
        demo_read demo_signal).2.signal_rows.map SignalRow.samples = [[10, -20]] ∧
    ¬ ((second_append_fails_writer.add_complete_read_rows demo_read_other [0]).2.add_complete_read
        3 demo_read demo_signal).2.unreferenced 0 := by
  refine ⟨rfl, rfl, rfl, rfl, rfl, ?_⟩
  intro h
  exact h ⟨demo_read_other, [0]⟩ (List.mem_singleton.mpr rfl) (List.mem_singleton.mpr rfl)

/-- C20, amended: on an open writer, let the signal table writer accept the first
`k` chunks of a read and refuse chunk `k` with `e` (chunk `k` exists: `k * C < L`).
Then `add_complete_read` (raw-samples form) returns `e`, the read table is unchanged
(no read row is appended), and the signal table keeps the rows of the `k` accepted
chunks, at the indices `n, ..., n + k - 1` that follow the `n` rows held before.
These rows are referenced by no read row exactly when no read row held before the
call lists an index from `n` to `n + k - 1`; this is so whenever the read rows held
before the call list only signal rows that existed then.  With `k = 0` the writer is
handed back unchanged. -/
theorem add_complete_read_keeps_rows_of_failed_read (w : FileWriterImpl)
    (stw : SignalTableWriter) (rtw : ReadTableWriter) (read_data : ReadData)
    (signal : List Int) (fuel k : Nat) (e : Error)
    (hs : w.m_signal_table_writer = some stw) (hr : w.m_read_table_writer = some rtw)
    (hC32 : w.m_signal_chunk_size < UINT32_MOD) (hL : signal.length < 2 ^ 63)
    (hopen : stw.closed = false)
    (hbefore : ∀ j, j < k → stw.append_fault (stw.rows.length + j) = none)
    (hat : stw.append_fault (stw.rows.length + k) = some e)
    (hk : k * w.m_signal_chunk_size < signal.length) (hfuel : k < fuel) :
    (w.add_complete_read fuel read_data signal).1 = some (Except.error e) ∧
    (w.add_complete_read fuel read_data signal).2.m_read_table_writer = some rtw ∧
    (w.add_complete_read fuel read_data signal).2.read_rows = rtw.rows ∧
    (w.add_complete_read fuel read_data signal).2.signal_rows
      = stw.rows ++ List.map
          (fun j => raw_row read_data.read_id (chunk_at w.m_signal_chunk_size signal j))
          (List.range' 0 k) ∧
    ((∀ j, j < k →
        (w.add_complete_read fuel read_data signal).2.unreferenced (stw.rows.length + j)) ↔
      ∀ row ∈ rtw.rows, ∀ index ∈ row.signal_rows,
        index < stw.rows.length ∨ stw.rows.length + k ≤ index) ∧
    ((∀ row ∈ rtw.rows, ∀ index ∈ row.signal_rows, index < stw.rows.length) →
      ∀ j, j < k →
        (w.add_complete_read fuel read_data signal).2.unreferenced (stw.rows.length + j)) ∧
    (k = 0 → (w.add_complete_read fuel read_data signal).2 = w) := by
  rw [add_complete_read_of_loop_error w stw _ rtw read_data signal fuel e hs hr
    (chunk_loop_refused_at _ _ _ hC32 hL fuel k stw e hopen hbefore hat hk hfuel)]
  have hiff : (∀ j, j < k → ∀ row ∈ rtw.rows, stw.rows.length + j ∉ row.signal_rows) ↔
      ∀ row ∈ rtw.rows, ∀ index ∈ row.signal_rows,
        index < stw.rows.length ∨ stw.rows.length + k ≤ index := by
    constructor
    · intro h row hrow index hindex
      by_contra hcon
      have hj : index - stw.rows.length < k := by omega
      have heq : stw.rows.length + (index - stw.rows.length) = index := by omega
      have hno := h _ hj row hrow
      rw [heq] at hno
      exact hno hindex
    · intro h j hj row hrow hmem
      have hcase := h row hrow _ hmem
      omega
  refine ⟨rfl, hr, ?_, ?_, ?_, ?_, ?_⟩
  · simp only [FileWriterImpl.read_rows, hr]
  · simp only [FileWriterImpl.signal_rows]
  · simpa only [FileWriterImpl.unreferenced, FileWriterImpl.read_rows, hr] using hiff
  · intro hold
    simp only [FileWriterImpl.unreferenced, FileWriterImpl.read_rows, hr]
    exact hiff.mpr (fun row hrow index hindex => Or.inl (hold row hrow index hindex))
  · intro hk0
    subst hk0
    cases w with
    | mk dicts rt st size =>
      simp only at hs
      subst hs
      simp

/-- Witness for C20: the writer holds signal row 0 and a read row referencing it;
the storage refuses row 2, so of a read of five samples with chunk size 2 the first
chunk stays in the signal table as row 1, the read table keeps its single row, and
row 1 is referenced by no read row. -/
theorem add_complete_read_keeps_rows_of_failed_read_witness :
    (third_append_fails_writer.add_complete_read 3 demo_read demo_signal).1
      = some (Except.error (Error.IoError "disk full")) ∧
    (third_append_fails_writer.add_complete_read 3 demo_read demo_signal).2.read_rows.map
        ReadRow.signal_rows = [[0]] ∧
    (third_append_fails_writer.add_complete_read 3 demo_read demo_signal).2.signal_rows.map
        SignalRow.samples = [[7, 7], [10, -20]] ∧
    (third_append_fails_writer.add_complete_read 3 demo_read demo_signal).2.unreferenced 1 := by
  have h := add_complete_read_keeps_rows_of_failed_read third_append_fails_writer
    { demo_signal_writer with
      rows := [raw_row demo_marker [7, 7]]
      append_fault := fun k => if k = 2 then some (Error.IoError "disk full") else none }
    { demo_read_writer with rows := [⟨demo_read_other, [0]⟩] }
    demo_read demo_signal 3 1 (Error.IoError "disk full") rfl rfl (by decide)
    (by decide) rfl
    (fun j hj => by
      have h0 : j = 0 := by omega
      subst h0
      rfl)
    rfl (by decide) (by decide)
  refine ⟨h.1, by rw [h.2.2.1]; rfl, by rw [h.2.2.2.1]; rfl, ?_⟩
  refine h.2.2.2.2.2.1 ?_ 0 (by decide)
  intro row hrow index hindex
  rw [List.mem_singleton.mp hrow] at hindex
  rw [List.mem_singleton.mp hindex]
  decide

/-! ## A close that fails after the table writers were closed -/

theorem bind_footers {α β : Type} (m : M α) (f : α → M β)
    (hm : ∀ s, (m s).2.footers = s.footers)
    (hf : ∀ a s, (f a s).2.footers = s.footers) :
    ∀ s, ((m >>= f) s).2.footers = s.footers := by
  intro s
  show (M.bind m f s).2.footers = _
  unfold M.bind
  have h := hm s
  cases hp : m s with
  | mk o s1 =>
    rw [hp] at h
    cases o with
    | done a => exact (hf a s1).trans h
    | failed e => exact h
    | out_of_fuel => exact h

theorem bind_footers_unless_done {α : Type} (m : M α) (f : α → M Unit)
    (hm : ∀ s, (m s).2.footers = s.footers)
    (hf : ∀ a s, (f a s).1 ≠ Outcome.done () → (f a s).2.footers = s.footers) :
    ∀ s, ((m >>= f) s).1 ≠ Outcome.done () → ((m >>= f) s).2.footers = s.footers := by
  intro s
  show (M.bind m f s).1 ≠ Outcome.done () → (M.bind m f s).2.footers = _
  unfold M.bind
  have h := hm s
  cases hp : m s with
  | mk o s1 =>
    rw [hp] at h
    cases o with
    | done a => exact fun hne => (hf a s1 hne).trans h
    | failed e => exact fun _ => h
    | out_of_fuel => exact fun _ => h

theorem open_write_footers (p : Path) (append : Bool) :
    ∀ s, (FileOutputStream.Open p append s).2.footers = s.footers := by
  intro s
  unfold FileOutputStream.Open
  split
  · rfl
  · split <;> rfl

theorem tell_footers (file : FileOutputStream) :
    ∀ s, (file.Tell s).2.footers = s.footers := by
  intro s
  unfold FileOutputStream.Tell
  split
  · rfl
  · split <;> rfl

theorem write_footers (file : FileOutputStream) (data : List Byte) :
    ∀ s, (file.Write data s).2.footers = s.footers := by
  intro s
  unfold FileOutputStream.Write
  split
  · rfl
  · split <;> rfl

theorem padd_file_footers (file : FileOutputStream) (n : Nat) :
    ∀ s, (padd_file file n s).2.footers = s.footers := by
  unfold padd_file
  refine bind_footers _ _ (tell_footers file) (fun tell s => ?_)
  by_cases h0 : bytes_to_pad n tell.toNat = 0
  · rw [if_pos h0]
    rfl
  · rw [if_neg h0]
    exact write_footers file _ s

theorem write_section_marker_footers (file : FileOutputStream) (m : Uuid) :
    ∀ s, (write_section_marker file m s).2.footers = s.footers :=
  write_footers file _

theorem readable_open_footers (p : Path) :
    ∀ s, (ReadableFile.Open p s).2.footers = s.footers := by
  intro s
  unfold ReadableFile.Open
  split
  · rfl
  · split <;> rfl

theorem get_size_footers (file : ReadableFile) :
    ∀ s, (file.GetSize s).2.footers = s.footers := by
  intro s
  unfold ReadableFile.GetSize
  split
  · rfl
  · split <;> rfl

theorem read_footers (file : ReadableFile) (n : Nat) :
    ∀ s, (file.Read n s).2.footers = s.footers := by
  intro s
  unfold ReadableFile.Read
  split
  · rfl
  · split <;> rfl

theorem fs_remove_footers (p : Path) :
    ∀ s, (fs_remove p s).2.footers = s.footers := by
  intro s
  unfold fs_remove
  split <;> rfl

theorem copy_loop_footers (file : FileOutputStream) (file_size : Int) :
    ∀ (fuel : Nat) (rf : ReadableFile) (copied : Int) (s : World),
      (copy_loop file file_size fuel rf copied s).2.footers = s.footers := by
  intro fuel
  induction fuel with
  | zero =>
    intro rf copied s
    unfold copy_loop
    split <;> rfl
  | succ n ih =>
    intro rf copied s
    unfold copy_loop
    split
    · exact bind_footers _ _ (read_footers rf _)
        (fun r => bind_footers _ _ (write_footers file _) (fun _ => ih _ _)) s
    · rfl

theorem write_footer_footers_unless_done (fmt : Format) (file : FileOutputStream)
    (m id : Uuid) (name : String) (a b : FileInfo) :
    ∀ s, (write_footer fmt file m id name a b s).1 ≠ Outcome.done () →
      (write_footer fmt file m id name a b s).2.footers = s.footers := by
  unfold write_footer
  refine bind_footers_unless_done _ _ (write_footers file _) (fun _ s hne => ?_)
  exact absurd rfl hne

theorem splice_footers_unless_done (fmt : Format) (fuel : Nat) (w : CombinedFileWriterImpl) :
    ∀ s, (CombinedFileWriterImpl.splice fmt fuel w s).1 ≠ Outcome.done () →
      (CombinedFileWriterImpl.splice fmt fuel w s).2.footers = s.footers := by
  unfold CombinedFileWriterImpl.splice
  refine bind_footers_unless_done _ _ (open_write_footers _ _) (fun file => ?_)
  refine bind_footers_unless_done _ _ (tell_footers _) (fun tell => ?_)
  refine bind_footers_unless_done _ _ (padd_file_footers _ _) (fun _ => ?_)
  refine bind_footers_unless_done _ _ (write_section_marker_footers _ _) (fun _ => ?_)
  refine bind_footers_unless_done _ _ (tell_footers _) (fun read_start => ?_)
  refine bind_footers_unless_done _ _ (readable_open_footers _) (fun rf => ?_)
  refine bind_footers_unless_done _ _ (get_size_footers _) (fun file_size => ?_)
  refine bind_footers_unless_done _ _ (copy_loop_footers _ _ _ _ _) (fun _ => ?_)
  refine bind_footers_unless_done _ _ (tell_footers _) (fun read_end => ?_)
  refine bind_footers_unless_done _ _ (fs_remove_footers _) (fun ec => ?_)
  cases ec with
  | some e => exact fun s _ => rfl
  | none =>
    refine bind_footers_unless_done _ _ (padd_file_footers _ _) (fun _ => ?_)
    refine bind_footers_unless_done _ _ (write_section_marker_footers _ _) (fun _ => ?_)
    exact write_footer_footers_unless_done _ _ _ _ _ _ _

theorem close_read_table_writer_signal (w : FileWriterImpl) :
    w.close_read_table_writer.2.m_signal_table_writer = w.m_signal_table_writer := by
  unfold FileWriterImpl.close_read_table_writer
  cases w.m_read_table_writer with
  | none => rfl
  | some rtw =>
    simp only
    cases hp : rtw.close with
    | mk r rtw1 =>
      cases r with
      | error e => rfl
      | ok u => rfl

theorem close_signal_table_writer_error (w w1 : FileWriterImpl) (e : Error)
    (h : w.close_signal_table_writer = (Except.error e, w1)) :
    w1.m_signal_table_writer ≠ none := by
  unfold FileWriterImpl.close_signal_table_writer at h
  cases hw : w.m_signal_table_writer with
  | none =>
    rw [hw] at h
    simp [Status.OK] at h
  | some stw =>
    rw [hw] at h
    simp only at h
    cases hp : stw.close with
    | mk r stw1 =>
      rw [hp] at h
      cases r with
      | error e1 =>
        simp only at h
        injection h with _ h2
        rw [← h2]
        simp
      | ok u => simp [Status.OK] at h

theorem combined_close_failed (fmt : Format) (fuel : Nat) (w w1 : CombinedFileWriterImpl)
    (s s1 : World) (e : Error) (h : w.close fmt fuel s = (Outcome.failed e, w1, s1))
    (hs : w1.m_signal_table_writer = none) :
    w1 = { w with toFileWriterImpl :=
      { w.toFileWriterImpl with m_read_table_writer := none, m_signal_table_writer := none } } ∧
    CombinedFileWriterImpl.splice fmt fuel w s = (Outcome.failed e, s1) := by
  unfold CombinedFileWriterImpl.close at h
  split at h
  · simp at h
  · next hc =>
    have hopen : w.m_signal_table_writer ≠ none := by
      intro hn
      apply hc
      simp [FileWriterImpl.is_closed, hn]
    split at h
    · next e1 b1 h1 =>
      exfalso
      injection h with _ h4
      injection h4 with h4 _
      have hsig := close_read_table_writer_signal w.toFileWriterImpl
      rw [h1] at hsig
      rw [← h4] at hs
      exact hopen (hsig.symm.trans hs)
    · next u1 b1 h1 =>
      split at h
      · next e2 b2 h2 =>
        exfalso
        injection h with _ h4
        injection h4 with h4 _
        rw [← h4] at hs
        exact close_signal_table_writer_error _ _ _ h2 hs
      · next u2 b2 h2 =>
        injection h with h3 h4
        injection h4 with h4 h5
        refine ⟨?_, ?_⟩
        · rw [← h4, close_signal_table_writer_ok _ _ _ h2, close_read_table_writer_ok _ _ _ h1]
        · rw [← h3, ← h5]

/-- C21: let a `close()` of a combined writer return a failure `e` and leave the
signal table writer torn down, which is the case exactly when the failure came
after both table writers had been closed (from the re-opening of the main file, a
`Tell`, the padding, a section marker, the copy of the read table, the removal of
the temporary file or the writing of the footer).  Then the read table writer is
torn down as well and the failed `close()` wrote no footer; after any sequence of
further calls of the public interface a `close()` returns success and hands back
the writer and the world unchanged, and over the whole sequence the world (every
file, and the list of footers written) stays as the failed `close()` left it: the
splice and the footer are not tried again, and the file stays without a footer. -/
theorem failed_close_is_not_retried (fmt : Format) (fuel : Nat)
    (w w1 : CombinedFileWriterImpl) (s s1 : World) (e : Error)
    (h : w.close fmt fuel s = (Outcome.failed e, w1, s1))
    (hs : w1.m_signal_table_writer = none)
    (calls : List Call) (fuel2 : Nat) :
    w1.m_read_table_writer = none ∧
    s1.footers = s.footers ∧
    (FileWriter.run fmt calls (FileWriter.combined w1, s1)).1.close fmt fuel2
        (FileWriter.run fmt calls (FileWriter.combined w1, s1)).2
      = (Outcome.done (), (FileWriter.run fmt calls (FileWriter.combined w1, s1)).1,
          (FileWriter.run fmt calls (FileWriter.combined w1, s1)).2) ∧
    (FileWriter.run fmt calls (FileWriter.combined w1, s1)).2 = s1 ∧
    (FileWriter.run fmt calls (FileWriter.combined w1, s1)).2.footers = s.footers := by
  obtain ⟨hw1, hsplice⟩ := combined_close_failed fmt fuel w w1 s s1 e h hs
  have hfooters : s1.footers = s.footers := by
    have hk := splice_footers_unless_done fmt fuel w s
    rw [hsplice] at hk
    exact hk (by simp)
  have htd : (FileWriter.combined w1).torn_down := hs
  obtain ⟨h1, h2, _, _⟩ := torn_down_run fmt calls (FileWriter.combined w1) s1 htd
  refine ⟨?_, hfooters, torn_down_close fmt fuel2 _ _ h1, h2, ?_⟩
  · rw [hw1]
  · rw [h2]
    exact hfooters

/-- Witness for C21: `demo_combined` is closed in a world that refuses removals, so
the `close()` fails after the read table was spliced in; a further `close()`, the
adding of a pore and one more `close()` leave the world as the failed `close()` left
it, with no footer. -/
theorem failed_close_is_not_retried_witness :
    (demo_combined.close demo_format 2 remove_fails_world).1
      = Outcome.failed (Error.Invalid "Failed to remove temporary file: busy") ∧
    (FileWriter.run demo_format [Call.close 2, Call.add_pore demo_pore, Call.close 2]
        (FileWriter.combined (demo_combined.close demo_format 2 remove_fails_world).2.1,
          (demo_combined.close demo_format 2 remove_fails_world).2.2)).2
      = (demo_combined.close demo_format 2 remove_fails_world).2.2 ∧
    (FileWriter.run demo_format [Call.close 2, Call.add_pore demo_pore, Call.close 2]
        (FileWriter.combined (demo_combined.close demo_format 2 remove_fails_world).2.1,
          (demo_combined.close demo_format 2 remove_fails_world).2.2)).2.footers = [] ∧
    ((FileWriter.run demo_format [Call.close 2, Call.add_pore demo_pore, Call.close 2]
        (FileWriter.combined (demo_combined.close demo_format 2 remove_fails_world).2.1,
          (demo_combined.close demo_format 2 remove_fails_world).2.2)).1.close demo_format 2
        (FileWriter.run demo_format [Call.close 2, Call.add_pore demo_pore, Call.close 2]
          (FileWriter.combined (demo_combined.close demo_format 2 remove_fails_world).2.1,
            (demo_combined.close demo_format 2 remove_fails_world).2.2)).2).1
      = Outcome.done () := by
  have h := failed_close_is_not_retried demo_format 2 demo_combined
    (demo_combined.close demo_format 2 remove_fails_world).2.1 remove_fails_world
    (demo_combined.close demo_format 2 remove_fails_world).2.2
    (Error.Invalid "Failed to remove temporary file: busy") rfl rfl
    [Call.close 2, Call.add_pore demo_pore, Call.close 2] 2
  exact ⟨rfl, h.2.2.2.1, h.2.2.2.2, by rw [h.2.2.1]⟩

end Pod5
